import Mathlib

/-!
# Tender / bid management backend: authorization-gated lifecycle

A shallow embedding of the service and repository layers of the tender
service (`internal/service`, `internal/repository`, `internal/models`,
`internal/errors`), and of the handlers of `api/handlers` for the tender and bid
operations (`CreateTender`, the listings of tenders and `GetUserBids` have no
handler here).

* A Go result `(T, error)` is an `Except Err T`; a bare `error` result is an
  `Option Err` (`none` is `nil`).
* The PostgreSQL database behind `*sql.DB` is an explicit value `DB` (one list
  of rows per table).  Every repository method is one round trip: it is
  recorded in `World.calls`, advances the logical clock `World.now`, and may be
  failed by the driver (`World.faults`, consumed one entry per round trip).
* Identifiers are compared as strings.
* `uuid.Parse` (github.com/google/uuid), `strconv.Atoi`, the identifiers the
  database generates, the collation behind `ORDER BY`, and the execution of the
  dynamically built statement of `bidRepository.EditBid` are parameters (`Env`).
* A handler takes its path variables and query parameters as strings (empty
  when missing) and its decoded JSON body as an `Option` (`none` when decoding
  fails), and yields the `Response` it writes.
* Definitions in namespace `spec` restate a table or formula of the
  specification, to be compared with the definition taken from the code.
* The table definitions are not among the sources. What the store does on its
  own (generated ids, initial version, the version bump and History snapshot on
  every update of a tender) is in namespace `schema`, modelled from the spec.
-/

set_option autoImplicit false

/-! ## internal/errors -/

namespace my_errors

/-- Error values. The eleven sentinels of `internal/errors/errors.go`, plus
`sql.ErrNoRows`, the remaining error values of `database/sql` and its driver, and
the values `errors.New` makes on the spot (`errorString`). -/
inductive Err where
  | ErrUnauthorized
  | ErrForbidden
  | ErrBadRequest
  | ErrNotFound
  | ErrInternal
  | ErrUserNotFound
  | ErrTenderNotFound
  | ErrTenderHistoryNotFound
  | ErrBidNotFound
  | ErrInvalidBidStatus
  | ErrInvalidUUID
  | sqlErrNoRows
  | driver (msg : String)
  | errorString (text : String)
  deriving DecidableEq, Repr

end my_errors

open my_errors (Err)
open my_errors.Err

/-- Go `errors.Is` on unwrapped sentinel values: identity of the error value. -/
def errors.Is (err target : Err) : Bool := decide (err = target)

/-! ## internal/models -/

namespace models

/-- Go `type TenderStatus string`. -/
abbrev TenderStatus := String

/-- Constant `Created`. -/
def Created : TenderStatus := "CREATED"
/-- Constant `Published`. -/
def Published : TenderStatus := "PUBLISHED"
/-- Constant `Closed`. -/
def Closed : TenderStatus := "CLOSED"

/-- Struct `models.Tender`; also the row type of table `tender`. Times are
ticks of the logical clock, the zero time is `0`. -/
structure Tender where
  ID : String := ""
  Name : String := ""
  Description : String := ""
  ServiceType : String := ""
  Status : TenderStatus := ""
  OrganizationID : String := ""
  CreatorID : String := ""
  Version : Int := 0
  CreatedAt : Nat := 0
  UpdatedAt : Nat := 0
  deriving DecidableEq, Repr

/-- Struct `models.TenderHistory`; also the row type of table `tender_history`. -/
structure TenderHistory where
  ID : String := ""
  TenderID : String := ""
  Name : String := ""
  Description : String := ""
  ServiceType : String := ""
  Status : TenderStatus := ""
  OrganizationID : String := ""
  CreatorID : String := ""
  Version : Int := 0
  UpdatedAt : Nat := 0
  deriving DecidableEq, Repr

/-- Go `type BidAuthorType string`. -/
abbrev BidAuthorType := String
/-- Go `type BidStatus string`. -/
abbrev BidStatus := String

/-- Constant `BidStatusCreated`. -/
def BidStatusCreated : BidStatus := "CREATED"
/-- Constant `BidStatusPublished`. -/
def BidStatusPublished : BidStatus := "PUBLISHED"
/-- Constant `BidStatusCanceled`. -/
def BidStatusCanceled : BidStatus := "CANCELED"

/-- Struct `models.Bid`; also the row type of table `bid`. -/
structure Bid where
  ID : String := ""
  TenderID : String := ""
  OrganizationID : String := ""
  UserID : String := ""
  AuthorType : BidAuthorType := ""
  Description : String := ""
  Status : BidStatus := ""
  CreatedAt : String := ""
  UpdatedAt : String := ""
  deriving DecidableEq, Repr

/-- Struct `models.User`; also the row type of table `employee`. Its declaration
is not among the sources: the fields are the ones `userRepository` scans. -/
structure User where
  ID : String := ""
  Username : String := ""
  FirstName : String := ""
  LastName : String := ""
  CreatedAt : Nat := 0
  UpdatedAt : Nat := 0
  deriving DecidableEq, Repr

end models

open models

/-! ## The database -/

/-- Row of table `organization_responsible` (the columns the queries use). -/
structure OrganizationResponsible where
  user_id : String
  organization_id : String
  deriving DecidableEq, Repr

/-- Row of table `bid_review` (the columns `AddBidFeedback` inserts). -/
structure BidReview where
  bid_id : String
  description : String
  created_at : Nat
  deriving DecidableEq, Repr

/-- Contents of the database. `issued` counts the identifiers generated so far
by the `id` column defaults. -/
structure DB where
  tender : List Tender := []
  tender_history : List TenderHistory := []
  employee : List User := []
  organization_responsible : List OrganizationResponsible := []
  bid : List Bid := []
  bid_review : List BidReview := []
  issued : Nat := 0
  deriving DecidableEq, Repr

/-- A Go `interface{}` value as decoded from JSON (numbers by their literal). -/
inductive Value where
  | null
  | bool (b : Bool)
  | number (literal : String)
  | string (s : String)
  deriving DecidableEq, Repr

/-- What `db.Exec` hands back for a statement the database accepted: the outcome
of `result.RowsAffected()` and the new contents. -/
structure ExecResult where
  rowsAffected : Except String Int
  db : DB

/-- Collaborators that are not part of the repository. -/
structure Env where
  /-- Whether `uuid.Parse` (github.com/google/uuid) returns without error. -/
  uuidParse : String → Bool
  /-- The `id` column default: the n-th identifier the database generates. -/
  genUUID : Nat → String
  /-- The database executing a statement assembled at run time, on its
  parameters: a driver error, or the result of the accepted statement. -/
  execDynamic : String → List Value → DB → Except String ExecResult
  /-- The value `strconv.Atoi` returns, `none` when it returns an error. -/
  atoi : String → Option Int
  /-- The order of the database collation on text: whether the first text sorts
  at or before the second under `ORDER BY`. -/
  collationLE : String → String → Bool

/-- Repository methods, with their arguments: one entry per round trip. -/
inductive Call where
  | CreateTender (tender : Tender)
  | GetTenderByID (tenderId : String)
  | UpdateTenderStatus (tender : Tender)
  | UpdateTender (tender : Tender)
  | IsUserResponsibleForOrganization (userId organizationId : String)
  | GetTenderHistoryByVersion (tenderId : String) (version : Int)
  | FindUserIDByUsername (username : String)
  | GetUserByID (userID : String)
  | CheckUserPermission (userID organizationID : String)
  | GetUserByUsername (username : String)
  | CreateBid (bid : Bid)
  | GetBidByID (bidID : String)
  | UpdateBidStatus (bidID : String) (status : BidStatus)
  | EditBid (bidID : String) (updates : List (String × Value))
  | AddBidFeedback (bidID feedback : String)
  | GetBidsByTenderID (tenderID : String) (limit offset : Int)
  | GetBidsByUserID (userID : String) (limit offset : Int)
  deriving DecidableEq, Repr

/-- Whether a repository method issues INSERT or UPDATE. -/
def Call.isWrite : Call → Bool
  | .CreateTender _ => true
  | .UpdateTenderStatus _ => true
  | .UpdateTender _ => true
  | .CreateBid _ => true
  | .UpdateBidStatus _ _ => true
  | .EditBid _ _ => true
  | .AddBidFeedback _ _ => true
  | _ => false

/-- The database together with what surrounds one request: the outcome the
driver imposes on the coming round trips (`some msg`: that round trip fails with
driver error `msg`; past the end of the list nothing fails), the round trips
made so far, and the clock read by `NOW()`. -/
structure World where
  db : DB := {}
  faults : List (Option String) := []
  calls : List Call := []
  now : Nat := 0
  deriving DecidableEq, Repr

/-- Driver outcome of the next round trip. -/
def World.fault (w : World) : Option String :=
  match w.faults with
  | [] => none
  | f :: _ => f

/-- One round trip: logged, its driver outcome consumed, the clock advanced. -/
def World.tick (w : World) (c : Call) : World :=
  { w with faults := w.faults.tail, calls := w.calls ++ [c], now := w.now + 1 }

/-- None of the next `n` round trips is failed by the driver. -/
def World.quiet (w : World) (n : Nat) : Prop :=
  ∀ f ∈ w.faults.take n, f = none

instance (w : World) (n : Nat) : Decidable (w.quiet n) := by
  unfold World.quiet; exact inferInstance

/-- Between `w` and `w1` no INSERT or UPDATE round trip was made and every table
is as it was. -/
def World.noWrite (w w1 : World) : Prop :=
  w1.db = w.db ∧ ∃ cs : List Call, w1.calls = w.calls ++ cs ∧ ∀ c ∈ cs, c.isWrite = false

/-- The Version/history relation between the stored tender `t` before a mutation
and the database `db1` after it: the row stored under the id of `t` has the next
version, and the History log grew by exactly one row, keyed by the id and the
prior version of `t` and holding its prior name, description, service type and
status. -/
def versionBumped (db db1 : DB) (t : Tender) : Prop :=
  (∃ t1, db1.tender.find? (fun r => r.ID == t.ID) = some t1 ∧ t1.Version = t.Version + 1) ∧
  ∃ row : TenderHistory, db1.tender_history = db.tender_history ++ [row] ∧
    row.TenderID = t.ID ∧ row.Version = t.Version ∧ row.Name = t.Name ∧
    row.Description = t.Description ∧ row.ServiceType = t.ServiceType ∧
    row.Status = t.Status

/-! ### Queries (the WHERE clauses) -/

/-- Rows of `tender WHERE id = $1`, first one. -/
def DB.tenderByID (db : DB) (tenderId : String) : Option Tender :=
  db.tender.find? (fun r => r.ID == tenderId)

/-- Rows of `tender_history WHERE tender_id = $1 AND version = $2`, first one. -/
def DB.historyByVersion (db : DB) (tenderId : String) (version : Int) : Option TenderHistory :=
  db.tender_history.find? (fun r => r.TenderID == tenderId && r.Version == version)

/-- Rows of `employee WHERE username = $1`, first one. -/
def DB.userByUsername (db : DB) (username : String) : Option User :=
  db.employee.find? (fun r => r.Username == username)

/-- Rows of `employee WHERE id = $1`, first one. -/
def DB.userByID (db : DB) (userID : String) : Option User :=
  db.employee.find? (fun r => r.ID == userID)

/-- Rows of `organization_responsible WHERE user_id = $1 AND organization_id = $2`. -/
def DB.responsibleRows (db : DB) (userId organizationId : String) : List OrganizationResponsible :=
  db.organization_responsible.filter (fun r => r.user_id == userId && r.organization_id == organizationId)

/-- The membership fact: some row of `organization_responsible` links the user
to the organization. -/
def DB.isResponsible (db : DB) (userId organizationId : String) : Bool :=
  !(db.responsibleRows userId organizationId).isEmpty

/-- Rows of `bid WHERE id = $1`, first one. -/
def DB.bidByID (db : DB) (bidID : String) : Option Bid :=
  db.bid.find? (fun r => r.ID == bidID)

/-! ### Schema behaviour -/

/-- Modelled from the spec: the schema (table definitions and triggers) is not
among the sources. The History snapshot of a tender row: its name, description,
service type, status, organization, creator, version and timestamp, under a
generated id. -/
def schema.snapshot (id : String) (old : Tender) : TenderHistory :=
  { ID := id, TenderID := old.ID, Name := old.Name, Description := old.Description,
    ServiceType := old.ServiceType, Status := old.Status,
    OrganizationID := old.OrganizationID, CreatorID := old.CreatorID,
    Version := old.Version, UpdatedAt := old.UpdatedAt }

/-- Modelled from the spec: the schema (table definitions and triggers) is not
among the sources. An UPDATE of table `tender` restricted to `id = $n`, with
`set` the effect of its SET clause on a row: every mutation appends a History
snapshot of the prior state, with the version the row had before the mutation,
and increments the row's version. -/
def schema.updateTender (env : Env) (id : String) (set : Tender → Tender) (db : DB) : DB :=
  let olds := db.tender.filter (fun r => r.ID == id)
  { db with
    tender := db.tender.map (fun r =>
      if r.ID == id then { set r with Version := r.Version + 1 } else r)
    tender_history := db.tender_history ++
      olds.enum.map (fun p => schema.snapshot (env.genUUID (db.issued + p.1)) p.2)
    issued := db.issued + olds.length }

/-- Modelled from the spec: the schema (table definitions and triggers) is not
among the sources. INSERT into table `tender` of the six columns the statement
supplies: the store assigns a generated id, version 1 and both timestamps. -/
def schema.insertTender (env : Env) (now : Nat) (t : Tender) (db : DB) : Tender × DB :=
  let row : Tender :=
    { ID := env.genUUID db.issued, Name := t.Name, Description := t.Description,
      ServiceType := t.ServiceType, Status := t.Status, OrganizationID := t.OrganizationID,
      CreatorID := t.CreatorID, Version := 1, CreatedAt := now, UpdatedAt := now }
  (row, { db with tender := db.tender ++ [row], issued := db.issued + 1 })

/-- Modelled from the spec: the schema (table definitions and triggers) is not
among the sources. INSERT into table `bid` of the eight columns the statement
supplies: the store assigns a generated id. -/
def schema.insertBid (env : Env) (now : Nat) (b : Bid) (db : DB) : Bid × DB :=
  let row : Bid :=
    { ID := env.genUUID db.issued, Description := b.Description, TenderID := b.TenderID,
      OrganizationID := b.OrganizationID, UserID := b.UserID, AuthorType := b.AuthorType,
      Status := b.Status, CreatedAt := toString now, UpdatedAt := toString now }
  (row, { db with bid := db.bid ++ [row], issued := db.issued + 1 })

/-! ## internal/repository/tender_repository.go -/

namespace tenderRepository

/-- Method `CreateTender`: INSERT ... RETURNING all ten columns, scanned back into `tender`. -/
def CreateTender (env : Env) (tender : Tender) (w : World) : Except Err Tender × World :=
  let w1 := w.tick (.CreateTender tender)
  match w.fault with
  | some msg => (.error (driver msg), w1)
  | none =>
    let (row, db) := schema.insertTender env w.now tender w.db
    (.ok row, { w1 with db := db })

/-- Method `GetTenderByID`: scans `id, name, status, organization_id, creator_id`
only; the other fields of the result keep their zero value. -/
def GetTenderByID (tenderId : String) (w : World) : Except Err Tender × World :=
  let w1 := w.tick (.GetTenderByID tenderId)
  let scan : Except Err Tender :=
    match w.fault with
    | some msg => .error (driver msg)
    | none =>
      match w.db.tenderByID tenderId with
      | none => .error sqlErrNoRows
      | some r => .ok { ID := r.ID, Name := r.Name, Status := r.Status,
                        OrganizationID := r.OrganizationID, CreatorID := r.CreatorID }
  match scan with
  | .error err => if err = sqlErrNoRows then (.error ErrTenderNotFound, w1) else (.error err, w1)
  | .ok tender => (.ok tender, w1)

/-- Method `UpdateTenderStatus`: `UPDATE tender SET status = $1, updated_at = NOW() WHERE id = $2`. -/
def UpdateTenderStatus (env : Env) (tender : Tender) (w : World) : Option Err × World :=
  let w1 := w.tick (.UpdateTenderStatus tender)
  match w.fault with
  | some msg => (some (driver msg), w1)
  | none =>
    let set : Tender → Tender := fun r => { r with Status := tender.Status, UpdatedAt := w.now }
    (none, { w1 with db := schema.updateTender env tender.ID set w.db })

/-- Method `UpdateTender`:
`UPDATE tender SET name = $1, description = $2, service_type = $3, updated_at = NOW() WHERE id = $4`. -/
def UpdateTender (env : Env) (tender : Tender) (w : World) : Option Err × World :=
  let w1 := w.tick (.UpdateTender tender)
  match w.fault with
  | some msg => (some (driver msg), w1)
  | none =>
    let set : Tender → Tender := fun r =>
      { r with Name := tender.Name, Description := tender.Description,
               ServiceType := tender.ServiceType, UpdatedAt := w.now }
    (none, { w1 with db := schema.updateTender env tender.ID set w.db })

/-- Method `IsUserResponsibleForOrganization`: `SELECT EXISTS(...)`. -/
def IsUserResponsibleForOrganization (userId organizationId : String) (w : World) :
    Except Err Bool × World :=
  let w1 := w.tick (.IsUserResponsibleForOrganization userId organizationId)
  match w.fault with
  | some msg => (.error (driver msg), w1)
  | none => (.ok (w.db.isResponsible userId organizationId), w1)

/-- Method `GetTenderHistoryByVersion`: scans all ten columns of the history row. -/
def GetTenderHistoryByVersion (tenderId : String) (version : Int) (w : World) :
    Except Err TenderHistory × World :=
  let w1 := w.tick (.GetTenderHistoryByVersion tenderId version)
  let scan : Except Err TenderHistory :=
    match w.fault with
    | some msg => .error (driver msg)
    | none =>
      match w.db.historyByVersion tenderId version with
      | none => .error sqlErrNoRows
      | some r => .ok r
  match scan with
  | .error err =>
    if err = sqlErrNoRows then (.error ErrTenderHistoryNotFound, w1) else (.error err, w1)
  | .ok history => (.ok history, w1)

end tenderRepository

/-! ## internal/repository/user_repository.go -/

namespace userRepository

/-- Method `FindUserIDByUsername`: `SELECT id FROM employee WHERE username = $1`. -/
def FindUserIDByUsername (username : String) (w : World) : Except Err String × World :=
  let w1 := w.tick (.FindUserIDByUsername username)
  let scan : Except Err String :=
    match w.fault with
    | some msg => .error (driver msg)
    | none =>
      match w.db.userByUsername username with
      | none => .error sqlErrNoRows
      | some r => .ok r.ID
  match scan with
  | .error err => if err = sqlErrNoRows then (.error ErrUserNotFound, w1) else (.error err, w1)
  | .ok userID => (.ok userID, w1)

/-- Method `GetUserByID`: scans all six columns. -/
def GetUserByID (userID : String) (w : World) : Except Err User × World :=
  let w1 := w.tick (.GetUserByID userID)
  let scan : Except Err User :=
    match w.fault with
    | some msg => .error (driver msg)
    | none =>
      match w.db.userByID userID with
      | none => .error sqlErrNoRows
      | some r => .ok r
  match scan with
  | .error err => if err = sqlErrNoRows then (.error ErrUserNotFound, w1) else (.error err, w1)
  | .ok user => (.ok user, w1)

/-- Method `CheckUserPermission`: `SELECT COUNT(1) ...`, then `count > 0`. -/
def CheckUserPermission (userID organizationID : String) (w : World) : Except Err Bool × World :=
  let w1 := w.tick (.CheckUserPermission userID organizationID)
  match w.fault with
  | some msg => (.error (driver msg), w1)
  | none =>
    let count : Int := (w.db.responsibleRows userID organizationID).length
    (.ok (decide (count > 0)), w1)

/-- Method `GetUserByUsername`: scans `id, username, first_name, last_name`. -/
def GetUserByUsername (username : String) (w : World) : Except Err User × World :=
  let w1 := w.tick (.GetUserByUsername username)
  let scan : Except Err User :=
    match w.fault with
    | some msg => .error (driver msg)
    | none =>
      match w.db.userByUsername username with
      | none => .error sqlErrNoRows
      | some r => .ok { ID := r.ID, Username := r.Username, FirstName := r.FirstName,
                        LastName := r.LastName }
  match scan with
  | .error err =>
    if errors.Is err sqlErrNoRows then (.error ErrUserNotFound, w1) else (.error err, w1)
  | .ok user => (.ok user, w1)

end userRepository

/-! ## internal/service/user_service.go -/

namespace userService

/-- Method `GetUserIDByUsername`. -/
def GetUserIDByUsername (username : String) (w : World) : Except Err String × World :=
  match userRepository.FindUserIDByUsername username w with
  | (.error err, w) =>
    if err = ErrUserNotFound then (.error ErrUserNotFound, w) else (.error err, w)
  | (.ok userID, w) => (.ok userID, w)

end userService

/-! ## internal/service/tender_service.go -/

namespace tenderService

/-- Method `CreateTender`. -/
def CreateTender (env : Env) (tender : Tender) (creatorUsername : String) (w : World) :
    Except Err Tender × World :=
  match userService.GetUserIDByUsername creatorUsername w with
  | (.error err, w) =>
    if errors.Is err ErrUserNotFound then (.error ErrUnauthorized, w) else (.error err, w)
  | (.ok creatorID, w) =>
  let tender := { tender with CreatorID := creatorID }
  match tenderRepository.CreateTender env tender w with
  | (.error err, w) => (.error err, w)
  | (.ok createdTender, w) => (.ok createdTender, w)

/-- Method `GetTenderStatus`. -/
def GetTenderStatus (env : Env) (tenderId username : String) (w : World) :
    Except Err TenderStatus × World :=
  if env.uuidParse tenderId = false then (.error ErrBadRequest, w) else
  match tenderRepository.GetTenderByID tenderId w with
  | (.error err, w) =>
    if errors.Is err ErrTenderNotFound then (.error ErrTenderNotFound, w) else (.error err, w)
  | (.ok tender, w) =>
  match userService.GetUserIDByUsername username w with
  | (.error _, w) => (.error ErrUnauthorized, w)
  | (.ok userId, w) =>
  match tenderRepository.IsUserResponsibleForOrganization userId tender.OrganizationID w with
  | (.error err, w) => (.error err, w)
  | (.ok isResponsible, w) =>
  if tender.CreatorID != userId && !isResponsible then (.error ErrForbidden, w)
  else (.ok tender.Status, w)

/-- Method `UpdateTenderStatus`. -/
def UpdateTenderStatus (env : Env) (tenderId : String) (status : TenderStatus)
    (username : String) (w : World) : Option Err × World :=
  if env.uuidParse tenderId = false then (some ErrBadRequest, w) else
  match tenderRepository.GetTenderByID tenderId w with
  | (.error err, w) =>
    if errors.Is err ErrTenderNotFound then (some ErrTenderNotFound, w) else (some err, w)
  | (.ok tender, w) =>
  match userService.GetUserIDByUsername username w with
  | (.error _, w) => (some ErrUnauthorized, w)
  | (.ok userId, w) =>
  match tenderRepository.IsUserResponsibleForOrganization userId tender.OrganizationID w with
  | (.error err, w) => (some err, w)
  | (.ok isResponsible, w) =>
  if tender.CreatorID != userId && !isResponsible then (some ErrForbidden, w) else
  let tender := { tender with Status := status }
  match tenderRepository.UpdateTenderStatus env tender w with
  | (some err, w) => (some err, w)
  | (none, w) => (none, w)

/-- Method `EditTender`; a nil `*string` is `none`. -/
def EditTender (env : Env) (tenderId username : String)
    (name description serviceType : Option String) (w : World) : Option Err × World :=
  if env.uuidParse tenderId = false then (some ErrBadRequest, w) else
  match tenderRepository.GetTenderByID tenderId w with
  | (.error err, w) =>
    if errors.Is err ErrTenderNotFound then (some ErrTenderNotFound, w) else (some err, w)
  | (.ok tender, w) =>
  match userService.GetUserIDByUsername username w with
  | (.error _, w) => (some ErrUnauthorized, w)
  | (.ok userId, w) =>
  match tenderRepository.IsUserResponsibleForOrganization userId tender.OrganizationID w with
  | (.error err, w) => (some err, w)
  | (.ok isResponsible, w) =>
  if tender.CreatorID != userId && !isResponsible then (some ErrForbidden, w) else
  let tender := match name with
    | some v => { tender with Name := v }
    | none => tender
  let tender := match description with
    | some v => { tender with Description := v }
    | none => tender
  let tender := match serviceType with
    | some v => { tender with ServiceType := v }
    | none => tender
  match tenderRepository.UpdateTender env tender w with
  | (some err, w) => (some err, w)
  | (none, w) => (none, w)

/-- Method `RollbackTenderVersion`. -/
def RollbackTenderVersion (env : Env) (tenderId : String) (version : Int)
    (username : String) (w : World) : Option Err × World :=
  if env.uuidParse tenderId = false then (some ErrBadRequest, w) else
  match tenderRepository.GetTenderByID tenderId w with
  | (.error err, w) =>
    if errors.Is err ErrTenderNotFound then (some ErrTenderNotFound, w) else (some err, w)
  | (.ok tender, w) =>
  match tenderRepository.GetTenderHistoryByVersion tenderId version w with
  | (.error err, w) =>
    if errors.Is err ErrTenderHistoryNotFound then (some ErrTenderHistoryNotFound, w)
    else (some err, w)
  | (.ok history, w) =>
  match userService.GetUserIDByUsername username w with
  | (.error _, w) => (some ErrUnauthorized, w)
  | (.ok userId, w) =>
  match tenderRepository.IsUserResponsibleForOrganization userId tender.OrganizationID w with
  | (.error err, w) => (some err, w)
  | (.ok isResponsible, w) =>
  if tender.CreatorID != userId && !isResponsible then (some ErrForbidden, w) else
  let tender := { tender with Name := history.Name, Description := history.Description,
                              ServiceType := history.ServiceType, Status := history.Status }
  match tenderRepository.UpdateTender env tender w with
  | (some err, w) => (some err, w)
  | (none, w) => (none, w)

end tenderService

/-! ## internal/repository/bid_repository.go -/

namespace bidRepository

/-- Method `CreateBid`: INSERT ... RETURNING nine columns, scanned back into `bid`. -/
def CreateBid (env : Env) (bid : Bid) (w : World) : Except Err Bid × World :=
  let w1 := w.tick (.CreateBid bid)
  match w.fault with
  | some msg => (.error (driver msg), w1)
  | none =>
    let (row, db) := schema.insertBid env w.now bid w.db
    (.ok row, { w1 with db := db })

/-- Method `GetBidByID`: scans
`id, tender_id, organization_id, user_id, description, status, author_type`. -/
def GetBidByID (bidID : String) (w : World) : Except Err Bid × World :=
  let w1 := w.tick (.GetBidByID bidID)
  let scan : Except Err Bid :=
    match w.fault with
    | some msg => .error (driver msg)
    | none =>
      match w.db.bidByID bidID with
      | none => .error sqlErrNoRows
      | some r => .ok { ID := r.ID, TenderID := r.TenderID, OrganizationID := r.OrganizationID,
                        UserID := r.UserID, Description := r.Description, Status := r.Status,
                        AuthorType := r.AuthorType }
  match scan with
  | .error err => if err = sqlErrNoRows then (.error ErrBidNotFound, w1) else (.error err, w1)
  | .ok bid => (.ok bid, w1)

/-- Method `UpdateBidStatus`:
`UPDATE bid SET status = $1, updated_at = NOW() WHERE id = $2 RETURNING id`. -/
def UpdateBidStatus (bidID : String) (status : BidStatus) (w : World) : Option Err × World :=
  let w1 := w.tick (.UpdateBidStatus bidID status)
  match w.fault with
  | some msg => (some (driver msg), w1)
  | none =>
    let db := { w.db with bid := w.db.bid.map (fun r =>
      if r.ID == bidID then { r with Status := status, UpdatedAt := toString w.now } else r) }
    match w.db.bidByID bidID with
    | none => (some ErrBidNotFound, { w1 with db := db })
    | some _ => (none, { w1 with db := db })

/-- The loop of `EditBid` over the entries of `updates`, in iteration order. -/
def EditBid.loop : List (String × Value) → String → List Value → Nat → String × List Value × Nat
  | [], query, params, paramIndex => (query, params, paramIndex)
  | (field, value) :: rest, query, params, paramIndex =>
    let query := if paramIndex > 1 then query ++ ", " else query
    let query := query ++ (field ++ " = $" ++ toString paramIndex)
    EditBid.loop rest query (params ++ [value]) (paramIndex + 1)

/-- The statement and parameter list `EditBid` hands to `db.Exec`. -/
def EditBid.statement (bidID : String) (updates : List (String × Value)) : String × List Value :=
  let (query, params, paramIndex) := EditBid.loop updates "UPDATE bid SET " [] 1
  (query ++ (", updated_at = NOW() WHERE id = $" ++ toString paramIndex),
   params ++ [Value.string bidID])

/-- Method `EditBid`; `updates` lists the entries of the map in iteration order. -/
def EditBid (env : Env) (bidID : String) (updates : List (String × Value)) (w : World) :
    Option Err × World :=
  let w1 := w.tick (.EditBid bidID updates)
  let (query, params) := EditBid.statement bidID updates
  match w.fault with
  | some msg => (some (driver msg), w1)
  | none =>
    match env.execDynamic query params w.db with
    | .error msg => (some (driver msg), w1)
    | .ok result =>
      match result.rowsAffected with
      | .error msg => (some (driver msg), { w1 with db := result.db })
      | .ok rowsAffected =>
        if rowsAffected = 0 then (some ErrBidNotFound, { w1 with db := result.db })
        else (none, { w1 with db := result.db })

/-- Method `AddBidFeedback`:
`INSERT INTO bid_review (bid_id, description, created_at) VALUES ($1, $2, NOW())`. -/
def AddBidFeedback (bidID feedback : String) (w : World) : Option Err × World :=
  let w1 := w.tick (.AddBidFeedback bidID feedback)
  match w.fault with
  | some msg => (some (driver msg), w1)
  | none =>
    let row : BidReview := { bid_id := bidID, description := feedback, created_at := w.now }
    (none, { w1 with db := { w.db with bid_review := w.db.bid_review ++ [row] } })

end bidRepository

/-! ## internal/service/bid_service.go -/

namespace bidService

/-- Method `CreateBid`. -/
def CreateBid (env : Env) (description tenderID organizationID userID : String)
    (authorType : BidAuthorType) (w : World) : Except Err Bid × World :=
  if env.uuidParse tenderID = false then (.error ErrBadRequest, w) else
  if env.uuidParse organizationID = false then (.error ErrBadRequest, w) else
  if env.uuidParse userID = false then (.error ErrBadRequest, w) else
  match userRepository.GetUserByID userID w with
  | (.error err, w) =>
    if errors.Is err ErrUserNotFound then (.error ErrUnauthorized, w) else (.error err, w)
  | (.ok _, w) =>
  match tenderRepository.GetTenderByID tenderID w with
  | (.error err, w) =>
    if errors.Is err sqlErrNoRows then (.error ErrTenderNotFound, w) else (.error err, w)
  | (.ok _, w) =>
  match userRepository.CheckUserPermission userID organizationID w with
  | (.error err, w) => (.error err, w)
  | (.ok hasPermission, w) =>
  if !hasPermission then (.error ErrForbidden, w) else
  let bid : Bid :=
    { Description := description, TenderID := tenderID, OrganizationID := organizationID,
      UserID := userID, AuthorType := authorType, Status := BidStatusCreated }
  match bidRepository.CreateBid env bid w with
  | (.error err, w) => (.error err, w)
  | (.ok createdBid, w) => (.ok createdBid, w)

/-- Method `GetBidStatus`. -/
def GetBidStatus (env : Env) (bidID username : String) (w : World) :
    Except Err BidStatus × World :=
  if env.uuidParse bidID = false then (.error ErrBadRequest, w) else
  match bidRepository.GetBidByID bidID w with
  | (.error err, w) => (.error err, w)
  | (.ok bid, w) =>
  match userRepository.GetUserByUsername username w with
  | (.error _, w) => (.error ErrUserNotFound, w)
  | (.ok user, w) =>
  if bid.UserID != user.ID then (.error ErrForbidden, w)
  else (.ok bid.Status, w)

/-- Method `UpdateBidStatus`. -/
def UpdateBidStatus (env : Env) (bidID status username : String) (w : World) :
    Option Err × World :=
  if env.uuidParse bidID = false then (some ErrBadRequest, w) else
  match bidRepository.GetBidByID bidID w with
  | (.error err, w) => (some err, w)
  | (.ok bid, w) =>
  match userRepository.GetUserByUsername username w with
  | (.error _, w) => (some ErrUserNotFound, w)
  | (.ok user, w) =>
  if bid.UserID != user.ID then (some ErrForbidden, w) else
  let bidStatus : BidStatus := status
  match bidRepository.UpdateBidStatus bidID bidStatus w with
  | (some err, w) => (some err, w)
  | (none, w) => (none, w)

/-- Method `EditBid`; `updates` lists the entries of the map in iteration order. -/
def EditBid (env : Env) (bidID username : String) (updates : List (String × Value))
    (w : World) : Option Err × World :=
  if env.uuidParse bidID = false then (some ErrBadRequest, w) else
  match bidRepository.GetBidByID bidID w with
  | (.error err, w) => (some err, w)
  | (.ok bid, w) =>
  match userRepository.GetUserByUsername username w with
  | (.error _, w) => (some ErrUserNotFound, w)
  | (.ok user, w) =>
  if bid.UserID != user.ID then (some ErrForbidden, w) else
  match bidRepository.EditBid env bidID updates w with
  | (some err, w) => (some err, w)
  | (none, w) => (none, w)

/-- Method `SubmitBidFeedback`. -/
def SubmitBidFeedback (bidID username feedback : String) (w : World) :
    Except Err Bid × World :=
  match bidRepository.GetBidByID bidID w with
  | (.error err, w) => (.error err, w)
  | (.ok bid, w) =>
  match userRepository.GetUserByUsername username w with
  | (.error _, w) => (.error ErrUserNotFound, w)
  | (.ok user, w) =>
  if bid.UserID != user.ID then (.error ErrForbidden, w) else
  match bidRepository.AddBidFeedback bidID feedback w with
  | (some err, w) => (.error err, w)
  | (none, w) => (.ok bid, w)

end bidService

/-! ## Listing the bids of a tender -/

namespace bidRepository

/-- Method `GetBidsByTenderID`:
`SELECT ... FROM bid WHERE tender_id = $1 LIMIT $2 OFFSET $3`, each row scanned into
`id, description, tender_id, organization_id, user_id, status, created_at, updated_at`.
Rows come in table order; the database rejects a negative LIMIT or OFFSET. -/
def GetBidsByTenderID (tenderID : String) (limit offset : Int) (w : World) :
    Except Err (List Bid) × World :=
  let w1 := w.tick (.GetBidsByTenderID tenderID limit offset)
  match w.fault with
  | some msg => (.error (driver msg), w1)
  | none =>
    if limit < 0 then (.error (driver "LIMIT must not be negative"), w1)
    else if offset < 0 then (.error (driver "OFFSET must not be negative"), w1)
    else
      let rows := ((w.db.bid.filter (fun r => r.TenderID == tenderID)).drop offset.toNat).take
        limit.toNat
      (.ok (rows.map (fun r =>
        { ID := r.ID, Description := r.Description, TenderID := r.TenderID,
          OrganizationID := r.OrganizationID, UserID := r.UserID, Status := r.Status,
          CreatedAt := r.CreatedAt, UpdatedAt := r.UpdatedAt })), w1)

end bidRepository

namespace bidService

/-- Method `GetBidsByTenderID`. -/
def GetBidsByTenderID (env : Env) (tenderID username : String) (limit offset : Int)
    (w : World) : Except Err (List Bid) × World :=
  match userRepository.GetUserByUsername username w with
  | (.error _, w) => (.error ErrUserNotFound, w)
  | (.ok user, w) =>
  if env.uuidParse tenderID = false then (.error ErrBadRequest, w) else
  match tenderRepository.GetTenderByID tenderID w with
  | (.error err, w) =>
    if errors.Is err ErrTenderNotFound then (.error ErrTenderNotFound, w) else (.error err, w)
  | (.ok tender, w) =>
  match userRepository.CheckUserPermission user.ID tender.OrganizationID w with
  | (.error err, w) => (.error err, w)
  | (.ok hasPermission, w) =>
  if !hasPermission then (.error ErrForbidden, w) else
  match bidRepository.GetBidsByTenderID tenderID limit offset w with
  | (.error err, w) =>
    if errors.Is err ErrTenderNotFound then (.error ErrTenderNotFound, w) else (.error err, w)
  | (.ok bids, w) => (.ok bids, w)

end bidService

/-! ## utils/errors.go and api/handlers/bid_handler.go -/

/-- What a handler writes into the response body. -/
inductive Body where
  | empty
  | reason (message : String)
  | text (s : String)
  | jsonString (s : String)
  | bid (b : Bid)
  | bids (bs : List Bid)
  | object (fields : List (String × String))
  deriving DecidableEq, Repr

/-- What a handler leaves in the `http.ResponseWriter`: status code and body. -/
structure Response where
  statusCode : Nat
  body : Body
  deriving DecidableEq, Repr

/-- Constant `http.StatusOK`. -/
def http.StatusOK : Nat := 200
/-- Constant `http.StatusBadRequest`. -/
def http.StatusBadRequest : Nat := 400
/-- Constant `http.StatusUnauthorized`. -/
def http.StatusUnauthorized : Nat := 401
/-- Constant `http.StatusForbidden`. -/
def http.StatusForbidden : Nat := 403
/-- Constant `http.StatusNotFound`. -/
def http.StatusNotFound : Nat := 404
/-- Constant `http.StatusInternalServerError`. -/
def http.StatusInternalServerError : Nat := 500

/-- Function `utils.WriteErrorResponse`: the status code and the JSON object with
the one member `reason`. -/
def utils.WriteErrorResponse (statusCode : Nat) (message : String) : Response :=
  { statusCode := statusCode, body := .reason message }

namespace BidHandler

/-- Method `GetBidsByTenderID`; `tenderID` is the path variable, the other three
the query parameters (empty when missing). -/
def GetBidsByTenderID (env : Env) (tenderID username limitParam offsetParam : String)
    (w : World) : Response × World :=
  if env.uuidParse tenderID = false then
    (utils.WriteErrorResponse http.StatusBadRequest "Invalid tender ID format", w) else
  match env.atoi limitParam with
  | none => (utils.WriteErrorResponse http.StatusBadRequest "Invalid request parameters", w)
  | some limit =>
  if limit ≤ 0 then
    (utils.WriteErrorResponse http.StatusBadRequest "Invalid request parameters", w) else
  match env.atoi offsetParam with
  | none => (utils.WriteErrorResponse http.StatusBadRequest "Invalid request parameters", w)
  | some offset =>
  if offset < 0 then
    (utils.WriteErrorResponse http.StatusBadRequest "Invalid request parameters", w) else
  match bidService.GetBidsByTenderID env tenderID username limit offset w with
  | (.error err, w) =>
    if errors.Is err ErrTenderNotFound then
      (utils.WriteErrorResponse http.StatusNotFound "Tender not found", w)
    else if errors.Is err ErrUserNotFound then
      (utils.WriteErrorResponse http.StatusUnauthorized "User not found", w)
    else if errors.Is err ErrForbidden then
      (utils.WriteErrorResponse http.StatusForbidden "Insufficient permissions", w)
    else if errors.Is err ErrBadRequest then
      (utils.WriteErrorResponse http.StatusBadRequest "Invalid request parameters", w)
    else (utils.WriteErrorResponse http.StatusInternalServerError "Error retrieving bids", w)
  | (.ok bids, w) => ({ statusCode := http.StatusOK, body := .bids bids }, w)

/-- Method `SubmitBidFeedback`; `bidID` is the path variable, the other two the
query parameters (empty when missing). -/
def SubmitBidFeedback (env : Env) (bidID username bidFeedback : String) (w : World) :
    Response × World :=
  if username == "" then
    (utils.WriteErrorResponse http.StatusBadRequest "Username is required", w) else
  if bidFeedback == "" then
    (utils.WriteErrorResponse http.StatusBadRequest "Feedback is required", w) else
  if env.uuidParse bidID = false then
    (utils.WriteErrorResponse http.StatusBadRequest "Invalid bid ID format", w) else
  match bidService.SubmitBidFeedback bidID username bidFeedback w with
  | (.error err, w) =>
    if errors.Is err ErrBidNotFound then
      (utils.WriteErrorResponse http.StatusNotFound "Bid not found", w)
    else if errors.Is err ErrUserNotFound then
      (utils.WriteErrorResponse http.StatusUnauthorized "User not found", w)
    else if errors.Is err ErrForbidden then
      (utils.WriteErrorResponse http.StatusForbidden "Insufficient permissions", w)
    else (utils.WriteErrorResponse http.StatusInternalServerError "Internal server error", w)
  | (.ok bid, w) =>
    ({ statusCode := http.StatusOK,
       body := .object [("id", bid.ID), ("name", bid.Description), ("status", bid.Status),
                        ("authorType", bid.AuthorType), ("authorId", bid.UserID),
                        ("createdAt", bid.CreatedAt)] }, w)

end BidHandler

/-! ## internal/models/tender.go: ParseTenderStatus -/

/-- Function `ParseTenderStatus`: the status and the error (nil is `none`). -/
def models.ParseTenderStatus (status : String) : TenderStatus × Option Err :=
  if status = Created then (Created, none)
  else if status = Published then (Published, none)
  else if status = Closed then (Closed, none)
  else ("", some (errorString "invalid tender status"))

/-! ## Listing the bids of a user -/

namespace bidRepository

/-- Method `GetBidsByUserID`:
`SELECT ... FROM bid WHERE user_id = $1 ORDER BY description LIMIT $2 OFFSET $3`, each
row scanned into
`id, description, tender_id, organization_id, user_id, status, created_at, updated_at`.
The database rejects a negative LIMIT or OFFSET. -/
def GetBidsByUserID (env : Env) (userID : String) (limit offset : Int) (w : World) :
    Except Err (List Bid) × World :=
  let w1 := w.tick (.GetBidsByUserID userID limit offset)
  match w.fault with
  | some msg => (.error (driver msg), w1)
  | none =>
    if limit < 0 then (.error (driver "LIMIT must not be negative"), w1)
    else if offset < 0 then (.error (driver "OFFSET must not be negative"), w1)
    else
      let ordered := List.mergeSort (w.db.bid.filter (fun r => r.UserID == userID))
        (fun a b => env.collationLE a.Description b.Description)
      let rows := (ordered.drop offset.toNat).take limit.toNat
      (.ok (rows.map (fun r =>
        { ID := r.ID, Description := r.Description, TenderID := r.TenderID,
          OrganizationID := r.OrganizationID, UserID := r.UserID, Status := r.Status,
          CreatedAt := r.CreatedAt, UpdatedAt := r.UpdatedAt })), w1)

end bidRepository

namespace bidService

/-- Method `GetUserBids`. -/
def GetUserBids (env : Env) (username : String) (limit offset : Int) (w : World) :
    Except Err (List Bid) × World :=
  match userRepository.GetUserByUsername username w with
  | (.error err, w) =>
    if errors.Is err ErrUserNotFound then (.error ErrUserNotFound, w) else (.error err, w)
  | (.ok user, w) =>
  match bidRepository.GetBidsByUserID env user.ID limit offset w with
  | (.error err, w) => (.error err, w)
  | (.ok bids, w) => (.ok bids, w)

end bidService

/-! ## api/handlers/tender_handler.go -/

/-- The request body of `EditTender` as decoded: three optional texts. -/
structure EditTenderRequest where
  Name : Option String
  Description : Option String
  ServiceType : Option String
  deriving DecidableEq, Repr

namespace TenderHandler

/-- Method `GetTenderStatus`; `tenderId` is the path variable, `username` the query
parameter (empty when missing). -/
def GetTenderStatus (env : Env) (tenderId username : String) (w : World) : Response × World :=
  if username == "" then
    (utils.WriteErrorResponse http.StatusBadRequest "Missing username", w) else
  match tenderService.GetTenderStatus env tenderId username w with
  | (.error err, w) =>
    if errors.Is err ErrTenderNotFound then
      (utils.WriteErrorResponse http.StatusNotFound "Tender not found", w)
    else if errors.Is err ErrUnauthorized then
      (utils.WriteErrorResponse http.StatusUnauthorized "User not found", w)
    else if errors.Is err ErrForbidden then
      (utils.WriteErrorResponse http.StatusForbidden "Insufficient permissions", w)
    else if errors.Is err ErrBadRequest then
      (utils.WriteErrorResponse http.StatusBadRequest "Invalid tender ID", w)
    else
      (utils.WriteErrorResponse http.StatusInternalServerError "Error fetching tender status", w)
  | (.ok status, w) => ({ statusCode := http.StatusOK, body := .jsonString status }, w)

/-- Method `UpdateTenderStatus`; `statusStr` and `username` are the query parameters. -/
def UpdateTenderStatus (env : Env) (tenderId statusStr username : String) (w : World) :
    Response × World :=
  if statusStr == "" || username == "" then
    (utils.WriteErrorResponse http.StatusBadRequest "Missing required parameters", w) else
  match models.ParseTenderStatus statusStr with
  | (_, some _) => (utils.WriteErrorResponse http.StatusBadRequest "Invalid tender status", w)
  | (status, none) =>
  match tenderService.UpdateTenderStatus env tenderId status username w with
  | (some err, w) =>
    if errors.Is err ErrTenderNotFound then
      (utils.WriteErrorResponse http.StatusNotFound "Tender not found", w)
    else if errors.Is err ErrUnauthorized then
      (utils.WriteErrorResponse http.StatusUnauthorized "User not found", w)
    else if errors.Is err ErrForbidden then
      (utils.WriteErrorResponse http.StatusForbidden "Insufficient permissions", w)
    else if errors.Is err ErrBadRequest then
      (utils.WriteErrorResponse http.StatusBadRequest "Invalid bid ID format", w)
    else
      (utils.WriteErrorResponse http.StatusInternalServerError "Error updating tender status", w)
  | (none, w) => ({ statusCode := http.StatusOK, body := .empty }, w)

/-- Method `EditTender`; `request` is the decoded body, `none` when decoding fails. -/
def EditTender (env : Env) (tenderId username : String) (request : Option EditTenderRequest)
    (w : World) : Response × World :=
  if username == "" then
    (utils.WriteErrorResponse http.StatusBadRequest "Missing username", w) else
  match request with
  | none => (utils.WriteErrorResponse http.StatusBadRequest "Invalid request body", w)
  | some request =>
  match tenderService.EditTender env tenderId username request.Name request.Description
      request.ServiceType w with
  | (some err, w) =>
    if errors.Is err ErrTenderNotFound then
      (utils.WriteErrorResponse http.StatusNotFound "Tender not found", w)
    else if errors.Is err ErrUnauthorized then
      (utils.WriteErrorResponse http.StatusUnauthorized "User not found", w)
    else if errors.Is err ErrForbidden then
      (utils.WriteErrorResponse http.StatusForbidden "Insufficient permissions", w)
    else if errors.Is err ErrBadRequest then
      (utils.WriteErrorResponse http.StatusBadRequest "Invalid request data", w)
    else (utils.WriteErrorResponse http.StatusInternalServerError "Error editing tender", w)
  | (none, w) => ({ statusCode := http.StatusOK, body := .empty }, w)

/-- Method `RollbackTenderVersion`; `tenderId` and `versionStr` are the path
variables, `username` the query parameter. -/
def RollbackTenderVersion (env : Env) (tenderId versionStr username : String) (w : World) :
    Response × World :=
  if username == "" then
    (utils.WriteErrorResponse http.StatusBadRequest "Missing required parameters", w) else
  match env.atoi versionStr with
  | none => (utils.WriteErrorResponse http.StatusBadRequest "Invalid version number", w)
  | some version =>
  if version ≤ 0 then
    (utils.WriteErrorResponse http.StatusBadRequest "Invalid version number", w) else
  match tenderService.RollbackTenderVersion env tenderId version username w with
  | (some err, w) =>
    if errors.Is err ErrTenderNotFound then
      (utils.WriteErrorResponse http.StatusNotFound "Tender not found", w)
    else if errors.Is err ErrTenderHistoryNotFound then
      (utils.WriteErrorResponse http.StatusNotFound "Tender version not found", w)
    else if errors.Is err ErrUnauthorized then
      (utils.WriteErrorResponse http.StatusUnauthorized "User not found", w)
    else if errors.Is err ErrForbidden then
      (utils.WriteErrorResponse http.StatusForbidden "Insufficient permissions", w)
    else if errors.Is err ErrBadRequest then
      (utils.WriteErrorResponse http.StatusBadRequest "Invalid tender ID or version", w)
    else (utils.WriteErrorResponse http.StatusInternalServerError "Error rolling back tender", w)
  | (none, w) => ({ statusCode := http.StatusOK, body := .empty }, w)

end TenderHandler

/-! ## api/handlers/bid_handler.go, the other handlers -/

/-- The request body of `CreateBid` as decoded. -/
structure CreateBidRequest where
  Description : String
  TenderID : String
  OrganizationID : String
  UserID : String
  AuthorType : String
  deriving DecidableEq, Repr

namespace BidHandler

/-- Method `CreateBid`; `request` is the decoded body, `none` when decoding fails. -/
def CreateBid (env : Env) (request : Option CreateBidRequest) (w : World) : Response × World :=
  match request with
  | none => (utils.WriteErrorResponse http.StatusBadRequest "Invalid request body", w)
  | some request =>
  match bidService.CreateBid env request.Description request.TenderID request.OrganizationID
      request.UserID request.AuthorType w with
  | (.error err, w) =>
    if errors.Is err ErrInvalidUUID then
      (utils.WriteErrorResponse http.StatusBadRequest "Invalid UUID format", w)
    else if errors.Is err ErrTenderNotFound then
      (utils.WriteErrorResponse http.StatusNotFound "Tender not found", w)
    else if errors.Is err ErrUserNotFound then
      (utils.WriteErrorResponse http.StatusUnauthorized "User not found", w)
    else if errors.Is err ErrForbidden then
      (utils.WriteErrorResponse http.StatusForbidden "Insufficient permissions", w)
    else if errors.Is err ErrBadRequest then
      (utils.WriteErrorResponse http.StatusBadRequest "Invalid request", w)
    else (utils.WriteErrorResponse http.StatusInternalServerError "Error creating bid", w)
  | (.ok createdBid, w) => ({ statusCode := http.StatusOK, body := .bid createdBid }, w)

/-- Method `GetBidStatus`; `bidID` is the path variable, `username` the query
parameter. -/
def GetBidStatus (env : Env) (bidID username : String) (w : World) : Response × World :=
  if username == "" then
    ({ statusCode := http.StatusBadRequest, body := .text "username is required" }, w) else
  if env.uuidParse bidID = false then
    (utils.WriteErrorResponse http.StatusBadRequest "Invalid bid ID format", w) else
  match bidService.GetBidStatus env bidID username w with
  | (.error err, w) =>
    if errors.Is err ErrBidNotFound then
      (utils.WriteErrorResponse http.StatusNotFound "Bid not found", w)
    else if errors.Is err ErrUserNotFound then
      (utils.WriteErrorResponse http.StatusUnauthorized "User not found", w)
    else if errors.Is err ErrForbidden then
      (utils.WriteErrorResponse http.StatusForbidden "Insufficient permissions", w)
    else (utils.WriteErrorResponse http.StatusInternalServerError "Internal server error", w)
  | (.ok status, w) => ({ statusCode := http.StatusOK, body := .text status }, w)

/-- Method `UpdateBidStatus`; `status` and `username` are the query parameters. -/
def UpdateBidStatus (env : Env) (bidID status username : String) (w : World) :
    Response × World :=
  if status == "" || username == "" then
    ({ statusCode := http.StatusBadRequest, body := .text "status and username are required" },
      w) else
  if env.uuidParse bidID = false then
    (utils.WriteErrorResponse http.StatusBadRequest "Invalid bid ID format", w) else
  match bidService.UpdateBidStatus env bidID status username w with
  | (some err, w) =>
    if errors.Is err ErrBidNotFound then
      (utils.WriteErrorResponse http.StatusNotFound "Bid not found", w)
    else if errors.Is err ErrUserNotFound then
      (utils.WriteErrorResponse http.StatusUnauthorized "User not found", w)
    else if errors.Is err ErrForbidden then
      (utils.WriteErrorResponse http.StatusForbidden "Insufficient permissions", w)
    else (utils.WriteErrorResponse http.StatusInternalServerError "Internal server error", w)
  | (none, w) => ({ statusCode := http.StatusOK, body := .empty }, w)

/-- Method `EditBid`; `payload` is the decoded body (the entries of the map in
iteration order), `none` when decoding fails. -/
def EditBid (env : Env) (bidID username : String) (payload : Option (List (String × Value)))
    (w : World) : Response × World :=
  if username == "" then
    ({ statusCode := http.StatusBadRequest, body := .text "username is required" }, w) else
  match payload with
  | none => (utils.WriteErrorResponse http.StatusBadRequest "Invalid request body", w)
  | some payload =>
  match bidService.EditBid env bidID username payload w with
  | (some err, w) =>
    if errors.Is err ErrBidNotFound then
      (utils.WriteErrorResponse http.StatusNotFound "Bid not found", w)
    else if errors.Is err ErrUserNotFound then
      (utils.WriteErrorResponse http.StatusUnauthorized "User not found", w)
    else if errors.Is err ErrForbidden then
      (utils.WriteErrorResponse http.StatusForbidden "Insufficient permissions", w)
    else if errors.Is err ErrBadRequest then
      (utils.WriteErrorResponse http.StatusBadRequest "Invalid bid ID format", w)
    else (utils.WriteErrorResponse http.StatusInternalServerError "Internal server error", w)
  | (none, w) => ({ statusCode := http.StatusOK, body := .empty }, w)

end BidHandler

/-! ## The response table of the handlers, as the specification words it -/

/-- The error of a result, nil (`none`) on success. -/
def errorOf {α : Type} : Except Err α → Option Err
  | .ok _ => none
  | .error err => some err

/-- Specification side: the HTTP status code of a tender handler for a service
result: success 200, BadRequest 400, TenderNotFound 404, TenderHistoryNotFound 404
for the rollback handler, Unauthorized 401, Forbidden 403, any other error 500. -/
def spec.tenderStatusCode (rollback : Bool) : Option Err → Nat
  | none => 200
  | some ErrBadRequest => 400
  | some ErrTenderNotFound => 404
  | some ErrTenderHistoryNotFound => if rollback then 404 else 500
  | some ErrUnauthorized => 401
  | some ErrForbidden => 403
  | some _ => 500

/-- Specification side: the HTTP status code of a bid handler for a service result
on a well-formed bid id: success 200, BidNotFound 404, UserNotFound 401, Forbidden
403, any other error 500. -/
def spec.bidStatusCode : Option Err → Nat
  | none => 200
  | some ErrBidNotFound => 404
  | some ErrUserNotFound => 401
  | some ErrForbidden => 403
  | some _ => 500

/-- Specification side: the reason a bid handler gives for each of the three named
error kinds. -/
def spec.bidReason : Err → Option String
  | ErrBidNotFound => some "Bid not found"
  | ErrUserNotFound => some "User not found"
  | ErrForbidden => some "Insufficient permissions"
  | _ => none

/-- Specification side: what a bid handler answers for a service result on a
well-formed bid id: the status code of the table, and for each of the three named
error kinds the reason of the table. -/
def spec.bidAnswer (response : Response) (result : Option Err) : Prop :=
  response.statusCode = spec.bidStatusCode result ∧
  ∀ reason, result.bind spec.bidReason = some reason → response.body = .reason reason

/-! ## The statement of EditBid, as the specification words it -/

/-- Specification side: the assignments "f1 = $i", "f2 = $(i+1)", ... for the
entries of the map in their iteration order, numbered from `i`. -/
def spec.assignments : List (String × Value) → Nat → List String
  | [], _ => []
  | (field, _) :: rest, i => (field ++ " = $" ++ toString i) :: spec.assignments rest (i + 1)

/-- Specification side: the statement
"UPDATE bid SET f1 = $1, ..., fn = $n, updated_at = NOW() WHERE id = $(n+1)" and the
parameter list [v1, ..., vn, bidID]. -/
def spec.editBidStatement (bidID : String) (updates : List (String × Value)) :
    String × List Value :=
  ("UPDATE bid SET " ++ ", ".intercalate (spec.assignments updates 1)
    ++ ", updated_at = NOW() WHERE id = $" ++ toString (updates.length + 1),
   updates.map Prod.snd ++ [Value.string bidID])

/-! ## Error kinds of the validation steps -/

/-- The kinds a failed validation step reports: BadRequest, TenderNotFound,
TenderHistoryNotFound, BidNotFound, Unauthorized, UserNotFound, Forbidden. -/
def Err.isValidationKind : Err → Bool
  | ErrBadRequest => true
  | ErrTenderNotFound => true
  | ErrTenderHistoryNotFound => true
  | ErrBidNotFound => true
  | ErrUnauthorized => true
  | ErrUserNotFound => true
  | ErrForbidden => true
  | _ => false

/-! ## Sample data -/

namespace sample

/-- Sample collaborators: an identifier parses when it has the 36 characters of
the canonical form; the n-th generated identifier ends in the last digit of n; a
run-time statement touches one row and changes nothing; the numerals 0, 1, 5 and
-1 convert, every other text is an error; texts sort by code point. -/
def env : Env :=
  { uuidParse := fun s => s.length == 36
    genUUID := fun n => "00000000-0000-4000-8000-00000000000" ++ toString (n % 10)
    execDynamic := fun _ _ db => .ok { rowsAffected := .ok 1, db := db }
    atoi := fun s =>
      if s == "0" then some 0 else if s == "1" then some 1 else if s == "5" then some 5
      else if s == "-1" then some (-1) else none
    collationLE := fun a b => decide (a ≤ b) }

/-- Identifier of the sample tender. -/
def tenderId : String := "550e8400-e29b-41d4-a716-446655440000"
/-- Identifier of the sample organization. -/
def orgId : String := "550e8400-e29b-41d4-a716-446655440001"
/-- Identifier of user alice, creator of the sample tender. -/
def aliceId : String := "550e8400-e29b-41d4-a716-446655440002"
/-- Identifier of user bob, responsible for the sample organization. -/
def bobId : String := "550e8400-e29b-41d4-a716-446655440003"
/-- Identifier of user carol, unrelated to the sample tender. -/
def carolId : String := "550e8400-e29b-41d4-a716-446655440004"
/-- Identifier of the sample bid, authored by carol. -/
def bidId : String := "550e8400-e29b-41d4-a716-446655440005"

/-- The sample tender: published, at version 3. -/
def road : Tender :=
  { ID := tenderId, Name := "Road", Description := "Repair", ServiceType := "Construction",
    Status := Published, OrganizationID := orgId, CreatorID := aliceId, Version := 3,
    CreatedAt := 1, UpdatedAt := 3 }

/-- History row of the sample tender for version 1. -/
def roadV1 : TenderHistory :=
  { ID := "h1", TenderID := tenderId, Name := "A", Description := "Old", ServiceType := "Delivery",
    Status := Created, OrganizationID := orgId, CreatorID := aliceId, Version := 1,
    UpdatedAt := 1 }

/-- History row of the sample tender for version 2. -/
def roadV2 : TenderHistory :=
  { ID := "h2", TenderID := tenderId, Name := "Road", Description := "Repair",
    ServiceType := "Construction", Status := Created, OrganizationID := orgId,
    CreatorID := aliceId, Version := 2, UpdatedAt := 2 }

/-- The sample bid, authored by carol for the sample organization. -/
def offer : Bid :=
  { ID := bidId, TenderID := tenderId, OrganizationID := orgId, UserID := carolId,
    AuthorType := "User", Description := "desc", Status := BidStatusCreated }

/-- A database with the sample tender, its two history rows, three users, one
membership fact (bob) and the sample bid. -/
def db : DB :=
  { tender := [road]
    tender_history := [roadV1, roadV2]
    employee := [{ ID := aliceId, Username := "alice" }, { ID := bobId, Username := "bob" },
                 { ID := carolId, Username := "carol" }]
    organization_responsible := [{ user_id := bobId, organization_id := orgId }]
    bid := [offer]
    issued := 4 }

/-- The sample database, no driver failure ahead. -/
def world : World := { db := db, now := 4 }

/-- A database holding the three users and nothing else, no driver failure ahead. -/
def fresh : World :=
  { db := { employee := [{ ID := aliceId, Username := "alice" }, { ID := bobId, Username := "bob" },
                         { ID := carolId, Username := "carol" }] }
    now := 1 }

/-- The draft handed to CreateTender in the end-to-end scenario. -/
def draft : Tender :=
  { Name := "Road", Status := Created, OrganizationID := orgId }

/-- The tender the store creates from the draft for alice. -/
def created : Tender :=
  { ID := "00000000-0000-4000-8000-000000000000", Name := "Road", Status := Created,
    OrganizationID := orgId, CreatorID := aliceId, Version := 1, CreatedAt := 2, UpdatedAt := 2 }

/-- The world after alice created a tender from the draft. -/
def afterCreate : World := (tenderService.CreateTender env draft "alice" fresh).2

/-- A field name for the sample edit that is more than a column name: it closes
the SET clause, adds a WHERE clause no row satisfies, and ends in the two hyphens
that open an SQL comment. -/
def orphanField : String := "description = $1 WHERE id = $2 AND false \x2d\x2d"

/-- The statement `EditBid` assembles from `orphanField`: what follows the two
hyphens is comment. -/
def orphanStatement : String :=
  "UPDATE bid SET description = $1 WHERE id = $2 AND false \x2d\x2d = $1, updated_at = NOW() WHERE id = $2"

/-- Sample collaborators as `env`, with a database that runs `orphanStatement` as
written: no row matches, none is changed; any other statement touches one row. -/
def envOrphan : Env :=
  { env with
    execDynamic := fun query _ db =>
      if query == orphanStatement then .ok { rowsAffected := .ok 0, db := db }
      else .ok { rowsAffected := .ok 1, db := db } }

/-- A well-formed identifier under which no user is stored. -/
def strangerId : String := "550e8400-e29b-41d4-a716-446655440009"

/-- The sample database at a moment the connection breaks: the first round trip
passes, the second fails in the driver. -/
def outage : World := { world with faults := [none, some "connection refused"] }

/-- The sample database with the connection already broken: the first round trip
fails in the driver. -/
def down : World := { world with faults := [some "connection refused"] }

end sample

/-! ## Round trips -/

theorem tick_db (w : World) (c : Call) : (w.tick c).db = w.db := rfl

theorem tick_calls (w : World) (c : Call) : (w.tick c).calls = w.calls ++ [c] := rfl

theorem quiet_succ (w : World) (c : Call) (n : Nat) :
    w.quiet (n + 1) ↔ w.fault = none ∧ (w.tick c).quiet n := by
  obtain ⟨db, faults, calls, now⟩ := w
  cases faults with
  | nil => simp [World.quiet, World.fault, World.tick]
  | cons f fs => simp [World.quiet, World.fault, World.tick]

theorem quiet_fault (w : World) (n : Nat) (h : w.quiet (n + 1)) : w.fault = none :=
  ((quiet_succ w (.GetTenderByID "") n).1 h).1

theorem quiet_tick (w : World) (c : Call) (n : Nat) (h : w.quiet (n + 1)) : (w.tick c).quiet n :=
  ((quiet_succ w c n).1 h).2

/-! ## Repository methods on a round trip the driver does not fail -/

theorem getTenderByID_found (tenderId : String) (w : World) (r : Tender)
    (hf : w.fault = none) (hr : w.db.tenderByID tenderId = some r) :
    tenderRepository.GetTenderByID tenderId w =
      (.ok { ID := r.ID, Name := r.Name, Status := r.Status,
             OrganizationID := r.OrganizationID, CreatorID := r.CreatorID },
       w.tick (.GetTenderByID tenderId)) := by
  simp [tenderRepository.GetTenderByID, hf, hr]

theorem getTenderByID_missing (tenderId : String) (w : World)
    (hf : w.fault = none) (hr : w.db.tenderByID tenderId = none) :
    tenderRepository.GetTenderByID tenderId w =
      (.error ErrTenderNotFound, w.tick (.GetTenderByID tenderId)) := by
  simp [tenderRepository.GetTenderByID, hf, hr]

theorem getTenderHistoryByVersion_found (tenderId : String) (version : Int) (w : World)
    (h : TenderHistory) (hf : w.fault = none)
    (hr : w.db.historyByVersion tenderId version = some h) :
    tenderRepository.GetTenderHistoryByVersion tenderId version w =
      (.ok h, w.tick (.GetTenderHistoryByVersion tenderId version)) := by
  simp [tenderRepository.GetTenderHistoryByVersion, hf, hr]

theorem getTenderHistoryByVersion_missing (tenderId : String) (version : Int) (w : World)
    (hf : w.fault = none) (hr : w.db.historyByVersion tenderId version = none) :
    tenderRepository.GetTenderHistoryByVersion tenderId version w =
      (.error ErrTenderHistoryNotFound, w.tick (.GetTenderHistoryByVersion tenderId version)) := by
  simp [tenderRepository.GetTenderHistoryByVersion, hf, hr]

theorem getUserIDByUsername_found (username : String) (w : World) (e : User)
    (hf : w.fault = none) (hr : w.db.userByUsername username = some e) :
    userService.GetUserIDByUsername username w =
      (.ok e.ID, w.tick (.FindUserIDByUsername username)) := by
  simp [userService.GetUserIDByUsername, userRepository.FindUserIDByUsername, hf, hr]

theorem getUserByUsername_found (username : String) (w : World) (e : User)
    (hf : w.fault = none) (hr : w.db.userByUsername username = some e) :
    userRepository.GetUserByUsername username w =
      (.ok { ID := e.ID, Username := e.Username, FirstName := e.FirstName,
             LastName := e.LastName },
       w.tick (.GetUserByUsername username)) := by
  simp [userRepository.GetUserByUsername, hf, hr]

theorem isUserResponsibleForOrganization_ok (userId organizationId : String) (w : World)
    (hf : w.fault = none) :
    tenderRepository.IsUserResponsibleForOrganization userId organizationId w =
      (.ok (w.db.isResponsible userId organizationId),
       w.tick (.IsUserResponsibleForOrganization userId organizationId)) := by
  simp [tenderRepository.IsUserResponsibleForOrganization, hf]

theorem getBidByID_found (bidID : String) (w : World) (r : Bid)
    (hf : w.fault = none) (hr : w.db.bidByID bidID = some r) :
    bidRepository.GetBidByID bidID w =
      (.ok { ID := r.ID, TenderID := r.TenderID, OrganizationID := r.OrganizationID,
             UserID := r.UserID, Description := r.Description, Status := r.Status,
             AuthorType := r.AuthorType },
       w.tick (.GetBidByID bidID)) := by
  simp [bidRepository.GetBidByID, hf, hr]

/-- The error of `tenderRepository.UpdateTenderStatus` is a driver error or nil. -/
theorem updateTenderStatus_err (env : Env) (t : Tender) (w : World) :
    (tenderRepository.UpdateTenderStatus env t w).1 = none ∨
    ∃ msg, (tenderRepository.UpdateTenderStatus env t w).1 = some (driver msg) := by
  unfold tenderRepository.UpdateTenderStatus
  cases w.fault <;> simp

/-- The error of `tenderRepository.UpdateTender` is a driver error or nil. -/
theorem updateTender_err (env : Env) (t : Tender) (w : World) :
    (tenderRepository.UpdateTender env t w).1 = none ∨
    ∃ msg, (tenderRepository.UpdateTender env t w).1 = some (driver msg) := by
  unfold tenderRepository.UpdateTender
  cases w.fault <;> simp

/-! ## Tender operations past the three lookups -/

theorem getTenderStatus_gate (env : Env) (w : World) (tenderId username : String)
    (t : Tender) (e : User)
    (hid : env.uuidParse tenderId = true)
    (ht : w.db.tenderByID tenderId = some t)
    (hu : w.db.userByUsername username = some e)
    (hq : w.quiet 3) :
    tenderService.GetTenderStatus env tenderId username w =
      (if (t.CreatorID != e.ID && !w.db.isResponsible e.ID t.OrganizationID) = true
        then .error ErrForbidden else .ok t.Status,
       ((w.tick (.GetTenderByID tenderId)).tick (.FindUserIDByUsername username)).tick
         (.IsUserResponsibleForOrganization e.ID t.OrganizationID)) := by
  have h1 := quiet_fault w 2 hq
  have q1 := quiet_tick w (.GetTenderByID tenderId) 2 hq
  have h2 := quiet_fault _ 1 q1
  have q2 := quiet_tick _ (.FindUserIDByUsername username) 1 q1
  have h3 := quiet_fault _ 0 q2
  simp only [tenderService.GetTenderStatus, hid, getTenderByID_found tenderId w t h1 ht,
    getUserIDByUsername_found username _ e h2 (by rw [tick_db]; exact hu),
    isUserResponsibleForOrganization_ok _ _ _ h3, tick_db]
  split_ifs <;> simp_all

theorem option_result_eta (p : Option Err × World) :
    (match p with
      | (some err, w) => (some err, w)
      | (none, w) => (none, w)) = p := by
  obtain ⟨a, w⟩ := p
  cases a <;> rfl

theorem updateTenderStatus_gate (env : Env) (w : World) (tenderId username : String)
    (status : TenderStatus) (t : Tender) (e : User)
    (hid : env.uuidParse tenderId = true)
    (ht : w.db.tenderByID tenderId = some t)
    (hu : w.db.userByUsername username = some e)
    (hq : w.quiet 3) :
    tenderService.UpdateTenderStatus env tenderId status username w =
      if (t.CreatorID != e.ID && !w.db.isResponsible e.ID t.OrganizationID) = true
      then (some ErrForbidden,
        ((w.tick (.GetTenderByID tenderId)).tick (.FindUserIDByUsername username)).tick
          (.IsUserResponsibleForOrganization e.ID t.OrganizationID))
      else tenderRepository.UpdateTenderStatus env
        { ID := t.ID, Name := t.Name, Status := status,
          OrganizationID := t.OrganizationID, CreatorID := t.CreatorID }
        (((w.tick (.GetTenderByID tenderId)).tick (.FindUserIDByUsername username)).tick
          (.IsUserResponsibleForOrganization e.ID t.OrganizationID)) := by
  have h1 := quiet_fault w 2 hq
  have q1 := quiet_tick w (.GetTenderByID tenderId) 2 hq
  have h2 := quiet_fault _ 1 q1
  have q2 := quiet_tick _ (.FindUserIDByUsername username) 1 q1
  have h3 := quiet_fault _ 0 q2
  simp only [tenderService.UpdateTenderStatus, hid, getTenderByID_found tenderId w t h1 ht,
    getUserIDByUsername_found username _ e h2 (by rw [tick_db]; exact hu),
    isUserResponsibleForOrganization_ok _ _ _ h3, tick_db, option_result_eta]
  split_ifs <;> simp_all

theorem editTender_gate (env : Env) (w : World) (tenderId username : String)
    (name description serviceType : Option String) (t : Tender) (e : User)
    (hid : env.uuidParse tenderId = true)
    (ht : w.db.tenderByID tenderId = some t)
    (hu : w.db.userByUsername username = some e)
    (hq : w.quiet 3) :
    tenderService.EditTender env tenderId username name description serviceType w =
      if (t.CreatorID != e.ID && !w.db.isResponsible e.ID t.OrganizationID) = true
      then (some ErrForbidden,
        ((w.tick (.GetTenderByID tenderId)).tick (.FindUserIDByUsername username)).tick
          (.IsUserResponsibleForOrganization e.ID t.OrganizationID))
      else tenderRepository.UpdateTender env
        { ID := t.ID, Name := name.getD t.Name, Description := description.getD "",
          ServiceType := serviceType.getD "", Status := t.Status,
          OrganizationID := t.OrganizationID, CreatorID := t.CreatorID }
        (((w.tick (.GetTenderByID tenderId)).tick (.FindUserIDByUsername username)).tick
          (.IsUserResponsibleForOrganization e.ID t.OrganizationID)) := by
  have h1 := quiet_fault w 2 hq
  have q1 := quiet_tick w (.GetTenderByID tenderId) 2 hq
  have h2 := quiet_fault _ 1 q1
  have q2 := quiet_tick _ (.FindUserIDByUsername username) 1 q1
  have h3 := quiet_fault _ 0 q2
  simp only [tenderService.EditTender, hid, getTenderByID_found tenderId w t h1 ht,
    getUserIDByUsername_found username _ e h2 (by rw [tick_db]; exact hu),
    isUserResponsibleForOrganization_ok _ _ _ h3, tick_db, option_result_eta]
  cases name <;> cases description <;> cases serviceType <;> split_ifs <;> simp_all

theorem rollbackTenderVersion_gate (env : Env) (w : World) (tenderId username : String)
    (version : Int) (t : Tender) (h : TenderHistory) (e : User)
    (hid : env.uuidParse tenderId = true)
    (ht : w.db.tenderByID tenderId = some t)
    (hh : w.db.historyByVersion tenderId version = some h)
    (hu : w.db.userByUsername username = some e)
    (hq : w.quiet 4) :
    tenderService.RollbackTenderVersion env tenderId version username w =
      if (t.CreatorID != e.ID && !w.db.isResponsible e.ID t.OrganizationID) = true
      then (some ErrForbidden,
        (((w.tick (.GetTenderByID tenderId)).tick (.GetTenderHistoryByVersion tenderId version)).tick
          (.FindUserIDByUsername username)).tick
          (.IsUserResponsibleForOrganization e.ID t.OrganizationID))
      else tenderRepository.UpdateTender env
        { ID := t.ID, Name := h.Name, Description := h.Description,
          ServiceType := h.ServiceType, Status := h.Status,
          OrganizationID := t.OrganizationID, CreatorID := t.CreatorID }
        ((((w.tick (.GetTenderByID tenderId)).tick (.GetTenderHistoryByVersion tenderId version)).tick
          (.FindUserIDByUsername username)).tick
          (.IsUserResponsibleForOrganization e.ID t.OrganizationID)) := by
  have h1 := quiet_fault w 3 hq
  have q1 := quiet_tick w (.GetTenderByID tenderId) 3 hq
  have h2 := quiet_fault _ 2 q1
  have q2 := quiet_tick _ (.GetTenderHistoryByVersion tenderId version) 2 q1
  have h3 := quiet_fault _ 1 q2
  have q3 := quiet_tick _ (.FindUserIDByUsername username) 1 q2
  have h4 := quiet_fault _ 0 q3
  simp only [tenderService.RollbackTenderVersion, hid, getTenderByID_found tenderId w t h1 ht,
    getTenderHistoryByVersion_found tenderId version _ h h2 (by rw [tick_db]; exact hh),
    getUserIDByUsername_found username _ e h3 (by simp only [tick_db]; exact hu),
    isUserResponsibleForOrganization_ok _ _ _ h4, tick_db, option_result_eta]
  split_ifs <;> simp_all

/-! ## Claims -/

/-- C1: for a tender `t` stored under a well-formed id, a username resolving to
the user `e`, and lookups the driver does not fail, each of GetTenderStatus,
UpdateTenderStatus and EditTender returns Forbidden exactly when `e` is neither
the creator of `t` nor responsible for its organization; an authorized caller of
GetTenderStatus gets the stored status. -/
theorem C1_tender_permission_predicate (env : Env) (w : World) (tenderId username : String)
    (status : TenderStatus) (name description serviceType : Option String)
    (t : Tender) (e : User)
    (hid : env.uuidParse tenderId = true)
    (ht : w.db.tenderByID tenderId = some t)
    (hu : w.db.userByUsername username = some e)
    (hq : w.quiet 3) :
    ((tenderService.GetTenderStatus env tenderId username w).1 = .error ErrForbidden ↔
      (t.CreatorID ≠ e.ID ∧ w.db.isResponsible e.ID t.OrganizationID = false)) ∧
    ((tenderService.UpdateTenderStatus env tenderId status username w).1 = some ErrForbidden ↔
      (t.CreatorID ≠ e.ID ∧ w.db.isResponsible e.ID t.OrganizationID = false)) ∧
    ((tenderService.EditTender env tenderId username name description serviceType w).1
        = some ErrForbidden ↔
      (t.CreatorID ≠ e.ID ∧ w.db.isResponsible e.ID t.OrganizationID = false)) ∧
    ((t.CreatorID = e.ID ∨ w.db.isResponsible e.ID t.OrganizationID = true) →
      (tenderService.GetTenderStatus env tenderId username w).1 = .ok t.Status) := by
  rw [getTenderStatus_gate env w tenderId username t e hid ht hu hq,
    updateTenderStatus_gate env w tenderId username status t e hid ht hu hq,
    editTender_gate env w tenderId username name description serviceType t e hid ht hu hq]
  by_cases hc : (t.CreatorID != e.ID && !w.db.isResponsible e.ID t.OrganizationID) = true
  · have hc2 : t.CreatorID ≠ e.ID ∧ w.db.isResponsible e.ID t.OrganizationID = false := by
      simpa using hc
    simp only [hc, if_true]
    refine ⟨by simp [hc2], by simp [hc2], by simp [hc2], ?_⟩
    rintro (h | h)
    · exact absurd h hc2.1
    · rw [hc2.2] at h; exact absurd h (by decide)
  · have hc2 : ¬ (t.CreatorID ≠ e.ID ∧ w.db.isResponsible e.ID t.OrganizationID = false) := by
      simpa using hc
    simp only [hc, if_false]
    refine ⟨by simp [hc2], ?_, ?_, fun _ => rfl⟩
    · rcases updateTenderStatus_err env
        { ID := t.ID, Name := t.Name, Status := status,
          OrganizationID := t.OrganizationID, CreatorID := t.CreatorID }
        (((w.tick (.GetTenderByID tenderId)).tick (.FindUserIDByUsername username)).tick
          (.IsUserResponsibleForOrganization e.ID t.OrganizationID)) with h | ⟨msg, h⟩ <;>
        simp [h, hc2]
    · rcases updateTender_err env
        { ID := t.ID, Name := name.getD t.Name, Description := description.getD "",
          ServiceType := serviceType.getD "", Status := t.Status,
          OrganizationID := t.OrganizationID, CreatorID := t.CreatorID }
        (((w.tick (.GetTenderByID tenderId)).tick (.FindUserIDByUsername username)).tick
          (.IsUserResponsibleForOrganization e.ID t.OrganizationID)) with h | ⟨msg, h⟩ <;>
        simp [h, hc2]

/-- C1 at the sample data: carol is neither creator nor responsible, so all three
operations answer Forbidden; and the hypotheses hold there. -/
theorem C1_tender_permission_predicate_witness :
    (tenderService.GetTenderStatus sample.env sample.tenderId "carol" sample.world).1
      = .error ErrForbidden ∧
    (tenderService.UpdateTenderStatus sample.env sample.tenderId Closed "carol" sample.world).1
      = some ErrForbidden ∧
    (tenderService.EditTender sample.env sample.tenderId "carol" (some "N") none none
      sample.world).1 = some ErrForbidden :=
  have h := C1_tender_permission_predicate sample.env sample.world sample.tenderId "carol"
    Closed (some "N") none none sample.road { ID := sample.carolId, Username := "carol" }
    (by rfl) (by rfl) (by rfl) (by decide)
  ⟨h.1.2 (by decide), h.2.1.2 (by decide), h.2.2.1.2 (by decide)⟩

/-! ## Read-only stretches -/

theorem noWrite_refl (w : World) : w.noWrite w :=
  ⟨rfl, [], by simp, by simp⟩

theorem noWrite_tick (w w1 : World) (c : Call) (h : w.noWrite w1) (hc : c.isWrite = false) :
    w.noWrite (w1.tick c) := by
  obtain ⟨hdb, cs, hcs, hall⟩ := h
  refine ⟨by rw [tick_db, hdb], cs ++ [c], by rw [tick_calls, hcs, List.append_assoc], ?_⟩
  intro x hx
  rcases List.mem_append.1 hx with hx | hx
  · exact hall x hx
  · rw [List.mem_singleton.1 hx]; exact hc

theorem rollbackTenderVersion_noHistory (env : Env) (w : World) (tenderId username : String)
    (version : Int) (t : Tender)
    (hid : env.uuidParse tenderId = true)
    (ht : w.db.tenderByID tenderId = some t)
    (hh : w.db.historyByVersion tenderId version = none)
    (hq : w.quiet 2) :
    tenderService.RollbackTenderVersion env tenderId version username w =
      (some ErrTenderHistoryNotFound,
        (w.tick (.GetTenderByID tenderId)).tick (.GetTenderHistoryByVersion tenderId version)) := by
  have h1 := quiet_fault w 1 hq
  have q1 := quiet_tick w (.GetTenderByID tenderId) 1 hq
  have h2 := quiet_fault _ 0 q1
  simp [tenderService.RollbackTenderVersion, hid, getTenderByID_found tenderId w t h1 ht,
    getTenderHistoryByVersion_missing tenderId version _ h2 (by rw [tick_db]; exact hh),
    errors.Is]

/-- C2, as the code has it: for a stored tender and a resolvable user who is neither
its creator nor responsible for its organization, RollbackTenderVersion returns
Forbidden when a History row exists for the requested version, and
TenderHistoryNotFound when none exists; in both cases nothing is written. -/
theorem C2_rollback_forbidden_after_history (env : Env) (w : World)
    (tenderId username : String) (version : Int) (t : Tender) (e : User)
    (hid : env.uuidParse tenderId = true)
    (ht : w.db.tenderByID tenderId = some t)
    (hu : w.db.userByUsername username = some e)
    (hq : w.quiet 4)
    (hno : t.CreatorID ≠ e.ID ∧ w.db.isResponsible e.ID t.OrganizationID = false) :
    ((w.db.historyByVersion tenderId version).isSome = true →
      (tenderService.RollbackTenderVersion env tenderId version username w).1
        = some ErrForbidden) ∧
    (w.db.historyByVersion tenderId version = none →
      (tenderService.RollbackTenderVersion env tenderId version username w).1
        = some ErrTenderHistoryNotFound) ∧
    w.noWrite (tenderService.RollbackTenderVersion env tenderId version username w).2 := by
  have hc : (t.CreatorID != e.ID && !w.db.isResponsible e.ID t.OrganizationID) = true := by
    simpa using hno
  cases hh : w.db.historyByVersion tenderId version with
  | none =>
    have hq2 : w.quiet 2 := fun f hf => hq f (List.take_subset_take_left _ (by omega) hf)
    rw [rollbackTenderVersion_noHistory env w tenderId username version t hid ht hh hq2]
    refine ⟨by simp, fun _ => rfl, ?_⟩
    exact noWrite_tick _ _ _ (noWrite_tick _ _ _ (noWrite_refl w) rfl) rfl
  | some h =>
    rw [rollbackTenderVersion_gate env w tenderId username version t h e hid ht hh hu hq,
      if_pos hc]
    refine ⟨fun _ => rfl, by simp, ?_⟩
    exact noWrite_tick _ _ _ (noWrite_tick _ _ _ (noWrite_tick _ _ _
      (noWrite_tick _ _ _ (noWrite_refl w) rfl) rfl) rfl) rfl

/-- C2 at the sample data: carol asks for version 1, which has a History row, and
is answered Forbidden. -/
theorem C2_rollback_forbidden_after_history_witness :
    (tenderService.RollbackTenderVersion sample.env sample.tenderId 1 "carol" sample.world).1
      = some ErrForbidden :=
  (C2_rollback_forbidden_after_history sample.env sample.world sample.tenderId "carol" 1
    sample.road { ID := sample.carolId, Username := "carol" }
    (by rfl) (by rfl) (by rfl) (by decide) (by decide)).1 (by rfl)

/-- C2 as stated fails: the sample tender exists, carol resolves and is neither
its creator nor responsible for its organization, no History row exists for
version 5, and RollbackTenderVersion returns TenderHistoryNotFound, not Forbidden. -/
theorem C2_counterexample :
    sample.world.db.tenderByID sample.tenderId = some sample.road ∧
    sample.world.db.userByUsername "carol"
      = some { ID := sample.carolId, Username := "carol" } ∧
    sample.road.CreatorID ≠ sample.carolId ∧
    sample.world.db.isResponsible sample.carolId sample.road.OrganizationID = false ∧
    sample.world.db.historyByVersion sample.tenderId 5 = none ∧
    (tenderService.RollbackTenderVersion sample.env sample.tenderId 5 "carol" sample.world).1
      = some ErrTenderHistoryNotFound ∧
    (tenderService.RollbackTenderVersion sample.env sample.tenderId 5 "carol" sample.world).1
      ≠ some ErrForbidden := by
  refine ⟨by rfl, by rfl, by decide, by rfl, by rfl, by rfl, ?_⟩
  have h : (tenderService.RollbackTenderVersion sample.env sample.tenderId 5 "carol"
      sample.world).1 = some ErrTenderHistoryNotFound := by rfl
  rw [h]
  decide

/-! ## Bid operations past the two lookups -/

theorem except_result_eta (p : Option Err × World) (b : Bid) :
    (match p with
      | (some err, w) => ((Except.error err : Except Err Bid), w)
      | (none, w) => (.ok b, w)) =
    (match p.1 with
      | some err => .error err
      | none => .ok b, p.2) := by
  obtain ⟨a, w⟩ := p
  cases a <;> rfl

theorem getBidStatus_gate (env : Env) (w : World) (bidID username : String)
    (b : Bid) (e : User)
    (hid : env.uuidParse bidID = true)
    (hb : w.db.bidByID bidID = some b)
    (hu : w.db.userByUsername username = some e)
    (hq : w.quiet 2) :
    bidService.GetBidStatus env bidID username w =
      (if (b.UserID != e.ID) = true then .error ErrForbidden else .ok b.Status,
       (w.tick (.GetBidByID bidID)).tick (.GetUserByUsername username)) := by
  have h1 := quiet_fault w 1 hq
  have q1 := quiet_tick w (.GetBidByID bidID) 1 hq
  have h2 := quiet_fault _ 0 q1
  simp only [bidService.GetBidStatus, hid, getBidByID_found bidID w b h1 hb,
    getUserByUsername_found username _ e h2 (by rw [tick_db]; exact hu)]
  split_ifs <;> simp_all

theorem updateBidStatus_gate (env : Env) (w : World) (bidID status username : String)
    (b : Bid) (e : User)
    (hid : env.uuidParse bidID = true)
    (hb : w.db.bidByID bidID = some b)
    (hu : w.db.userByUsername username = some e)
    (hq : w.quiet 2) :
    bidService.UpdateBidStatus env bidID status username w =
      if (b.UserID != e.ID) = true
      then (some ErrForbidden, (w.tick (.GetBidByID bidID)).tick (.GetUserByUsername username))
      else bidRepository.UpdateBidStatus bidID status
        ((w.tick (.GetBidByID bidID)).tick (.GetUserByUsername username)) := by
  have h1 := quiet_fault w 1 hq
  have q1 := quiet_tick w (.GetBidByID bidID) 1 hq
  have h2 := quiet_fault _ 0 q1
  simp only [bidService.UpdateBidStatus, hid, getBidByID_found bidID w b h1 hb,
    getUserByUsername_found username _ e h2 (by rw [tick_db]; exact hu), option_result_eta]
  split_ifs <;> simp_all

theorem editBid_gate (env : Env) (w : World) (bidID username : String)
    (updates : List (String × Value)) (b : Bid) (e : User)
    (hid : env.uuidParse bidID = true)
    (hb : w.db.bidByID bidID = some b)
    (hu : w.db.userByUsername username = some e)
    (hq : w.quiet 2) :
    bidService.EditBid env bidID username updates w =
      if (b.UserID != e.ID) = true
      then (some ErrForbidden, (w.tick (.GetBidByID bidID)).tick (.GetUserByUsername username))
      else bidRepository.EditBid env bidID updates
        ((w.tick (.GetBidByID bidID)).tick (.GetUserByUsername username)) := by
  have h1 := quiet_fault w 1 hq
  have q1 := quiet_tick w (.GetBidByID bidID) 1 hq
  have h2 := quiet_fault _ 0 q1
  simp only [bidService.EditBid, hid, getBidByID_found bidID w b h1 hb,
    getUserByUsername_found username _ e h2 (by rw [tick_db]; exact hu), option_result_eta]
  split_ifs <;> simp_all

theorem submitBidFeedback_gate (w : World) (bidID username feedback : String)
    (b : Bid) (e : User)
    (hb : w.db.bidByID bidID = some b)
    (hu : w.db.userByUsername username = some e)
    (hq : w.quiet 2) :
    bidService.SubmitBidFeedback bidID username feedback w =
      if (b.UserID != e.ID) = true
      then (.error ErrForbidden, (w.tick (.GetBidByID bidID)).tick (.GetUserByUsername username))
      else
        (match (bidRepository.AddBidFeedback bidID feedback
            ((w.tick (.GetBidByID bidID)).tick (.GetUserByUsername username))).1 with
          | some err => .error err
          | none => .ok { ID := b.ID, TenderID := b.TenderID, OrganizationID := b.OrganizationID,
                          UserID := b.UserID, Description := b.Description, Status := b.Status,
                          AuthorType := b.AuthorType },
         (bidRepository.AddBidFeedback bidID feedback
            ((w.tick (.GetBidByID bidID)).tick (.GetUserByUsername username))).2) := by
  have h1 := quiet_fault w 1 hq
  have q1 := quiet_tick w (.GetBidByID bidID) 1 hq
  have h2 := quiet_fault _ 0 q1
  simp only [bidService.SubmitBidFeedback, getBidByID_found bidID w b h1 hb,
    getUserByUsername_found username _ e h2 (by rw [tick_db]; exact hu), except_result_eta]

/-- The error of `bidRepository.UpdateBidStatus` is never Forbidden. -/
theorem repoUpdateBidStatus_err (bidID : String) (status : BidStatus) (w : World) :
    (bidRepository.UpdateBidStatus bidID status w).1 ≠ some ErrForbidden := by
  unfold bidRepository.UpdateBidStatus
  cases w.fault <;> cases w.db.bidByID bidID <;> simp

/-- The error of `bidRepository.EditBid` is never Forbidden. -/
theorem repoEditBid_err (env : Env) (bidID : String) (updates : List (String × Value))
    (w : World) : (bidRepository.EditBid env bidID updates w).1 ≠ some ErrForbidden := by
  unfold bidRepository.EditBid
  simp only
  cases w.fault with
  | some msg => simp
  | none =>
    simp only
    cases env.execDynamic (bidRepository.EditBid.statement bidID updates).1
        (bidRepository.EditBid.statement bidID updates).2 w.db with
    | error msg => simp
    | ok result =>
      simp only
      cases result.rowsAffected with
      | error msg => simp
      | ok n => simp only; split_ifs <;> simp

/-- The error of `bidRepository.AddBidFeedback` is never Forbidden. -/
theorem repoAddBidFeedback_err (bidID feedback : String) (w : World) :
    (bidRepository.AddBidFeedback bidID feedback w).1 ≠ some ErrForbidden := by
  unfold bidRepository.AddBidFeedback
  cases w.fault <;> simp

/-- C3: for a stored bid `b` and a username resolving to the user `e`, with both
lookups not failed by the driver: when `e` is not the author of `b`, each of
GetBidStatus, UpdateBidStatus, EditBid and SubmitBidFeedback returns Forbidden
and writes nothing, whatever the membership facts of the database are; when `e`
is the author, none of them returns Forbidden. -/
theorem C3_bid_ownership (env : Env) (w : World) (bidID username status feedback : String)
    (updates : List (String × Value)) (b : Bid) (e : User)
    (hid : env.uuidParse bidID = true)
    (hb : w.db.bidByID bidID = some b)
    (hu : w.db.userByUsername username = some e)
    (hq : w.quiet 2) :
    (e.ID ≠ b.UserID →
      ((bidService.GetBidStatus env bidID username w).1 = .error ErrForbidden ∧
        w.noWrite (bidService.GetBidStatus env bidID username w).2) ∧
      ((bidService.UpdateBidStatus env bidID status username w).1 = some ErrForbidden ∧
        w.noWrite (bidService.UpdateBidStatus env bidID status username w).2) ∧
      ((bidService.EditBid env bidID username updates w).1 = some ErrForbidden ∧
        w.noWrite (bidService.EditBid env bidID username updates w).2) ∧
      ((bidService.SubmitBidFeedback bidID username feedback w).1 = .error ErrForbidden ∧
        w.noWrite (bidService.SubmitBidFeedback bidID username feedback w).2)) ∧
    (e.ID = b.UserID →
      (bidService.GetBidStatus env bidID username w).1 ≠ .error ErrForbidden ∧
      (bidService.UpdateBidStatus env bidID status username w).1 ≠ some ErrForbidden ∧
      (bidService.EditBid env bidID username updates w).1 ≠ some ErrForbidden ∧
      (bidService.SubmitBidFeedback bidID username feedback w).1 ≠ .error ErrForbidden) := by
  rw [getBidStatus_gate env w bidID username b e hid hb hu hq,
    updateBidStatus_gate env w bidID status username b e hid hb hu hq,
    editBid_gate env w bidID username updates b e hid hb hu hq,
    submitBidFeedback_gate w bidID username feedback b e hb hu hq]
  have hro : w.noWrite ((w.tick (.GetBidByID bidID)).tick (.GetUserByUsername username)) :=
    noWrite_tick _ _ _ (noWrite_tick _ _ _ (noWrite_refl w) rfl) rfl
  constructor
  · intro hne
    have hc : (b.UserID != e.ID) = true := by simpa using fun h : b.UserID = e.ID => hne h.symm
    rw [if_pos hc, if_pos hc, if_pos hc, if_pos hc]
    exact ⟨⟨rfl, hro⟩, ⟨rfl, hro⟩, ⟨rfl, hro⟩, ⟨rfl, hro⟩⟩
  · intro heq
    have hc : ¬ ((b.UserID != e.ID) = true) := by simp [heq]
    rw [if_neg hc, if_neg hc, if_neg hc, if_neg hc]
    refine ⟨by simp, repoUpdateBidStatus_err _ _ _, repoEditBid_err _ _ _ _, ?_⟩
    have h := repoAddBidFeedback_err bidID feedback
      ((w.tick (.GetBidByID bidID)).tick (.GetUserByUsername username))
    revert h
    cases (bidRepository.AddBidFeedback bidID feedback
      ((w.tick (.GetBidByID bidID)).tick (.GetUserByUsername username))).1 <;> simp

/-- C3 at the sample data: bob is responsible for the organization of carol's bid
and is answered Forbidden by all four operations. -/
theorem C3_bid_ownership_witness :
    sample.world.db.isResponsible sample.bobId sample.offer.OrganizationID = true ∧
    (bidService.GetBidStatus sample.env sample.bidId "bob" sample.world).1
      = .error ErrForbidden ∧
    (bidService.UpdateBidStatus sample.env sample.bidId "PUBLISHED" "bob" sample.world).1
      = some ErrForbidden ∧
    (bidService.EditBid sample.env sample.bidId "bob" [("description", .string "x")]
      sample.world).1 = some ErrForbidden ∧
    (bidService.SubmitBidFeedback sample.bidId "bob" "fine" sample.world).1
      = .error ErrForbidden :=
  have h := (C3_bid_ownership sample.env sample.world sample.bidId "bob" "PUBLISHED" "fine"
    [("description", .string "x")] sample.offer { ID := sample.bobId, Username := "bob" }
    (by rfl) (by rfl) (by rfl) (by decide)).1 (by decide)
  ⟨by rfl, h.1.1, h.2.1.1, h.2.2.1.1, h.2.2.2.1⟩

/-! ## Repository methods on a round trip the driver fails, or that finds no row -/

theorem getTenderByID_fault (tenderId : String) (w : World) (msg : String)
    (hf : w.fault = some msg) :
    tenderRepository.GetTenderByID tenderId w =
      (.error (driver msg), w.tick (.GetTenderByID tenderId)) := by
  simp [tenderRepository.GetTenderByID, hf]

theorem getTenderHistoryByVersion_fault (tenderId : String) (version : Int) (w : World)
    (msg : String) (hf : w.fault = some msg) :
    tenderRepository.GetTenderHistoryByVersion tenderId version w =
      (.error (driver msg), w.tick (.GetTenderHistoryByVersion tenderId version)) := by
  simp [tenderRepository.GetTenderHistoryByVersion, hf]

theorem getUserIDByUsername_fault (username : String) (w : World) (msg : String)
    (hf : w.fault = some msg) :
    userService.GetUserIDByUsername username w =
      (.error (driver msg), w.tick (.FindUserIDByUsername username)) := by
  simp [userService.GetUserIDByUsername, userRepository.FindUserIDByUsername, hf]

theorem getUserIDByUsername_missing (username : String) (w : World)
    (hf : w.fault = none) (hr : w.db.userByUsername username = none) :
    userService.GetUserIDByUsername username w =
      (.error ErrUserNotFound, w.tick (.FindUserIDByUsername username)) := by
  simp [userService.GetUserIDByUsername, userRepository.FindUserIDByUsername, hf, hr]

theorem isUserResponsibleForOrganization_fault (userId organizationId : String) (w : World)
    (msg : String) (hf : w.fault = some msg) :
    tenderRepository.IsUserResponsibleForOrganization userId organizationId w =
      (.error (driver msg), w.tick (.IsUserResponsibleForOrganization userId organizationId)) := by
  simp [tenderRepository.IsUserResponsibleForOrganization, hf]

theorem updateTenderStatus_fault (env : Env) (t : Tender) (w : World) (msg : String)
    (hf : w.fault = some msg) :
    tenderRepository.UpdateTenderStatus env t w =
      (some (driver msg), w.tick (.UpdateTenderStatus t)) := by
  simp [tenderRepository.UpdateTenderStatus, hf]

theorem updateTender_fault (env : Env) (t : Tender) (w : World) (msg : String)
    (hf : w.fault = some msg) :
    tenderRepository.UpdateTender env t w = (some (driver msg), w.tick (.UpdateTender t)) := by
  simp [tenderRepository.UpdateTender, hf]

theorem updateTenderStatus_ok (env : Env) (t : Tender) (w : World) (hf : w.fault = none) :
    tenderRepository.UpdateTenderStatus env t w =
      (none, { w.tick (.UpdateTenderStatus t) with
        db := schema.updateTender env t.ID
          (fun r => { r with Status := t.Status, UpdatedAt := w.now }) w.db }) := by
  simp [tenderRepository.UpdateTenderStatus, hf]

theorem updateTender_ok (env : Env) (t : Tender) (w : World) (hf : w.fault = none) :
    tenderRepository.UpdateTender env t w =
      (none, { w.tick (.UpdateTender t) with
        db := schema.updateTender env t.ID
          (fun r => { r with Name := t.Name, Description := t.Description,
                             ServiceType := t.ServiceType, UpdatedAt := w.now }) w.db }) := by
  simp [tenderRepository.UpdateTender, hf]

theorem quiet_zero (w : World) : w.quiet 0 := by
  simp [World.quiet]

theorem quiet_step (w : World) (c : Call) (n : Nat) (hf : w.fault = none)
    (h : (w.tick c).quiet n) : w.quiet (n + 1) :=
  (quiet_succ w c n).2 ⟨hf, h⟩

/-! ## What a successful tender mutation implies -/

theorem updateTenderStatus_success (env : Env) (w : World) (tenderId username : String)
    (status : TenderStatus)
    (hok : (tenderService.UpdateTenderStatus env tenderId status username w).1 = none) :
    env.uuidParse tenderId = true ∧ w.quiet 4 ∧
    ∃ t e, w.db.tenderByID tenderId = some t ∧ w.db.userByUsername username = some e ∧
      ¬ ((t.CreatorID != e.ID && !w.db.isResponsible e.ID t.OrganizationID) = true) := by
  by_cases hid : env.uuidParse tenderId = true
  swap
  · simp [tenderService.UpdateTenderStatus, hid] at hok
  cases h1 : w.fault with
  | some msg =>
    simp [tenderService.UpdateTenderStatus, hid, getTenderByID_fault _ _ _ h1, errors.Is] at hok
  | none =>
  cases ht : w.db.tenderByID tenderId with
  | none =>
    simp [tenderService.UpdateTenderStatus, hid, getTenderByID_missing _ _ h1 ht,
      errors.Is] at hok
  | some t =>
  cases h2 : (w.tick (.GetTenderByID tenderId)).fault with
  | some msg =>
    simp [tenderService.UpdateTenderStatus, hid, getTenderByID_found _ _ _ h1 ht,
      getUserIDByUsername_fault _ _ _ h2] at hok
  | none =>
  cases hu : w.db.userByUsername username with
  | none =>
    simp [tenderService.UpdateTenderStatus, hid, getTenderByID_found _ _ _ h1 ht,
      getUserIDByUsername_missing _ _ h2 (by rw [tick_db]; exact hu)] at hok
  | some e =>
  cases h3 : ((w.tick (.GetTenderByID tenderId)).tick (.FindUserIDByUsername username)).fault with
  | some msg =>
    simp [tenderService.UpdateTenderStatus, hid, getTenderByID_found _ _ _ h1 ht,
      getUserIDByUsername_found _ _ e h2 (by rw [tick_db]; exact hu),
      isUserResponsibleForOrganization_fault _ _ _ _ h3] at hok
  | none =>
  have q3 : w.quiet 3 :=
    quiet_step _ _ _ h1 (quiet_step _ _ _ h2 (quiet_step _
      (.IsUserResponsibleForOrganization e.ID t.OrganizationID) _ h3 (quiet_zero _)))
  rw [updateTenderStatus_gate env w tenderId username status t e hid ht hu q3] at hok
  by_cases hc : (t.CreatorID != e.ID && !w.db.isResponsible e.ID t.OrganizationID) = true
  · rw [if_pos hc] at hok; simp at hok
  · rw [if_neg hc] at hok
    cases h4 : (((w.tick (.GetTenderByID tenderId)).tick (.FindUserIDByUsername username)).tick
        (.IsUserResponsibleForOrganization e.ID t.OrganizationID)).fault with
    | some msg => rw [updateTenderStatus_fault _ _ _ _ h4] at hok; simp at hok
    | none =>
      exact ⟨hid, quiet_step _ _ _ h1 (quiet_step _ _ _ h2 (quiet_step _ _ _ h3
        (quiet_step _ (.UpdateTenderStatus t) _ h4 (quiet_zero _)))), t, e, rfl, rfl, hc⟩

theorem editTender_success (env : Env) (w : World) (tenderId username : String)
    (name description serviceType : Option String)
    (hok : (tenderService.EditTender env tenderId username name description serviceType w).1
      = none) :
    env.uuidParse tenderId = true ∧ w.quiet 4 ∧
    ∃ t e, w.db.tenderByID tenderId = some t ∧ w.db.userByUsername username = some e ∧
      ¬ ((t.CreatorID != e.ID && !w.db.isResponsible e.ID t.OrganizationID) = true) := by
  by_cases hid : env.uuidParse tenderId = true
  swap
  · simp [tenderService.EditTender, hid] at hok
  cases h1 : w.fault with
  | some msg =>
    simp [tenderService.EditTender, hid, getTenderByID_fault _ _ _ h1, errors.Is] at hok
  | none =>
  cases ht : w.db.tenderByID tenderId with
  | none =>
    simp [tenderService.EditTender, hid, getTenderByID_missing _ _ h1 ht, errors.Is] at hok
  | some t =>
  cases h2 : (w.tick (.GetTenderByID tenderId)).fault with
  | some msg =>
    simp [tenderService.EditTender, hid, getTenderByID_found _ _ _ h1 ht,
      getUserIDByUsername_fault _ _ _ h2] at hok
  | none =>
  cases hu : w.db.userByUsername username with
  | none =>
    simp [tenderService.EditTender, hid, getTenderByID_found _ _ _ h1 ht,
      getUserIDByUsername_missing _ _ h2 (by rw [tick_db]; exact hu)] at hok
  | some e =>
  cases h3 : ((w.tick (.GetTenderByID tenderId)).tick (.FindUserIDByUsername username)).fault with
  | some msg =>
    simp [tenderService.EditTender, hid, getTenderByID_found _ _ _ h1 ht,
      getUserIDByUsername_found _ _ e h2 (by rw [tick_db]; exact hu),
      isUserResponsibleForOrganization_fault _ _ _ _ h3] at hok
  | none =>
  have q3 : w.quiet 3 :=
    quiet_step _ _ _ h1 (quiet_step _ _ _ h2 (quiet_step _
      (.IsUserResponsibleForOrganization e.ID t.OrganizationID) _ h3 (quiet_zero _)))
  rw [editTender_gate env w tenderId username name description serviceType t e hid ht hu q3]
    at hok
  by_cases hc : (t.CreatorID != e.ID && !w.db.isResponsible e.ID t.OrganizationID) = true
  · rw [if_pos hc] at hok; simp at hok
  · rw [if_neg hc] at hok
    cases h4 : (((w.tick (.GetTenderByID tenderId)).tick (.FindUserIDByUsername username)).tick
        (.IsUserResponsibleForOrganization e.ID t.OrganizationID)).fault with
    | some msg => rw [updateTender_fault _ _ _ _ h4] at hok; simp at hok
    | none =>
      exact ⟨hid, quiet_step _ _ _ h1 (quiet_step _ _ _ h2 (quiet_step _ _ _ h3
        (quiet_step _ (.UpdateTender t) _ h4 (quiet_zero _)))), t, e, rfl, rfl, hc⟩

theorem rollbackTenderVersion_success (env : Env) (w : World) (tenderId username : String)
    (version : Int)
    (hok : (tenderService.RollbackTenderVersion env tenderId version username w).1 = none) :
    env.uuidParse tenderId = true ∧ w.quiet 5 ∧
    ∃ t h e, w.db.tenderByID tenderId = some t ∧
      w.db.historyByVersion tenderId version = some h ∧
      w.db.userByUsername username = some e ∧
      ¬ ((t.CreatorID != e.ID && !w.db.isResponsible e.ID t.OrganizationID) = true) := by
  by_cases hid : env.uuidParse tenderId = true
  swap
  · simp [tenderService.RollbackTenderVersion, hid] at hok
  cases h1 : w.fault with
  | some msg =>
    simp [tenderService.RollbackTenderVersion, hid, getTenderByID_fault _ _ _ h1,
      errors.Is] at hok
  | none =>
  cases ht : w.db.tenderByID tenderId with
  | none =>
    simp [tenderService.RollbackTenderVersion, hid, getTenderByID_missing _ _ h1 ht,
      errors.Is] at hok
  | some t =>
  cases h2 : (w.tick (.GetTenderByID tenderId)).fault with
  | some msg =>
    simp [tenderService.RollbackTenderVersion, hid, getTenderByID_found _ _ _ h1 ht,
      getTenderHistoryByVersion_fault _ _ _ _ h2, errors.Is] at hok
  | none =>
  cases hh : w.db.historyByVersion tenderId version with
  | none =>
    simp [tenderService.RollbackTenderVersion, hid, getTenderByID_found _ _ _ h1 ht,
      getTenderHistoryByVersion_missing _ _ _ h2 (by rw [tick_db]; exact hh), errors.Is] at hok
  | some h =>
  cases h3 : ((w.tick (.GetTenderByID tenderId)).tick
      (.GetTenderHistoryByVersion tenderId version)).fault with
  | some msg =>
    simp [tenderService.RollbackTenderVersion, hid, getTenderByID_found _ _ _ h1 ht,
      getTenderHistoryByVersion_found _ _ _ h h2 (by rw [tick_db]; exact hh),
      getUserIDByUsername_fault _ _ _ h3] at hok
  | none =>
  cases hu : w.db.userByUsername username with
  | none =>
    simp [tenderService.RollbackTenderVersion, hid, getTenderByID_found _ _ _ h1 ht,
      getTenderHistoryByVersion_found _ _ _ h h2 (by rw [tick_db]; exact hh),
      getUserIDByUsername_missing _ _ h3 (by simp only [tick_db]; exact hu)] at hok
  | some e =>
  cases h4 : (((w.tick (.GetTenderByID tenderId)).tick
      (.GetTenderHistoryByVersion tenderId version)).tick
      (.FindUserIDByUsername username)).fault with
  | some msg =>
    simp [tenderService.RollbackTenderVersion, hid, getTenderByID_found _ _ _ h1 ht,
      getTenderHistoryByVersion_found _ _ _ h h2 (by rw [tick_db]; exact hh),
      getUserIDByUsername_found _ _ e h3 (by simp only [tick_db]; exact hu),
      isUserResponsibleForOrganization_fault _ _ _ _ h4] at hok
  | none =>
  have q4 : w.quiet 4 :=
    quiet_step _ _ _ h1 (quiet_step _ _ _ h2 (quiet_step _ _ _ h3 (quiet_step _
      (.IsUserResponsibleForOrganization e.ID t.OrganizationID) _ h4 (quiet_zero _))))
  rw [rollbackTenderVersion_gate env w tenderId username version t h e hid ht hh hu q4] at hok
  by_cases hc : (t.CreatorID != e.ID && !w.db.isResponsible e.ID t.OrganizationID) = true
  · rw [if_pos hc] at hok; simp at hok
  · rw [if_neg hc] at hok
    cases h5 : ((((w.tick (.GetTenderByID tenderId)).tick
        (.GetTenderHistoryByVersion tenderId version)).tick
        (.FindUserIDByUsername username)).tick
        (.IsUserResponsibleForOrganization e.ID t.OrganizationID)).fault with
    | some msg => rw [updateTender_fault _ _ _ _ h5] at hok; simp at hok
    | none =>
      exact ⟨hid, quiet_step _ _ _ h1 (quiet_step _ _ _ h2 (quiet_step _ _ _ h3
        (quiet_step _ _ _ h4 (quiet_step _ (.UpdateTender t) _ h5 (quiet_zero _))))),
        t, h, e, rfl, rfl, rfl, hc⟩

/-! ## The UPDATE of table tender -/

theorem find_of_filter_singleton {α : Type} (p : α → Bool) (l : List α) (a : α)
    (h : l.filter p = [a]) : l.find? p = some a := by
  induction l with
  | nil => simp at h
  | cons x xs ih =>
    by_cases hx : p x = true
    · rw [List.filter_cons_of_pos hx] at h
      rw [List.find?_cons_of_pos _ hx]
      exact congrArg some (List.cons.inj h).1
    · rw [List.filter_cons_of_neg hx] at h
      rw [List.find?_cons_of_neg _ hx]
      exact ih h

theorem tenderByID_id (db : DB) (tenderId : String) (t : Tender)
    (ht : db.tenderByID tenderId = some t) : t.ID = tenderId := by
  have h := List.find?_some ht
  simpa using h

theorem updateTender_lookup (env : Env) (id : String) (set : Tender → Tender) (db : DB)
    (t : Tender) (hset : ∀ r, (set r).ID = r.ID) (ht : db.tenderByID id = some t) :
    (schema.updateTender env id set db).tenderByID id
      = some { set t with Version := t.Version + 1 } := by
  have hid := tenderByID_id db id t ht
  have hfun : ((fun r : Tender => r.ID == id) ∘
      (fun r : Tender => if r.ID == id then { set r with Version := r.Version + 1 } else r))
      = (fun r : Tender => r.ID == id) := by
    funext r
    by_cases hr : r.ID = id
    · simp [hr, hset]
    · simp [hr]
  unfold DB.tenderByID at ht
  simp only [DB.tenderByID, schema.updateTender, List.find?_map, hfun, ht, Option.map_some']
  simp [hid]

theorem updateTender_history (env : Env) (id : String) (set : Tender → Tender) (db : DB)
    (t : Tender) (hkey : db.tender.filter (fun r => r.ID == id) = [t]) :
    (schema.updateTender env id set db).tender_history
      = db.tender_history ++ [schema.snapshot (env.genUUID db.issued) t] := by
  simp [schema.updateTender, hkey]

theorem versionBumped_update (env : Env) (set : Tender → Tender) (db : DB) (t : Tender)
    (hset : ∀ r, (set r).ID = r.ID)
    (hkey : db.tender.filter (fun r => r.ID == t.ID) = [t]) :
    versionBumped db (schema.updateTender env t.ID set db) t := by
  have ht : db.tenderByID t.ID = some t := find_of_filter_singleton _ _ _ hkey
  refine ⟨⟨_, updateTender_lookup env t.ID set db t hset ht, rfl⟩,
    schema.snapshot (env.genUUID db.issued) t,
    updateTender_history env t.ID set db t hkey, rfl, rfl, rfl, rfl, rfl, rfl⟩

/-! ## The database after a successful tender mutation -/

theorem quiet_le (w : World) (m n : Nat) (hmn : m ≤ n) (h : w.quiet n) : w.quiet m :=
  fun f hf => h f (List.take_subset_take_left _ hmn hf)

theorem fault_after3 (w : World) (c1 c2 c3 : Call) (hq : w.quiet 4) :
    (((w.tick c1).tick c2).tick c3).fault = none :=
  quiet_fault _ 0 (quiet_tick _ c3 1 (quiet_tick _ c2 2 (quiet_tick w c1 3 hq)))

theorem fault_after4 (w : World) (c1 c2 c3 c4 : Call) (hq : w.quiet 5) :
    ((((w.tick c1).tick c2).tick c3).tick c4).fault = none :=
  quiet_fault _ 0 (quiet_tick _ c4 1 (quiet_tick _ c3 2 (quiet_tick _ c2 3 (quiet_tick w c1 4 hq))))

theorem updateTenderStatus_final (env : Env) (w : World) (tenderId username : String)
    (status : TenderStatus)
    (hok : (tenderService.UpdateTenderStatus env tenderId status username w).1 = none) :
    ∃ t e now, w.db.tenderByID tenderId = some t ∧ w.db.userByUsername username = some e ∧
      (t.CreatorID = e.ID ∨ w.db.isResponsible e.ID t.OrganizationID = true) ∧
      (tenderService.UpdateTenderStatus env tenderId status username w).2.db =
        schema.updateTender env tenderId
          (fun r => { r with Status := status, UpdatedAt := now }) w.db := by
  obtain ⟨hid, hq, t, e, ht, hu, hc⟩ :=
    updateTenderStatus_success env w tenderId username status hok
  have q3 : w.quiet 3 := quiet_le w 3 4 (by omega) hq
  have h4 := fault_after3 w (.GetTenderByID tenderId) (.FindUserIDByUsername username)
    (.IsUserResponsibleForOrganization e.ID t.OrganizationID) hq
  refine ⟨t, e, (((w.tick (.GetTenderByID tenderId)).tick (.FindUserIDByUsername username)).tick
    (.IsUserResponsibleForOrganization e.ID t.OrganizationID)).now, ht, hu,
    by simpa [or_iff_not_imp_left] using hc, ?_⟩
  rw [updateTenderStatus_gate env w tenderId username status t e hid ht hu q3, if_neg hc,
    updateTenderStatus_ok _ _ _ h4]
  simp only [tick_db, tenderByID_id w.db tenderId t ht]

theorem editTender_final (env : Env) (w : World) (tenderId username : String)
    (name description serviceType : Option String)
    (hok : (tenderService.EditTender env tenderId username name description serviceType w).1
      = none) :
    ∃ t e now, w.db.tenderByID tenderId = some t ∧ w.db.userByUsername username = some e ∧
      (t.CreatorID = e.ID ∨ w.db.isResponsible e.ID t.OrganizationID = true) ∧
      (tenderService.EditTender env tenderId username name description serviceType w).2.db =
        schema.updateTender env tenderId
          (fun r => { r with Name := name.getD t.Name, Description := description.getD "",
                             ServiceType := serviceType.getD "", UpdatedAt := now }) w.db := by
  obtain ⟨hid, hq, t, e, ht, hu, hc⟩ :=
    editTender_success env w tenderId username name description serviceType hok
  have q3 : w.quiet 3 := quiet_le w 3 4 (by omega) hq
  have h4 := fault_after3 w (.GetTenderByID tenderId) (.FindUserIDByUsername username)
    (.IsUserResponsibleForOrganization e.ID t.OrganizationID) hq
  refine ⟨t, e, (((w.tick (.GetTenderByID tenderId)).tick (.FindUserIDByUsername username)).tick
    (.IsUserResponsibleForOrganization e.ID t.OrganizationID)).now, ht, hu,
    by simpa [or_iff_not_imp_left] using hc, ?_⟩
  rw [editTender_gate env w tenderId username name description serviceType t e hid ht hu q3,
    if_neg hc, updateTender_ok _ _ _ h4]
  simp only [tick_db, tenderByID_id w.db tenderId t ht]

theorem rollbackTenderVersion_final (env : Env) (w : World) (tenderId username : String)
    (version : Int)
    (hok : (tenderService.RollbackTenderVersion env tenderId version username w).1 = none) :
    ∃ t h e now, w.db.tenderByID tenderId = some t ∧
      w.db.historyByVersion tenderId version = some h ∧
      w.db.userByUsername username = some e ∧
      (t.CreatorID = e.ID ∨ w.db.isResponsible e.ID t.OrganizationID = true) ∧
      (tenderService.RollbackTenderVersion env tenderId version username w).2.db =
        schema.updateTender env tenderId
          (fun r => { r with Name := h.Name, Description := h.Description,
                             ServiceType := h.ServiceType, UpdatedAt := now }) w.db := by
  obtain ⟨hid, hq, t, h, e, ht, hh, hu, hc⟩ :=
    rollbackTenderVersion_success env w tenderId username version hok
  have q4 : w.quiet 4 := quiet_le w 4 5 (by omega) hq
  have h5 := fault_after4 w (.GetTenderByID tenderId)
    (.GetTenderHistoryByVersion tenderId version) (.FindUserIDByUsername username)
    (.IsUserResponsibleForOrganization e.ID t.OrganizationID) hq
  refine ⟨t, h, e, ((((w.tick (.GetTenderByID tenderId)).tick
    (.GetTenderHistoryByVersion tenderId version)).tick (.FindUserIDByUsername username)).tick
    (.IsUserResponsibleForOrganization e.ID t.OrganizationID)).now, ht, hh, hu,
    by simpa [or_iff_not_imp_left] using hc, ?_⟩
  rw [rollbackTenderVersion_gate env w tenderId username version t h e hid ht hh hu q4,
    if_neg hc, updateTender_ok _ _ _ h5]
  simp only [tick_db, tenderByID_id w.db tenderId t ht]

/-- C4 on the code: at the sample data the creator alice edits the stored tender
giving a name only; the call succeeds, and the persisted description and service
type, "Repair" and "Construction" before the call, are empty afterwards, because
`GetTenderByID` does not load them and `UpdateTender` writes all three columns. -/
theorem C4_editTender_erases_absent_fields :
    sample.world.db.tenderByID sample.tenderId = some sample.road ∧
    sample.road.Description = "Repair" ∧ sample.road.ServiceType = "Construction" ∧
    (tenderService.EditTender sample.env sample.tenderId "alice" (some "New") none none
      sample.world).1 = none ∧
    ((tenderService.EditTender sample.env sample.tenderId "alice" (some "New") none none
      sample.world).2.db.tenderByID sample.tenderId).map
        (fun t => (t.Name, t.Description, t.ServiceType)) = some ("New", "", "") :=
  ⟨by rfl, by rfl, by rfl, by rfl, by rfl⟩

/-- C5: when RollbackTenderVersion succeeds and `h` is the History row of the
requested version, the tender persisted under the id afterwards has the name,
description and service type recorded in `h`. A successful call implies that the
tender exists and the caller is authorized. -/
theorem C5_rollback_round_trip (env : Env) (w : World) (tenderId username : String)
    (version : Int) (h : TenderHistory)
    (hh : w.db.historyByVersion tenderId version = some h)
    (hok : (tenderService.RollbackTenderVersion env tenderId version username w).1 = none) :
    ∃ t1, (tenderService.RollbackTenderVersion env tenderId version username w).2.db.tenderByID
        tenderId = some t1 ∧
      t1.Name = h.Name ∧ t1.Description = h.Description ∧ t1.ServiceType = h.ServiceType := by
  obtain ⟨t, h1, e, now, ht, hh1, _, _, hdb⟩ :=
    rollbackTenderVersion_final env w tenderId username version hok
  have hh2 : h1 = h := Option.some.inj (hh1.symm.trans hh)
  subst hh2
  rw [hdb]
  exact ⟨_, updateTender_lookup env tenderId _ w.db t (fun _ => rfl) ht, rfl, rfl, rfl⟩

/-- C5 at the sample data: the tender at version 3 is rolled back by its creator
to the version-1 row named "A", and is named "A" afterwards. -/
theorem C5_rollback_round_trip_witness :
    sample.road.Version = 3 ∧ sample.roadV1.Name = "A" ∧
    ∃ t1, (tenderService.RollbackTenderVersion sample.env sample.tenderId 1 "alice"
        sample.world).2.db.tenderByID sample.tenderId = some t1 ∧
      t1.Name = "A" ∧ t1.Description = "Old" ∧ t1.ServiceType = "Delivery" :=
  ⟨by rfl, by rfl,
    C5_rollback_round_trip sample.env sample.world sample.tenderId "alice" 1 sample.roadV1
      (by rfl) (by rfl)⟩

/-- C6 on the code: at the sample data the creator alice rolls the published
tender back to version 1, whose History row has status CREATED; the call
succeeds and the persisted status is still PUBLISHED, because `UpdateTender`
does not write the status column. -/
theorem C6_rollback_status_not_restored :
    sample.world.db.tenderByID sample.tenderId = some sample.road ∧
    sample.road.Status = "PUBLISHED" ∧
    sample.world.db.historyByVersion sample.tenderId 1 = some sample.roadV1 ∧
    sample.roadV1.Status = "CREATED" ∧
    (tenderService.RollbackTenderVersion sample.env sample.tenderId 1 "alice"
      sample.world).1 = none ∧
    ((tenderService.RollbackTenderVersion sample.env sample.tenderId 1 "alice"
      sample.world).2.db.tenderByID sample.tenderId).map (fun t => t.Status)
        = some "PUBLISHED" :=
  ⟨by rfl, by rfl, by rfl, by rfl, by rfl, by rfl⟩

/-- C7: with `t` the one row stored under the tender id (the id is the key of
the table), every successful UpdateTenderStatus, EditTender and
RollbackTenderVersion leaves the stored version at the version of `t` plus one and
adds exactly one History row, keyed by the tender id and the version of `t` and
holding the name, description, service type and status `t` had before. -/
theorem C7_version_history_invariant (env : Env) (w : World) (tenderId username : String)
    (status : TenderStatus) (name description serviceType : Option String) (version : Int)
    (t : Tender)
    (hkey : w.db.tender.filter (fun r => r.ID == tenderId) = [t]) :
    ((tenderService.UpdateTenderStatus env tenderId status username w).1 = none →
      versionBumped w.db
        (tenderService.UpdateTenderStatus env tenderId status username w).2.db t) ∧
    ((tenderService.EditTender env tenderId username name description serviceType w).1 = none →
      versionBumped w.db
        (tenderService.EditTender env tenderId username name description serviceType w).2.db
        t) ∧
    ((tenderService.RollbackTenderVersion env tenderId version username w).1 = none →
      versionBumped w.db
        (tenderService.RollbackTenderVersion env tenderId version username w).2.db t) := by
  have ht : w.db.tenderByID tenderId = some t := find_of_filter_singleton _ _ _ hkey
  have hid : t.ID = tenderId := tenderByID_id w.db tenderId t ht
  subst hid
  refine ⟨fun hok => ?_, fun hok => ?_, fun hok => ?_⟩
  · obtain ⟨_, _, now, _, _, _, hdb⟩ := updateTenderStatus_final env w t.ID username status hok
    rw [hdb]
    exact versionBumped_update env _ w.db t (fun _ => rfl) hkey
  · obtain ⟨_, _, now, _, _, _, hdb⟩ :=
      editTender_final env w t.ID username name description serviceType hok
    rw [hdb]
    exact versionBumped_update env _ w.db t (fun _ => rfl) hkey
  · obtain ⟨_, _, _, now, _, _, _, _, hdb⟩ :=
      rollbackTenderVersion_final env w t.ID username version hok
    rw [hdb]
    exact versionBumped_update env _ w.db t (fun _ => rfl) hkey

/-- C7 at the end-to-end scenario: alice creates a tender from the draft, stored at
version 1 with status CREATED, then sets it to PUBLISHED; afterwards the stored
version is 2, the status PUBLISHED, and the one History row is the version-1 row
with status CREATED. -/
theorem C7_version_history_invariant_witness :
    (tenderService.CreateTender sample.env sample.draft "alice" sample.fresh).1
      = .ok sample.created ∧
    sample.created.Version = 1 ∧ sample.created.Status = "CREATED" ∧
    (tenderService.UpdateTenderStatus sample.env sample.created.ID Published "alice"
      sample.afterCreate).1 = none ∧
    ((tenderService.UpdateTenderStatus sample.env sample.created.ID Published "alice"
      sample.afterCreate).2.db.tenderByID sample.created.ID).map (fun t => (t.Version, t.Status))
        = some (2, "PUBLISHED") ∧
    versionBumped sample.afterCreate.db
      (tenderService.UpdateTenderStatus sample.env sample.created.ID Published "alice"
        sample.afterCreate).2.db sample.created :=
  ⟨by rfl, by rfl, by rfl, by rfl, by rfl,
    (C7_version_history_invariant sample.env sample.afterCreate sample.created.ID "alice"
      Published none none none 1 sample.created (by rfl)).1 (by rfl)⟩

/-- C8: for a well-formed tender id under which the store holds no tender, with
the lookup not failed by the driver, each of GetTenderStatus, UpdateTenderStatus,
EditTender and RollbackTenderVersion returns exactly TenderNotFound, whatever the
other arguments, and writes nothing. -/
theorem C8_missing_tender_not_found (env : Env) (w : World) (tenderId username : String)
    (status : TenderStatus) (name description serviceType : Option String) (version : Int)
    (hid : env.uuidParse tenderId = true)
    (hnone : w.db.tenderByID tenderId = none)
    (hq : w.quiet 1) :
    ((tenderService.GetTenderStatus env tenderId username w).1 = .error ErrTenderNotFound ∧
      w.noWrite (tenderService.GetTenderStatus env tenderId username w).2) ∧
    ((tenderService.UpdateTenderStatus env tenderId status username w).1
        = some ErrTenderNotFound ∧
      w.noWrite (tenderService.UpdateTenderStatus env tenderId status username w).2) ∧
    ((tenderService.EditTender env tenderId username name description serviceType w).1
        = some ErrTenderNotFound ∧
      w.noWrite
        (tenderService.EditTender env tenderId username name description serviceType w).2) ∧
    ((tenderService.RollbackTenderVersion env tenderId version username w).1
        = some ErrTenderNotFound ∧
      w.noWrite (tenderService.RollbackTenderVersion env tenderId version username w).2) := by
  have h1 := quiet_fault w 0 hq
  have hro : w.noWrite (w.tick (.GetTenderByID tenderId)) :=
    noWrite_tick _ _ _ (noWrite_refl w) rfl
  have hget := getTenderByID_missing tenderId w h1 hnone
  refine ⟨?_, ?_, ?_, ?_⟩
  · simpa [tenderService.GetTenderStatus, hid, hget, errors.Is] using hro
  · simpa [tenderService.UpdateTenderStatus, hid, hget, errors.Is] using hro
  · simpa [tenderService.EditTender, hid, hget, errors.Is] using hro
  · simpa [tenderService.RollbackTenderVersion, hid, hget, errors.Is] using hro

/-- C8 at the sample data: the well-formed id of the sample bid names no tender. -/
theorem C8_missing_tender_not_found_witness :
    (tenderService.GetTenderStatus sample.env sample.bidId "alice" sample.world).1
      = .error ErrTenderNotFound ∧
    (tenderService.RollbackTenderVersion sample.env sample.bidId 1 "alice" sample.world).1
      = some ErrTenderNotFound :=
  have h := C8_missing_tender_not_found sample.env sample.world sample.bidId "alice" Closed
    none none none 1 (by rfl) (by rfl) (by decide)
  ⟨h.1.1, h.2.2.2.1⟩

/-- C9: for a stored tender and a version without History row, with the two
lookups not failed by the driver, RollbackTenderVersion returns
TenderHistoryNotFound for every caller, an authorized one included; that error
differs from TenderNotFound; nothing is written, so the tender is unchanged. -/
theorem C9_missing_history_not_found (env : Env) (w : World) (tenderId username : String)
    (version : Int) (t : Tender)
    (hid : env.uuidParse tenderId = true)
    (ht : w.db.tenderByID tenderId = some t)
    (hh : w.db.historyByVersion tenderId version = none)
    (hq : w.quiet 2) :
    (tenderService.RollbackTenderVersion env tenderId version username w).1
      = some ErrTenderHistoryNotFound ∧
    ErrTenderHistoryNotFound ≠ ErrTenderNotFound ∧
    w.noWrite (tenderService.RollbackTenderVersion env tenderId version username w).2 ∧
    (tenderService.RollbackTenderVersion env tenderId version username w).2.db.tenderByID
      tenderId = some t := by
  rw [rollbackTenderVersion_noHistory env w tenderId username version t hid ht hh hq]
  have hro : w.noWrite ((w.tick (.GetTenderByID tenderId)).tick
      (.GetTenderHistoryByVersion tenderId version)) :=
    noWrite_tick _ _ _ (noWrite_tick _ _ _ (noWrite_refl w) rfl) rfl
  exact ⟨rfl, by decide, hro, by simpa [tick_db] using ht⟩

/-- C9 at the sample data: the creator alice asks for version 7 of the sample
tender, which has no History row. -/
theorem C9_missing_history_not_found_witness :
    (sample.road.CreatorID = sample.aliceId) ∧
    (tenderService.RollbackTenderVersion sample.env sample.tenderId 7 "alice"
      sample.world).1 = some ErrTenderHistoryNotFound :=
  ⟨by rfl, (C9_missing_history_not_found sample.env sample.world sample.tenderId "alice" 7
    sample.road (by rfl) (by rfl) (by rfl) (by decide)).1⟩

/-- C10: for an identifier `id` that `uuid.Parse` rejects, GetTenderStatus,
UpdateTenderStatus, EditTender, RollbackTenderVersion (as tender id), GetBidStatus,
UpdateBidStatus and EditBid (as bid id) return BadRequest and leave the world as
it was: no round trip to any repository is made. So does CreateBid when any one
of its tender, organization and user id is rejected. -/
theorem C10_malformed_id_bad_request (env : Env) (w : World) (id username : String)
    (status : String) (name description serviceType : Option String) (version : Int)
    (updates : List (String × Value))
    (bidDescription tenderID organizationID userID : String) (authorType : BidAuthorType)
    (hbad : env.uuidParse id = false)
    (hany : env.uuidParse tenderID = false ∨ env.uuidParse organizationID = false ∨
      env.uuidParse userID = false) :
    tenderService.GetTenderStatus env id username w = (.error ErrBadRequest, w) ∧
    tenderService.UpdateTenderStatus env id status username w = (some ErrBadRequest, w) ∧
    tenderService.EditTender env id username name description serviceType w
      = (some ErrBadRequest, w) ∧
    tenderService.RollbackTenderVersion env id version username w = (some ErrBadRequest, w) ∧
    bidService.GetBidStatus env id username w = (.error ErrBadRequest, w) ∧
    bidService.UpdateBidStatus env id status username w = (some ErrBadRequest, w) ∧
    bidService.EditBid env id username updates w = (some ErrBadRequest, w) ∧
    bidService.CreateBid env bidDescription tenderID organizationID userID authorType w
      = (.error ErrBadRequest, w) := by
  refine ⟨?_, ?_, ?_, ?_, ?_, ?_, ?_, ?_⟩
  · simp [tenderService.GetTenderStatus, hbad]
  · simp [tenderService.UpdateTenderStatus, hbad]
  · simp [tenderService.EditTender, hbad]
  · simp [tenderService.RollbackTenderVersion, hbad]
  · simp [bidService.GetBidStatus, hbad]
  · simp [bidService.UpdateBidStatus, hbad]
  · simp [bidService.EditBid, hbad]
  · unfold bidService.CreateBid
    rcases hany with h | h | h
    · simp [h]
    · by_cases h1 : env.uuidParse tenderID = false <;> simp [h, h1]
    · by_cases h1 : env.uuidParse tenderID = false <;>
        by_cases h2 : env.uuidParse organizationID = false <;> simp [h, h1, h2]

/-- C10 at the sample data: "42" is not a well-formed identifier; no round trip is
recorded. -/
theorem C10_malformed_id_bad_request_witness :
    tenderService.GetTenderStatus sample.env "42" "alice" sample.world
      = (.error ErrBadRequest, sample.world) ∧
    bidService.CreateBid sample.env "desc" sample.tenderId sample.orgId "42" "User"
      sample.world = (.error ErrBadRequest, sample.world) ∧
    sample.world.calls = [] :=
  have h := C10_malformed_id_bad_request sample.env sample.world "42" "alice" "CLOSED"
    none none none 1 [] "desc" sample.tenderId sample.orgId "42" "User" (by rfl)
    (Or.inr (Or.inr (by rfl)))
  ⟨h.1, h.2.2.2.2.2.2.2, by rfl⟩

/-! ## The world after a repository read, whatever its outcome -/

theorem getTenderByID_world (tenderId : String) (w : World) :
    (tenderRepository.GetTenderByID tenderId w).2 = w.tick (.GetTenderByID tenderId) := by
  unfold tenderRepository.GetTenderByID
  cases w.fault <;> cases w.db.tenderByID tenderId <;> simp

theorem getTenderHistoryByVersion_world (tenderId : String) (version : Int) (w : World) :
    (tenderRepository.GetTenderHistoryByVersion tenderId version w).2
      = w.tick (.GetTenderHistoryByVersion tenderId version) := by
  unfold tenderRepository.GetTenderHistoryByVersion
  cases w.fault <;> cases w.db.historyByVersion tenderId version <;> simp

theorem isUserResponsibleForOrganization_world (userId organizationId : String) (w : World) :
    (tenderRepository.IsUserResponsibleForOrganization userId organizationId w).2
      = w.tick (.IsUserResponsibleForOrganization userId organizationId) := by
  unfold tenderRepository.IsUserResponsibleForOrganization
  cases w.fault <;> simp

theorem getUserIDByUsername_world (username : String) (w : World) :
    (userService.GetUserIDByUsername username w).2 = w.tick (.FindUserIDByUsername username) := by
  unfold userService.GetUserIDByUsername userRepository.FindUserIDByUsername
  cases w.fault <;> cases w.db.userByUsername username <;> simp

theorem getUserByUsername_world (username : String) (w : World) :
    (userRepository.GetUserByUsername username w).2 = w.tick (.GetUserByUsername username) := by
  unfold userRepository.GetUserByUsername
  cases w.fault <;> cases w.db.userByUsername username <;> simp [errors.Is]

theorem getUserByID_world (userID : String) (w : World) :
    (userRepository.GetUserByID userID w).2 = w.tick (.GetUserByID userID) := by
  unfold userRepository.GetUserByID
  cases w.fault <;> cases w.db.userByID userID <;> simp

theorem checkUserPermission_world (userID organizationID : String) (w : World) :
    (userRepository.CheckUserPermission userID organizationID w).2
      = w.tick (.CheckUserPermission userID organizationID) := by
  unfold userRepository.CheckUserPermission
  cases w.fault <;> simp

theorem getBidByID_world (bidID : String) (w : World) :
    (bidRepository.GetBidByID bidID w).2 = w.tick (.GetBidByID bidID) := by
  unfold bidRepository.GetBidByID
  cases w.fault <;> cases w.db.bidByID bidID <;> simp

theorem getBidsByTenderID_world (tenderID : String) (limit offset : Int) (w : World) :
    (bidRepository.GetBidsByTenderID tenderID limit offset w).2
      = w.tick (.GetBidsByTenderID tenderID limit offset) := by
  unfold bidRepository.GetBidsByTenderID
  cases w.fault with
  | some msg => simp
  | none => simp only; split_ifs <;> rfl

/-! ## The outcomes of each repository method -/

theorem getTenderByID_cases (tenderId : String) (w : World) :
    (∃ msg, w.fault = some msg ∧
      (tenderRepository.GetTenderByID tenderId w).1 = .error (driver msg)) ∨
    (w.fault = none ∧ w.db.tenderByID tenderId = none ∧
      (tenderRepository.GetTenderByID tenderId w).1 = .error ErrTenderNotFound) ∨
    (∃ r, w.fault = none ∧ w.db.tenderByID tenderId = some r ∧
      (tenderRepository.GetTenderByID tenderId w).1 =
        .ok { ID := r.ID, Name := r.Name, Status := r.Status,
              OrganizationID := r.OrganizationID, CreatorID := r.CreatorID }) := by
  cases hf : w.fault with
  | some msg => left; exact ⟨msg, rfl, by rw [getTenderByID_fault _ _ _ hf]⟩
  | none =>
    cases hr : w.db.tenderByID tenderId with
    | none => right; left; exact ⟨rfl, rfl, by rw [getTenderByID_missing _ _ hf hr]⟩
    | some r => right; right; exact ⟨r, rfl, rfl, by rw [getTenderByID_found _ _ r hf hr]⟩

theorem getTenderHistoryByVersion_cases (tenderId : String) (version : Int) (w : World) :
    (∃ msg, w.fault = some msg ∧
      (tenderRepository.GetTenderHistoryByVersion tenderId version w).1
        = .error (driver msg)) ∨
    (w.fault = none ∧ w.db.historyByVersion tenderId version = none ∧
      (tenderRepository.GetTenderHistoryByVersion tenderId version w).1
        = .error ErrTenderHistoryNotFound) ∨
    (∃ h, w.fault = none ∧ w.db.historyByVersion tenderId version = some h ∧
      (tenderRepository.GetTenderHistoryByVersion tenderId version w).1 = .ok h) := by
  cases hf : w.fault with
  | some msg => left; exact ⟨msg, rfl, by rw [getTenderHistoryByVersion_fault _ _ _ _ hf]⟩
  | none =>
    cases hr : w.db.historyByVersion tenderId version with
    | none =>
      right; left; exact ⟨rfl, rfl, by rw [getTenderHistoryByVersion_missing _ _ _ hf hr]⟩
    | some h =>
      right; right; exact ⟨h, rfl, rfl, by rw [getTenderHistoryByVersion_found _ _ _ h hf hr]⟩

theorem getUserIDByUsername_cases (username : String) (w : World) :
    (∃ msg, w.fault = some msg ∧
      (userService.GetUserIDByUsername username w).1 = .error (driver msg)) ∨
    (w.fault = none ∧ w.db.userByUsername username = none ∧
      (userService.GetUserIDByUsername username w).1 = .error ErrUserNotFound) ∨
    (∃ e, w.fault = none ∧ w.db.userByUsername username = some e ∧
      (userService.GetUserIDByUsername username w).1 = .ok e.ID) := by
  cases hf : w.fault with
  | some msg => left; exact ⟨msg, rfl, by rw [getUserIDByUsername_fault _ _ _ hf]⟩
  | none =>
    cases hr : w.db.userByUsername username with
    | none => right; left; exact ⟨rfl, rfl, by rw [getUserIDByUsername_missing _ _ hf hr]⟩
    | some e => right; right; exact ⟨e, rfl, rfl, by rw [getUserIDByUsername_found _ _ e hf hr]⟩

theorem isUserResponsibleForOrganization_cases (userId organizationId : String) (w : World) :
    (∃ msg, w.fault = some msg ∧
      (tenderRepository.IsUserResponsibleForOrganization userId organizationId w).1
        = .error (driver msg)) ∨
    (w.fault = none ∧
      (tenderRepository.IsUserResponsibleForOrganization userId organizationId w).1
        = .ok (w.db.isResponsible userId organizationId)) := by
  cases hf : w.fault with
  | some msg => left; exact ⟨msg, rfl, by rw [isUserResponsibleForOrganization_fault _ _ _ _ hf]⟩
  | none => right; exact ⟨rfl, by rw [isUserResponsibleForOrganization_ok _ _ _ hf]⟩

theorem getUserByUsername_cases (username : String) (w : World) :
    (∃ msg, w.fault = some msg ∧
      (userRepository.GetUserByUsername username w).1 = .error (driver msg)) ∨
    (w.fault = none ∧ w.db.userByUsername username = none ∧
      (userRepository.GetUserByUsername username w).1 = .error ErrUserNotFound) ∨
    (∃ e, w.fault = none ∧ w.db.userByUsername username = some e ∧
      (userRepository.GetUserByUsername username w).1 =
        .ok { ID := e.ID, Username := e.Username, FirstName := e.FirstName,
              LastName := e.LastName }) := by
  cases hf : w.fault with
  | some msg => left; exact ⟨msg, rfl, by simp [userRepository.GetUserByUsername, hf, errors.Is]⟩
  | none =>
    cases hr : w.db.userByUsername username with
    | none =>
      right; left
      exact ⟨rfl, rfl, by simp [userRepository.GetUserByUsername, hf, hr, errors.Is]⟩
    | some e => right; right; exact ⟨e, rfl, rfl, by rw [getUserByUsername_found _ _ e hf hr]⟩

theorem getUserByID_cases (userID : String) (w : World) :
    (∃ msg, w.fault = some msg ∧
      (userRepository.GetUserByID userID w).1 = .error (driver msg)) ∨
    (w.fault = none ∧ w.db.userByID userID = none ∧
      (userRepository.GetUserByID userID w).1 = .error ErrUserNotFound) ∨
    (∃ e, w.fault = none ∧ w.db.userByID userID = some e ∧
      (userRepository.GetUserByID userID w).1 = .ok e) := by
  cases hf : w.fault with
  | some msg => left; exact ⟨msg, rfl, by simp [userRepository.GetUserByID, hf]⟩
  | none =>
    cases hr : w.db.userByID userID with
    | none => right; left; exact ⟨rfl, rfl, by simp [userRepository.GetUserByID, hf, hr]⟩
    | some e => right; right; exact ⟨e, rfl, rfl, by simp [userRepository.GetUserByID, hf, hr]⟩

/-- The test `count > 0` of `CheckUserPermission` is the membership fact. -/
theorem count_pos_isResponsible (db : DB) (userID organizationID : String) :
    decide (((db.responsibleRows userID organizationID).length : Int) > 0)
      = db.isResponsible userID organizationID := by
  unfold DB.isResponsible
  cases db.responsibleRows userID organizationID with
  | nil => rfl
  | cons x xs =>
    have h : ((List.length (x :: xs) : Nat) : Int) > 0 := by
      exact Int.ofNat_lt.mpr (Nat.succ_pos _)
    simp [h]

theorem checkUserPermission_cases (userID organizationID : String) (w : World) :
    (∃ msg, w.fault = some msg ∧
      (userRepository.CheckUserPermission userID organizationID w).1 = .error (driver msg)) ∨
    (w.fault = none ∧
      (userRepository.CheckUserPermission userID organizationID w).1
        = .ok (w.db.isResponsible userID organizationID)) := by
  cases hf : w.fault with
  | some msg => left; exact ⟨msg, rfl, by simp [userRepository.CheckUserPermission, hf]⟩
  | none =>
    right
    refine ⟨rfl, ?_⟩
    simp only [userRepository.CheckUserPermission, hf]
    rw [count_pos_isResponsible]

theorem getBidByID_cases (bidID : String) (w : World) :
    (∃ msg, w.fault = some msg ∧
      (bidRepository.GetBidByID bidID w).1 = .error (driver msg)) ∨
    (w.fault = none ∧ w.db.bidByID bidID = none ∧
      (bidRepository.GetBidByID bidID w).1 = .error ErrBidNotFound) ∨
    (∃ r, w.fault = none ∧ w.db.bidByID bidID = some r ∧
      (bidRepository.GetBidByID bidID w).1 =
        .ok { ID := r.ID, TenderID := r.TenderID, OrganizationID := r.OrganizationID,
              UserID := r.UserID, Description := r.Description, Status := r.Status,
              AuthorType := r.AuthorType }) := by
  cases hf : w.fault with
  | some msg => left; exact ⟨msg, rfl, by simp [bidRepository.GetBidByID, hf]⟩
  | none =>
    cases hr : w.db.bidByID bidID with
    | none => right; left; exact ⟨rfl, rfl, by simp [bidRepository.GetBidByID, hf, hr]⟩
    | some r => right; right; exact ⟨r, rfl, rfl, by rw [getBidByID_found _ _ r hf hr]⟩

/-- A pair is its two components. -/
theorem pair_eta {α : Type} (p : α × World) : p = (p.1, p.2) := rfl

theorem pair_of {α : Type} (p : α × World) (a : α) (w : World) (h1 : p.1 = a) (h2 : p.2 = w) :
    p = (a, w) := by
  obtain ⟨x, y⟩ := p
  simp only at h1 h2
  rw [h1, h2]

/-! ## Every outcome of SubmitBidFeedback -/

theorem submitBidFeedback_shape (w : World) (bidID username feedback : String) :
    (∃ err, bidService.SubmitBidFeedback bidID username feedback w
        = (.error err, w.tick (.GetBidByID bidID)) ∧
      (err = ErrBidNotFound ∨ ∃ msg, err = driver msg)) ∨
    (∃ err, bidService.SubmitBidFeedback bidID username feedback w
        = (.error err, (w.tick (.GetBidByID bidID)).tick (.GetUserByUsername username)) ∧
      (err = ErrUserNotFound ∨ err = ErrForbidden)) ∨
    (∃ b e, w.quiet 2 ∧ w.db.bidByID bidID = some b ∧
      w.db.userByUsername username = some e ∧ b.UserID = e.ID ∧
      bidService.SubmitBidFeedback bidID username feedback w =
        (match (bidRepository.AddBidFeedback bidID feedback
            ((w.tick (.GetBidByID bidID)).tick (.GetUserByUsername username))).1 with
          | some err => .error err
          | none => .ok { ID := b.ID, TenderID := b.TenderID, OrganizationID := b.OrganizationID,
                          UserID := b.UserID, Description := b.Description, Status := b.Status,
                          AuthorType := b.AuthorType },
         (bidRepository.AddBidFeedback bidID feedback
            ((w.tick (.GetBidByID bidID)).tick (.GetUserByUsername username))).2)) := by
  rcases getBidByID_cases bidID w with ⟨msg, _, h1⟩ | ⟨_, _, h1⟩ | ⟨b, hf1, hb, h1⟩
  · left
    have hp := pair_of _ _ _ h1 (getBidByID_world bidID w)
    exact ⟨_, by simp only [bidService.SubmitBidFeedback, hp], Or.inr ⟨msg, rfl⟩⟩
  · left
    have hp := pair_of _ _ _ h1 (getBidByID_world bidID w)
    exact ⟨_, by simp only [bidService.SubmitBidFeedback, hp], Or.inl rfl⟩
  · right
    have hp := pair_of _ _ _ h1 (getBidByID_world bidID w)
    rcases getUserByUsername_cases username (w.tick (.GetBidByID bidID))
      with ⟨msg, _, h2⟩ | ⟨_, _, h2⟩ | ⟨e, hf2, hu, h2⟩
    · left
      have hq := pair_of _ _ _ h2 (getUserByUsername_world username _)
      exact ⟨_, by simp only [bidService.SubmitBidFeedback, hp, hq], Or.inl rfl⟩
    · left
      have hq := pair_of _ _ _ h2 (getUserByUsername_world username _)
      exact ⟨_, by simp only [bidService.SubmitBidFeedback, hp, hq], Or.inl rfl⟩
    · have hq2 : w.quiet 2 :=
        quiet_step _ _ _ hf1 (quiet_step _ (.GetUserByUsername username) _ hf2 (quiet_zero _))
      rw [tick_db] at hu
      have hg := submitBidFeedback_gate w bidID username feedback b e hb hu hq2
      by_cases hc : (b.UserID != e.ID) = true
      · left
        rw [if_pos hc] at hg
        exact ⟨_, hg, Or.inr rfl⟩
      · right
        rw [if_neg hc] at hg
        exact ⟨b, e, hq2, hb, hu, by simpa using hc, hg⟩

theorem addBidFeedback_cases (bidID feedback : String) (w : World) :
    (∃ msg, w.fault = some msg ∧
      bidRepository.AddBidFeedback bidID feedback w
        = (some (driver msg), w.tick (.AddBidFeedback bidID feedback))) ∨
    (w.fault = none ∧
      bidRepository.AddBidFeedback bidID feedback w =
        (none, { w.tick (.AddBidFeedback bidID feedback) with
          db := { w.db with bid_review := w.db.bid_review ++
            [{ bid_id := bidID, description := feedback, created_at := w.now }] } })) := by
  cases hf : w.fault with
  | some msg => left; exact ⟨msg, rfl, by simp [bidRepository.AddBidFeedback, hf]⟩
  | none => right; exact ⟨rfl, by simp [bidRepository.AddBidFeedback, hf]⟩

/-- C11, as the code has it: for a bid id that `uuid.Parse` rejects, and every
username and feedback text, the SubmitBidFeedback handler answers 400 and leaves
the world as it was, so the Bid Lifecycle operation is not called and no Bid Store
or User Directory access occurs; the operation itself makes no format check:
called directly it begins with the Bid Store lookup of the id as given and never
returns BadRequest. -/
theorem C11_submit_feedback_format_check_in_handler (env : Env) (w : World)
    (bidID username feedback : String)
    (hbad : env.uuidParse bidID = false) :
    ((BidHandler.SubmitBidFeedback env bidID username feedback w).1.statusCode
        = http.StatusBadRequest ∧
      (BidHandler.SubmitBidFeedback env bidID username feedback w).2 = w) ∧
    (bidService.SubmitBidFeedback bidID username feedback w).1 ≠ .error ErrBadRequest ∧
    ∃ cs, (bidService.SubmitBidFeedback bidID username feedback w).2.calls
      = w.calls ++ Call.GetBidByID bidID :: cs := by
  refine ⟨?_, ?_⟩
  · unfold BidHandler.SubmitBidFeedback
    by_cases h1 : (username == "") = true
    · simp [h1, utils.WriteErrorResponse]
    · by_cases h2 : (feedback == "") = true
      · simp [h1, h2, utils.WriteErrorResponse]
      · simp [h1, h2, hbad, utils.WriteErrorResponse]
  · rcases submitBidFeedback_shape w bidID username feedback with
      ⟨err, hS, herr⟩ | ⟨err, hS, herr⟩ | ⟨b, e, _, _, _, _, hS⟩
    · rw [hS]
      refine ⟨?_, [], by simp [tick_calls]⟩
      rcases herr with h | ⟨msg, h⟩ <;> simp [h]
    · rw [hS]
      refine ⟨?_, [Call.GetUserByUsername username], by simp [tick_calls]⟩
      rcases herr with h | h <;> simp [h]
    · rw [hS]
      rcases addBidFeedback_cases bidID feedback
        ((w.tick (.GetBidByID bidID)).tick (.GetUserByUsername username))
        with ⟨msg, _, hA⟩ | ⟨_, hA⟩
      · rw [hA]
        exact ⟨by simp, [Call.GetUserByUsername username, Call.AddBidFeedback bidID feedback],
          by simp [tick_calls]⟩
      · rw [hA]
        exact ⟨by simp, [Call.GetUserByUsername username, Call.AddBidFeedback bidID feedback],
          by simp [tick_calls]⟩

/-- C11 at the sample data: the text "42" is not a well-formed identifier; the
handler answers 400 with the reason "Invalid bid ID format" and records no round
trip. -/
theorem C11_submit_feedback_format_check_in_handler_witness :
    (BidHandler.SubmitBidFeedback sample.env "42" "carol" "fine" sample.world).1
      = { statusCode := 400, body := .reason "Invalid bid ID format" } ∧
    (BidHandler.SubmitBidFeedback sample.env "42" "carol" "fine" sample.world).1.statusCode
      = http.StatusBadRequest ∧
    (BidHandler.SubmitBidFeedback sample.env "42" "carol" "fine" sample.world).2
      = sample.world :=
  have h := C11_submit_feedback_format_check_in_handler sample.env sample.world "42" "carol"
    "fine" (by rfl)
  ⟨by rfl, h.1.1, h.1.2⟩

/-- C11 as stated fails: "42" is not a well-formed identifier, yet the Bid Lifecycle
operation SubmitBidFeedback makes the Bid Store lookup and answers BidNotFound, not
BadRequest. -/
theorem C11_counterexample :
    sample.env.uuidParse "42" = false ∧
    (bidService.SubmitBidFeedback "42" "carol" "fine" sample.world).1
      = .error ErrBidNotFound ∧
    (bidService.SubmitBidFeedback "42" "carol" "fine" sample.world).1
      ≠ .error ErrBadRequest ∧
    (bidService.SubmitBidFeedback "42" "carol" "fine" sample.world).2.calls
      = [Call.GetBidByID "42"] := by
  refine ⟨by rfl, by rfl, ?_, by rfl⟩
  have h : (bidService.SubmitBidFeedback "42" "carol" "fine" sample.world).1
      = .error ErrBidNotFound := by rfl
  rw [h]
  simp

/-! ## GetBidsByTenderID stage by stage -/

theorem getBidsByTenderID_unresolved (env : Env) (w : World) (tenderID username : String)
    (limit offset : Int)
    (h : ¬ (w.fault = none ∧ (w.db.userByUsername username).isSome = true)) :
    bidService.GetBidsByTenderID env tenderID username limit offset w
      = (.error ErrUserNotFound, w.tick (.GetUserByUsername username)) := by
  rcases getUserByUsername_cases username w with ⟨msg, _, h1⟩ | ⟨_, _, h1⟩ | ⟨e, hf, hu, _⟩
  · have hp := pair_of _ _ _ h1 (getUserByUsername_world username w)
    simp only [bidService.GetBidsByTenderID, hp]
  · have hp := pair_of _ _ _ h1 (getUserByUsername_world username w)
    simp only [bidService.GetBidsByTenderID, hp]
  · exact absurd ⟨hf, by simp [hu]⟩ h

theorem getBidsByTenderID_malformed (env : Env) (w : World) (tenderID username : String)
    (limit offset : Int) (hbad : env.uuidParse tenderID = false)
    (h : w.fault = none ∧ (w.db.userByUsername username).isSome = true) :
    bidService.GetBidsByTenderID env tenderID username limit offset w
      = (.error ErrBadRequest, w.tick (.GetUserByUsername username)) := by
  obtain ⟨hf, hs⟩ := h
  obtain ⟨e, hu⟩ := Option.isSome_iff_exists.1 hs
  simp only [bidService.GetBidsByTenderID, getUserByUsername_found username w e hf hu, hbad,
    if_true]

/-- C12, as the code has it: for a tender id that `uuid.Parse` rejects, and every
username, limit and offset, the GetBidsByTenderID handler answers 400 and leaves
the world as it was, so the Bid Lifecycle operation is not called and no User
Directory, Tender Store or Bid Store access occurs; the operation itself resolves
the username first: called directly it makes that one User Directory read and no
other round trip, and returns BadRequest when the username resolves and
UserNotFound when it does not. -/
theorem C12_get_bids_format_check_after_user (env : Env) (w : World)
    (tenderID username limitParam offsetParam : String) (limit offset : Int)
    (hbad : env.uuidParse tenderID = false) :
    BidHandler.GetBidsByTenderID env tenderID username limitParam offsetParam w
      = (utils.WriteErrorResponse http.StatusBadRequest "Invalid tender ID format", w) ∧
    (bidService.GetBidsByTenderID env tenderID username limit offset w).2
      = w.tick (.GetUserByUsername username) ∧
    ((w.fault = none ∧ (w.db.userByUsername username).isSome = true) →
      (bidService.GetBidsByTenderID env tenderID username limit offset w).1
        = .error ErrBadRequest) ∧
    (¬ (w.fault = none ∧ (w.db.userByUsername username).isSome = true) →
      (bidService.GetBidsByTenderID env tenderID username limit offset w).1
        = .error ErrUserNotFound) := by
  refine ⟨by simp [BidHandler.GetBidsByTenderID, hbad], ?_, ?_, ?_⟩
  · by_cases h : w.fault = none ∧ (w.db.userByUsername username).isSome = true
    · rw [getBidsByTenderID_malformed env w tenderID username limit offset hbad h]
    · rw [getBidsByTenderID_unresolved env w tenderID username limit offset h]
  · intro h
    rw [getBidsByTenderID_malformed env w tenderID username limit offset hbad h]
  · intro h
    rw [getBidsByTenderID_unresolved env w tenderID username limit offset h]

/-- C12 at the sample data: for the text "42" the handler answers 400 with no
round trip recorded, and the operation called directly for bob answers BadRequest. -/
theorem C12_get_bids_format_check_after_user_witness :
    (BidHandler.GetBidsByTenderID sample.env "42" "bob" "5" "0" sample.world).1.statusCode
      = 400 ∧
    (BidHandler.GetBidsByTenderID sample.env "42" "bob" "5" "0" sample.world).2
      = sample.world ∧
    (bidService.GetBidsByTenderID sample.env "42" "bob" 5 0 sample.world).1
      = .error ErrBadRequest :=
  have h := C12_get_bids_format_check_after_user sample.env sample.world "42" "bob" "5" "0"
    5 0 (by rfl)
  ⟨congrArg (fun p => p.1.statusCode) h.1, congrArg Prod.snd h.1, h.2.2.1 ⟨by rfl, by rfl⟩⟩

/-- C12 as stated fails: "42" is not a well-formed identifier; the Bid Lifecycle
operation GetBidsByTenderID called for bob reads the User Directory before it
answers BadRequest, and called for an unknown username answers UserNotFound. -/
theorem C12_counterexample :
    sample.env.uuidParse "42" = false ∧
    (bidService.GetBidsByTenderID sample.env "42" "bob" 5 0 sample.world).2.calls
      = [Call.GetUserByUsername "bob"] ∧
    sample.world.db.userByUsername "nobody" = none ∧
    (bidService.GetBidsByTenderID sample.env "42" "nobody" 5 0 sample.world).1
      = .error ErrUserNotFound ∧
    (bidService.GetBidsByTenderID sample.env "42" "nobody" 5 0 sample.world).1
      ≠ .error ErrBadRequest := by
  refine ⟨by rfl, by rfl, by rfl, by rfl, ?_⟩
  have h : (bidService.GetBidsByTenderID sample.env "42" "nobody" 5 0 sample.world).1
      = .error ErrUserNotFound := by rfl
  rw [h]
  simp

/-! ## CreateTender -/

theorem repoCreateTender_cases (env : Env) (t : Tender) (w : World) :
    (∃ msg, w.fault = some msg ∧
      tenderRepository.CreateTender env t w = (.error (driver msg), w.tick (.CreateTender t))) ∨
    (w.fault = none ∧
      tenderRepository.CreateTender env t w =
        (.ok (schema.insertTender env w.now t w.db).1,
         { w.tick (.CreateTender t) with db := (schema.insertTender env w.now t w.db).2 })) := by
  cases hf : w.fault with
  | some msg => left; exact ⟨msg, rfl, by simp [tenderRepository.CreateTender, hf]⟩
  | none => right; exact ⟨rfl, by simp [tenderRepository.CreateTender, hf]⟩

theorem repoCreateTender_calls (env : Env) (t : Tender) (w : World) :
    (tenderRepository.CreateTender env t w).2.calls = w.calls ++ [Call.CreateTender t] := by
  rcases repoCreateTender_cases env t w with ⟨msg, _, h⟩ | ⟨_, h⟩ <;> rw [h] <;> rfl

theorem except_tender_eta (p : Except Err Tender × World) :
    (match p with
      | (.error err, w) => (Except.error err, w)
      | (.ok t, w) => (.ok t, w)) = p := by
  obtain ⟨a, w⟩ := p
  cases a <;> rfl

theorem createTender_resolved (env : Env) (w : World) (tender : Tender)
    (creatorUsername : String) (e : User)
    (hf : w.fault = none) (hu : w.db.userByUsername creatorUsername = some e) :
    tenderService.CreateTender env tender creatorUsername w =
      tenderRepository.CreateTender env { tender with CreatorID := e.ID }
        (w.tick (.FindUserIDByUsername creatorUsername)) := by
  simp only [tenderService.CreateTender, getUserIDByUsername_found creatorUsername w e hf hu,
    except_tender_eta]

theorem createTender_unresolved (env : Env) (w : World) (tender : Tender)
    (creatorUsername : String)
    (hf : w.fault = none) (hu : w.db.userByUsername creatorUsername = none) :
    tenderService.CreateTender env tender creatorUsername w =
      (.error ErrUnauthorized, w.tick (.FindUserIDByUsername creatorUsername)) := by
  simp [tenderService.CreateTender, getUserIDByUsername_missing creatorUsername w hf hu,
    errors.Is]

theorem createTender_fault (env : Env) (w : World) (tender : Tender)
    (creatorUsername : String) (msg : String) (hf : w.fault = some msg) :
    tenderService.CreateTender env tender creatorUsername w =
      (.error (driver msg), w.tick (.FindUserIDByUsername creatorUsername)) := by
  simp [tenderService.CreateTender, getUserIDByUsername_fault creatorUsername w msg hf,
    errors.Is]

/-- C13: CreateTender never returns Forbidden. When the username lookup runs and
finds no user, the result is Unauthorized and nothing is written. When it finds
the user `e`, exactly one more round trip follows, the Tender Store's create, on
the draft with its creator id replaced by the id of `e` and every other field as
given, and the operation returns what that create returns; no membership lookup
is made. -/
theorem C13_create_tender (env : Env) (w : World) (tender : Tender)
    (creatorUsername : String) :
    (tenderService.CreateTender env tender creatorUsername w).1 ≠ .error ErrForbidden ∧
    (w.fault = none → w.db.userByUsername creatorUsername = none →
      (tenderService.CreateTender env tender creatorUsername w).1 = .error ErrUnauthorized ∧
      w.noWrite (tenderService.CreateTender env tender creatorUsername w).2) ∧
    (∀ e, w.fault = none → w.db.userByUsername creatorUsername = some e →
      tenderService.CreateTender env tender creatorUsername w =
        tenderRepository.CreateTender env
          { ID := tender.ID, Name := tender.Name, Description := tender.Description,
            ServiceType := tender.ServiceType, Status := tender.Status,
            OrganizationID := tender.OrganizationID, CreatorID := e.ID,
            Version := tender.Version, CreatedAt := tender.CreatedAt,
            UpdatedAt := tender.UpdatedAt }
          (w.tick (.FindUserIDByUsername creatorUsername)) ∧
      (tenderService.CreateTender env tender creatorUsername w).2.calls =
        w.calls ++ [Call.FindUserIDByUsername creatorUsername,
          Call.CreateTender
            { ID := tender.ID, Name := tender.Name, Description := tender.Description,
              ServiceType := tender.ServiceType, Status := tender.Status,
              OrganizationID := tender.OrganizationID, CreatorID := e.ID,
              Version := tender.Version, CreatedAt := tender.CreatedAt,
              UpdatedAt := tender.UpdatedAt }]) := by
  refine ⟨?_, ?_, ?_⟩
  · cases hf : w.fault with
    | some msg => rw [createTender_fault env w tender creatorUsername msg hf]; simp
    | none =>
      cases hu : w.db.userByUsername creatorUsername with
      | none => rw [createTender_unresolved env w tender creatorUsername hf hu]; simp
      | some e =>
        rw [createTender_resolved env w tender creatorUsername e hf hu]
        rcases repoCreateTender_cases env { tender with CreatorID := e.ID }
          (w.tick (.FindUserIDByUsername creatorUsername)) with ⟨msg, _, h⟩ | ⟨_, h⟩ <;>
          rw [h] <;> simp
  · intro hf hu
    rw [createTender_unresolved env w tender creatorUsername hf hu]
    exact ⟨rfl, noWrite_tick _ _ _ (noWrite_refl w) rfl⟩
  · intro e hf hu
    rw [createTender_resolved env w tender creatorUsername e hf hu]
    refine ⟨rfl, ?_⟩
    rw [repoCreateTender_calls, tick_calls, List.append_assoc]
    rfl

/-- C13 at the sample data: a draft that names carol as creator is created by
alice; the store is handed the draft with alice as creator and returns the
created tender; an unknown username gets Unauthorized. -/
theorem C13_create_tender_witness :
    (tenderService.CreateTender sample.env { sample.draft with CreatorID := sample.carolId }
      "alice" sample.fresh).1 = .ok sample.created ∧
    (tenderService.CreateTender sample.env { sample.draft with CreatorID := sample.carolId }
      "alice" sample.fresh).2.calls =
      [Call.FindUserIDByUsername "alice",
       Call.CreateTender { sample.draft with CreatorID := sample.aliceId }] ∧
    (tenderService.CreateTender sample.env sample.draft "nobody" sample.fresh).1
      = .error ErrUnauthorized :=
  have h := C13_create_tender sample.env sample.fresh
    { sample.draft with CreatorID := sample.carolId } "alice"
  have h2 := C13_create_tender sample.env sample.fresh sample.draft "nobody"
  ⟨by rfl, (h.2.2 { ID := sample.aliceId, Username := "alice" } (by rfl) (by rfl)).2,
    (h2.2.1 (by rfl) (by rfl)).1⟩

/-! ## CreateBid -/

theorem repoCreateBid_cases (env : Env) (b : Bid) (w : World) :
    (∃ msg, w.fault = some msg ∧
      bidRepository.CreateBid env b w = (.error (driver msg), w.tick (.CreateBid b))) ∨
    (w.fault = none ∧
      bidRepository.CreateBid env b w =
        (.ok (schema.insertBid env w.now b w.db).1,
         { w.tick (.CreateBid b) with db := (schema.insertBid env w.now b w.db).2 })) := by
  cases hf : w.fault with
  | some msg => left; exact ⟨msg, rfl, by simp [bidRepository.CreateBid, hf]⟩
  | none => right; exact ⟨rfl, by simp [bidRepository.CreateBid, hf]⟩

theorem except_bid_eta (p : Except Err Bid × World) :
    (match p with
      | (.error err, w) => (Except.error err, w)
      | (.ok b, w) => (.ok b, w)) = p := by
  obtain ⟨a, w⟩ := p
  cases a <;> rfl

theorem getUserByID_found (userID : String) (w : World) (e : User)
    (hf : w.fault = none) (hr : w.db.userByID userID = some e) :
    userRepository.GetUserByID userID w = (.ok e, w.tick (.GetUserByID userID)) := by
  simp [userRepository.GetUserByID, hf, hr]

theorem getUserByID_missing (userID : String) (w : World)
    (hf : w.fault = none) (hr : w.db.userByID userID = none) :
    userRepository.GetUserByID userID w
      = (.error ErrUserNotFound, w.tick (.GetUserByID userID)) := by
  simp [userRepository.GetUserByID, hf, hr]

theorem checkUserPermission_ok (userID organizationID : String) (w : World)
    (hf : w.fault = none) :
    userRepository.CheckUserPermission userID organizationID w =
      (.ok (w.db.isResponsible userID organizationID),
       w.tick (.CheckUserPermission userID organizationID)) := by
  rcases checkUserPermission_cases userID organizationID w with ⟨msg, h, _⟩ | ⟨_, h⟩
  · rw [hf] at h; exact absurd h (by simp)
  · exact pair_of _ _ _ h (checkUserPermission_world userID organizationID w)

theorem createBid_noTender (env : Env) (w : World)
    (description tenderID organizationID userID : String) (authorType : BidAuthorType)
    (u : User)
    (h1 : env.uuidParse tenderID = true) (h2 : env.uuidParse organizationID = true)
    (h3 : env.uuidParse userID = true)
    (hu : w.db.userByID userID = some u)
    (ht : w.db.tenderByID tenderID = none)
    (hq : w.quiet 2) :
    bidService.CreateBid env description tenderID organizationID userID authorType w =
      (.error ErrTenderNotFound,
        (w.tick (.GetUserByID userID)).tick (.GetTenderByID tenderID)) := by
  have f1 := quiet_fault w 1 hq
  have q1 := quiet_tick w (.GetUserByID userID) 1 hq
  have f2 := quiet_fault _ 0 q1
  simp [bidService.CreateBid, h1, h2, h3, getUserByID_found userID w u f1 hu,
    getTenderByID_missing tenderID _ f2 (by rw [tick_db]; exact ht), errors.Is]

theorem createBid_gate (env : Env) (w : World)
    (description tenderID organizationID userID : String) (authorType : BidAuthorType)
    (u : User) (t : Tender)
    (h1 : env.uuidParse tenderID = true) (h2 : env.uuidParse organizationID = true)
    (h3 : env.uuidParse userID = true)
    (hu : w.db.userByID userID = some u)
    (ht : w.db.tenderByID tenderID = some t)
    (hq : w.quiet 3) :
    bidService.CreateBid env description tenderID organizationID userID authorType w =
      if w.db.isResponsible userID organizationID = true then
        bidRepository.CreateBid env
          { Description := description, TenderID := tenderID, OrganizationID := organizationID,
            UserID := userID, AuthorType := authorType, Status := BidStatusCreated }
          (((w.tick (.GetUserByID userID)).tick (.GetTenderByID tenderID)).tick
            (.CheckUserPermission userID organizationID))
      else (.error ErrForbidden,
        ((w.tick (.GetUserByID userID)).tick (.GetTenderByID tenderID)).tick
          (.CheckUserPermission userID organizationID)) := by
  have f1 := quiet_fault w 2 hq
  have q1 := quiet_tick w (.GetUserByID userID) 2 hq
  have f2 := quiet_fault _ 1 q1
  have q2 := quiet_tick _ (.GetTenderByID tenderID) 1 q1
  have f3 := quiet_fault _ 0 q2
  simp only [bidService.CreateBid, h1, h2, h3, getUserByID_found userID w u f1 hu,
    getTenderByID_found tenderID _ t f2 (by rw [tick_db]; exact ht),
    checkUserPermission_ok userID organizationID _ f3, tick_db, except_bid_eta]
  by_cases hr : w.db.isResponsible userID organizationID = true
  · simp [hr]
  · simp [hr]

/-- C14: for well-formed tender, organization and user ids, a stored user and a
stored tender, and four round trips the driver does not fail: CreateBid succeeds
exactly when the user is responsible for the organization id of the call; then the
Bid Store's create is the fourth and last round trip, on a bid with status CREATED
and the description, tender id, organization id, user id and author type of the
call, and its row is returned; otherwise the result is Forbidden and nothing is
written. -/
theorem C14_create_bid_permission (env : Env) (w : World)
    (description tenderID organizationID userID : String) (authorType : BidAuthorType)
    (u : User) (t : Tender)
    (h1 : env.uuidParse tenderID = true) (h2 : env.uuidParse organizationID = true)
    (h3 : env.uuidParse userID = true)
    (hu : w.db.userByID userID = some u)
    (ht : w.db.tenderByID tenderID = some t)
    (hq : w.quiet 4) :
    ((∃ created,
        (bidService.CreateBid env description tenderID organizationID userID authorType w).1
          = .ok created) ↔ w.db.isResponsible userID organizationID = true) ∧
    (w.db.isResponsible userID organizationID = true →
      (bidService.CreateBid env description tenderID organizationID userID authorType w).2.calls
        = w.calls ++ [Call.GetUserByID userID, Call.GetTenderByID tenderID,
            Call.CheckUserPermission userID organizationID,
            Call.CreateBid
              { Description := description, TenderID := tenderID,
                OrganizationID := organizationID, UserID := userID,
                AuthorType := authorType, Status := "CREATED" }] ∧
      ∃ created,
        (bidService.CreateBid env description tenderID organizationID userID authorType w).1
          = .ok created ∧
        (bidService.CreateBid env description tenderID organizationID userID authorType w).2.db.bid
          = w.db.bid ++ [created] ∧
        created.Status = "CREATED" ∧ created.Description = description ∧
        created.TenderID = tenderID ∧ created.OrganizationID = organizationID ∧
        created.UserID = userID ∧ created.AuthorType = authorType) ∧
    (w.db.isResponsible userID organizationID = false →
      (bidService.CreateBid env description tenderID organizationID userID authorType w).1
        = .error ErrForbidden ∧
      w.noWrite
        (bidService.CreateBid env description tenderID organizationID userID authorType w).2) := by
  have q3 : w.quiet 3 := quiet_le w 3 4 (by omega) hq
  have f4 := fault_after3 w (.GetUserByID userID) (.GetTenderByID tenderID)
    (.CheckUserPermission userID organizationID) hq
  rw [createBid_gate env w description tenderID organizationID userID authorType u t
    h1 h2 h3 hu ht q3]
  by_cases hr : w.db.isResponsible userID organizationID = true
  · rw [if_pos hr]
    rcases repoCreateBid_cases env
      { Description := description, TenderID := tenderID, OrganizationID := organizationID,
        UserID := userID, AuthorType := authorType, Status := BidStatusCreated }
      (((w.tick (.GetUserByID userID)).tick (.GetTenderByID tenderID)).tick
        (.CheckUserPermission userID organizationID)) with ⟨msg, hf, _⟩ | ⟨_, h⟩
    · rw [f4] at hf; exact absurd hf (by simp)
    · rw [h]
      refine ⟨⟨fun _ => hr, fun _ => ⟨_, rfl⟩⟩, fun _ => ⟨?_, _, rfl, ?_, rfl, rfl, rfl, rfl, rfl, rfl⟩,
        fun hn => absurd hr (by simp [hn])⟩
      · simp [tick_calls, BidStatusCreated]
      · simp [schema.insertBid, tick_db]
  · have hr2 : w.db.isResponsible userID organizationID = false := by simpa using hr
    rw [if_neg hr]
    refine ⟨⟨fun ⟨c, hc⟩ => by simp at hc, fun h => absurd h hr⟩, fun h => absurd h hr,
      fun _ => ⟨rfl, ?_⟩⟩
    exact noWrite_tick _ _ _ (noWrite_tick _ _ _ (noWrite_tick _ _ _ (noWrite_refl w) rfl) rfl) rfl

/-- C14 at the sample data, the scenario of the spec: bob, responsible for the
organization, creates a bid with status CREATED; carol, not responsible, gets
Forbidden. -/
theorem C14_create_bid_permission_witness :
    (∃ created, (bidService.CreateBid sample.env "desc" sample.tenderId sample.orgId
        sample.bobId "User" sample.world).1 = .ok created ∧ created.Status = "CREATED") ∧
    (bidService.CreateBid sample.env "desc" sample.tenderId sample.orgId sample.carolId "User"
      sample.world).1 = .error ErrForbidden :=
  have hb := C14_create_bid_permission sample.env sample.world "desc" sample.tenderId
    sample.orgId sample.bobId "User" { ID := sample.bobId, Username := "bob" } sample.road
    (by rfl) (by rfl) (by rfl) (by rfl) (by rfl) (by decide)
  have hc := C14_create_bid_permission sample.env sample.world "desc" sample.tenderId
    sample.orgId sample.carolId "User" { ID := sample.carolId, Username := "carol" } sample.road
    (by rfl) (by rfl) (by rfl) (by rfl) (by rfl) (by decide)
  ⟨(hb.2.1 (by rfl)).2.imp fun _ h => ⟨h.1, h.2.2.1⟩, (hc.2.2 (by rfl)).1⟩

/-- C15: for well-formed tender, organization and user ids, a stored user and no
tender stored under the tender id, with the two lookups not failed by the driver,
CreateBid returns exactly TenderNotFound (the error `GetTenderByID` reports for a
missing row) and writes nothing, so no bid is created. -/
theorem C15_create_bid_tender_not_found (env : Env) (w : World)
    (description tenderID organizationID userID : String) (authorType : BidAuthorType)
    (u : User)
    (h1 : env.uuidParse tenderID = true) (h2 : env.uuidParse organizationID = true)
    (h3 : env.uuidParse userID = true)
    (hu : w.db.userByID userID = some u)
    (ht : w.db.tenderByID tenderID = none)
    (hq : w.quiet 2) :
    (bidService.CreateBid env description tenderID organizationID userID authorType w).1
      = .error ErrTenderNotFound ∧
    w.noWrite
      (bidService.CreateBid env description tenderID organizationID userID authorType w).2 ∧
    (bidService.CreateBid env description tenderID organizationID userID authorType w).2.db.bid
      = w.db.bid := by
  rw [createBid_noTender env w description tenderID organizationID userID authorType u
    h1 h2 h3 hu ht hq]
  exact ⟨rfl, noWrite_tick _ _ _ (noWrite_tick _ _ _ (noWrite_refl w) rfl) rfl, rfl⟩

/-- C15 at the sample data: bob bids on a well-formed id under which no tender is
stored. -/
theorem C15_create_bid_tender_not_found_witness :
    (bidService.CreateBid sample.env "desc" sample.bidId sample.orgId sample.bobId "User"
      sample.world).1 = .error ErrTenderNotFound :=
  (C15_create_bid_tender_not_found sample.env sample.world "desc" sample.bidId sample.orgId
    sample.bobId "User" { ID := sample.bobId, Username := "bob" }
    (by rfl) (by rfl) (by rfl) (by rfl) (by rfl) (by decide)).1

/-! ## GetBidsByTenderID past the three lookups -/

theorem except_bids_eta (p : Except Err (List Bid) × World) :
    (match p with
      | (.error err, w) =>
        if errors.Is err ErrTenderNotFound = true then (Except.error ErrTenderNotFound, w)
        else (.error err, w)
      | (.ok bids, w) => (.ok bids, w)) = p := by
  obtain ⟨a, w⟩ := p
  cases a with
  | ok bids => rfl
  | error err =>
    by_cases h : err = ErrTenderNotFound
    · simp [errors.Is, h]
    · simp [errors.Is, h]

theorem repoGetBidsByTenderID_err (tenderID : String) (limit offset : Int) (w : World)
    (err : Err)
    (h : (bidRepository.GetBidsByTenderID tenderID limit offset w).1 = .error err) :
    ∃ msg, err = driver msg := by
  unfold bidRepository.GetBidsByTenderID at h
  cases hf : w.fault with
  | some msg => simp [hf] at h; exact ⟨msg, h.symm⟩
  | none =>
    simp only [hf] at h
    split_ifs at h
    · simp at h; exact ⟨_, h.symm⟩
    · simp at h; exact ⟨_, h.symm⟩

theorem getBidsByTenderID_gate (env : Env) (w : World) (tenderID username : String)
    (limit offset : Int) (e : User) (t : Tender)
    (hid : env.uuidParse tenderID = true)
    (hu : w.db.userByUsername username = some e)
    (ht : w.db.tenderByID tenderID = some t)
    (hq : w.quiet 3) :
    bidService.GetBidsByTenderID env tenderID username limit offset w =
      if w.db.isResponsible e.ID t.OrganizationID = true then
        bidRepository.GetBidsByTenderID tenderID limit offset
          (((w.tick (.GetUserByUsername username)).tick (.GetTenderByID tenderID)).tick
            (.CheckUserPermission e.ID t.OrganizationID))
      else (.error ErrForbidden,
        ((w.tick (.GetUserByUsername username)).tick (.GetTenderByID tenderID)).tick
          (.CheckUserPermission e.ID t.OrganizationID)) := by
  have f1 := quiet_fault w 2 hq
  have q1 := quiet_tick w (.GetUserByUsername username) 2 hq
  have f2 := quiet_fault _ 1 q1
  have q2 := quiet_tick _ (.GetTenderByID tenderID) 1 q1
  have f3 := quiet_fault _ 0 q2
  simp only [bidService.GetBidsByTenderID, hid, getUserByUsername_found username w e f1 hu,
    getTenderByID_found tenderID _ t f2 (by rw [tick_db]; exact ht),
    checkUserPermission_ok e.ID t.OrganizationID _ f3, tick_db, except_bids_eta]
  by_cases hr : w.db.isResponsible e.ID t.OrganizationID = true
  · simp [hr]
  · simp [hr]

/-- C16: for a username resolving to the user `e` and a tender `t` stored under a
well-formed id, with the three lookups not failed by the driver, GetBidsByTenderID
returns Forbidden exactly when `e` is not responsible for the organization of `t`,
whatever bids `e` authored; otherwise it returns what the Bid Store's listing
returns for the tender id, limit and offset. -/
theorem C16_get_bids_permission (env : Env) (w : World) (tenderID username : String)
    (limit offset : Int) (e : User) (t : Tender)
    (hid : env.uuidParse tenderID = true)
    (hu : w.db.userByUsername username = some e)
    (ht : w.db.tenderByID tenderID = some t)
    (hq : w.quiet 3) :
    ((bidService.GetBidsByTenderID env tenderID username limit offset w).1
        = .error ErrForbidden ↔ w.db.isResponsible e.ID t.OrganizationID = false) ∧
    (w.db.isResponsible e.ID t.OrganizationID = true →
      bidService.GetBidsByTenderID env tenderID username limit offset w =
        bidRepository.GetBidsByTenderID tenderID limit offset
          (((w.tick (.GetUserByUsername username)).tick (.GetTenderByID tenderID)).tick
            (.CheckUserPermission e.ID t.OrganizationID))) := by
  rw [getBidsByTenderID_gate env w tenderID username limit offset e t hid hu ht hq]
  by_cases hr : w.db.isResponsible e.ID t.OrganizationID = true
  · rw [if_pos hr]
    refine ⟨⟨fun h => ?_, fun hn => absurd hr (by simp [hn])⟩, fun _ => rfl⟩
    obtain ⟨msg, hm⟩ := repoGetBidsByTenderID_err _ _ _ _ _ h
    exact absurd hm (by simp)
  · rw [if_neg hr]
    exact ⟨⟨fun _ => by simpa using hr, fun _ => rfl⟩, fun h => absurd h hr⟩

/-- C16 at the sample data: carol, author of the one bid on the sample tender but
not responsible for its organization, gets Forbidden; bob, responsible, gets the
list holding that bid. -/
theorem C16_get_bids_permission_witness :
    sample.offer.UserID = sample.carolId ∧ sample.offer.TenderID = sample.tenderId ∧
    (bidService.GetBidsByTenderID sample.env sample.tenderId "carol" 5 0 sample.world).1
      = .error ErrForbidden ∧
    (bidService.GetBidsByTenderID sample.env sample.tenderId "bob" 5 0 sample.world).1
      = .ok [{ ID := sample.bidId, TenderID := sample.tenderId, OrganizationID := sample.orgId,
               UserID := sample.carolId, Description := "desc", Status := "CREATED" }] :=
  have hc := C16_get_bids_permission sample.env sample.world sample.tenderId "carol" 5 0
    { ID := sample.carolId, Username := "carol" } sample.road
    (by rfl) (by rfl) (by rfl) (by decide)
  have hb := C16_get_bids_permission sample.env sample.world sample.tenderId "bob" 5 0
    { ID := sample.bobId, Username := "bob" } sample.road
    (by rfl) (by rfl) (by rfl) (by decide)
  ⟨by rfl, by rfl, hc.1.2 (by rfl), (congrArg Prod.fst (hb.2 (by rfl))).trans (by rfl)⟩

/-- C17: when SubmitBidFeedback succeeds, the bid is stored, the username
resolves to its author, the returned bid is the one `GetBidByID` loaded, and the
database afterwards is the one before with exactly one record, of the bid id and
the feedback text, appended to the feedback records: the bids and the earlier
feedback records are as they were. -/
theorem C17_submit_feedback_frame (w : World) (bidID username feedback : String)
    (returned : Bid)
    (hok : (bidService.SubmitBidFeedback bidID username feedback w).1 = .ok returned) :
    (∃ b e, w.db.bidByID bidID = some b ∧ w.db.userByUsername username = some e ∧
      b.UserID = e.ID) ∧
    (bidRepository.GetBidByID bidID w).1 = .ok returned ∧
    (∃ now, (bidService.SubmitBidFeedback bidID username feedback w).2.db =
      { w.db with bid_review := w.db.bid_review ++
        [{ bid_id := bidID, description := feedback, created_at := now }] }) ∧
    (bidService.SubmitBidFeedback bidID username feedback w).2.db.bid = w.db.bid ∧
    ∃ record, record.bid_id = bidID ∧ record.description = feedback ∧
      (bidService.SubmitBidFeedback bidID username feedback w).2.db.bid_review
        = w.db.bid_review ++ [record] := by
  rcases submitBidFeedback_shape w bidID username feedback with
    ⟨err, hS, _⟩ | ⟨err, hS, _⟩ | ⟨b, e, hq, hb, hu, hown, hS⟩
  · rw [hS] at hok; simp at hok
  · rw [hS] at hok; simp at hok
  · rw [hS] at hok ⊢
    rcases addBidFeedback_cases bidID feedback
      ((w.tick (.GetBidByID bidID)).tick (.GetUserByUsername username))
      with ⟨msg, _, hA⟩ | ⟨_, hA⟩
    · rw [hA] at hok; simp at hok
    · rw [hA] at hok ⊢
      simp only [Except.ok.injEq] at hok
      subst hok
      refine ⟨⟨b, e, hb, hu, hown⟩, ?_, ⟨_, rfl⟩, rfl, ⟨_, rfl, rfl, rfl⟩⟩
      rw [getBidByID_found bidID w b (quiet_fault w 1 hq) hb]

/-- C17 at the sample data: carol submits feedback on her bid; the bid comes back
as loaded and the one feedback record is appended. -/
theorem C17_submit_feedback_frame_witness :
    (bidService.SubmitBidFeedback sample.bidId "carol" "fine" sample.world).2.db.bid
      = [sample.offer] ∧
    ∃ record, record.bid_id = sample.bidId ∧ record.description = "fine" ∧
      (bidService.SubmitBidFeedback sample.bidId "carol" "fine" sample.world).2.db.bid_review
        = [] ++ [record] :=
  have h := C17_submit_feedback_frame sample.world sample.bidId "carol" "fine" sample.offer
    (by rfl)
  ⟨h.2.2.2.1, h.2.2.2.2⟩

/-! ## Where each mutating operation can stop: before its write, or in it -/

theorem updateTenderStatus_shape (env : Env) (w : World) (tenderId username : String)
    (status : TenderStatus) :
    w.noWrite (tenderService.UpdateTenderStatus env tenderId status username w).2 ∨
    ∃ t wk, w.noWrite wk ∧
      tenderService.UpdateTenderStatus env tenderId status username w
        = tenderRepository.UpdateTenderStatus env t wk := by
  unfold tenderService.UpdateTenderStatus
  by_cases hid : env.uuidParse tenderId = false
  · left; rw [if_pos hid]; exact noWrite_refl w
  rw [if_neg hid]
  have hw1 := getTenderByID_world tenderId w
  rcases h1 : tenderRepository.GetTenderByID tenderId w with ⟨r1, w1⟩
  rw [h1] at hw1
  simp only at hw1
  subst hw1
  have n1 : w.noWrite (w.tick (.GetTenderByID tenderId)) :=
    noWrite_tick _ _ _ (noWrite_refl w) rfl
  cases r1 with
  | error err => left; simp only; split_ifs <;> exact n1
  | ok tender =>
    simp only
    have hw2 := getUserIDByUsername_world username (w.tick (.GetTenderByID tenderId))
    rcases h2 : userService.GetUserIDByUsername username (w.tick (.GetTenderByID tenderId))
      with ⟨r2, w2⟩
    rw [h2] at hw2
    simp only at hw2
    subst hw2
    have n2 := noWrite_tick _ _ (.FindUserIDByUsername username) n1 rfl
    cases r2 with
    | error err => left; exact n2
    | ok userId =>
      simp only
      have hw3 := isUserResponsibleForOrganization_world userId tender.OrganizationID
        ((w.tick (.GetTenderByID tenderId)).tick (.FindUserIDByUsername username))
      rcases h3 : tenderRepository.IsUserResponsibleForOrganization userId tender.OrganizationID
        ((w.tick (.GetTenderByID tenderId)).tick (.FindUserIDByUsername username)) with ⟨r3, w3⟩
      rw [h3] at hw3
      simp only at hw3
      subst hw3
      have n3 := noWrite_tick _ _
        (.IsUserResponsibleForOrganization userId tender.OrganizationID) n2 rfl
      cases r3 with
      | error err => left; exact n3
      | ok isResponsible =>
        simp only
        split_ifs
        · left; exact n3
        · right; exact ⟨_, _, n3, option_result_eta _⟩

theorem editTender_shape (env : Env) (w : World) (tenderId username : String)
    (name description serviceType : Option String) :
    w.noWrite (tenderService.EditTender env tenderId username name description serviceType w).2 ∨
    ∃ t wk, w.noWrite wk ∧
      tenderService.EditTender env tenderId username name description serviceType w
        = tenderRepository.UpdateTender env t wk := by
  unfold tenderService.EditTender
  by_cases hid : env.uuidParse tenderId = false
  · left; rw [if_pos hid]; exact noWrite_refl w
  rw [if_neg hid]
  have hw1 := getTenderByID_world tenderId w
  rcases h1 : tenderRepository.GetTenderByID tenderId w with ⟨r1, w1⟩
  rw [h1] at hw1
  simp only at hw1
  subst hw1
  have n1 : w.noWrite (w.tick (.GetTenderByID tenderId)) :=
    noWrite_tick _ _ _ (noWrite_refl w) rfl
  cases r1 with
  | error err => left; simp only; split_ifs <;> exact n1
  | ok tender =>
    simp only
    have hw2 := getUserIDByUsername_world username (w.tick (.GetTenderByID tenderId))
    rcases h2 : userService.GetUserIDByUsername username (w.tick (.GetTenderByID tenderId))
      with ⟨r2, w2⟩
    rw [h2] at hw2
    simp only at hw2
    subst hw2
    have n2 := noWrite_tick _ _ (.FindUserIDByUsername username) n1 rfl
    cases r2 with
    | error err => left; exact n2
    | ok userId =>
      simp only
      have hw3 := isUserResponsibleForOrganization_world userId tender.OrganizationID
        ((w.tick (.GetTenderByID tenderId)).tick (.FindUserIDByUsername username))
      rcases h3 : tenderRepository.IsUserResponsibleForOrganization userId tender.OrganizationID
        ((w.tick (.GetTenderByID tenderId)).tick (.FindUserIDByUsername username)) with ⟨r3, w3⟩
      rw [h3] at hw3
      simp only at hw3
      subst hw3
      have n3 := noWrite_tick _ _
        (.IsUserResponsibleForOrganization userId tender.OrganizationID) n2 rfl
      cases r3 with
      | error err => left; exact n3
      | ok isResponsible =>
        simp only
        split_ifs
        · left; exact n3
        · right; exact ⟨_, _, n3, option_result_eta _⟩

theorem rollbackTenderVersion_shape (env : Env) (w : World) (tenderId username : String)
    (version : Int) :
    w.noWrite (tenderService.RollbackTenderVersion env tenderId version username w).2 ∨
    ∃ t wk, w.noWrite wk ∧
      tenderService.RollbackTenderVersion env tenderId version username w
        = tenderRepository.UpdateTender env t wk := by
  unfold tenderService.RollbackTenderVersion
  by_cases hid : env.uuidParse tenderId = false
  · left; rw [if_pos hid]; exact noWrite_refl w
  rw [if_neg hid]
  have hw1 := getTenderByID_world tenderId w
  rcases h1 : tenderRepository.GetTenderByID tenderId w with ⟨r1, w1⟩
  rw [h1] at hw1
  simp only at hw1
  subst hw1
  have n1 : w.noWrite (w.tick (.GetTenderByID tenderId)) :=
    noWrite_tick _ _ _ (noWrite_refl w) rfl
  cases r1 with
  | error err => left; simp only; split_ifs <;> exact n1
  | ok tender =>
    simp only
    have hw0 := getTenderHistoryByVersion_world tenderId version
      (w.tick (.GetTenderByID tenderId))
    rcases h0 : tenderRepository.GetTenderHistoryByVersion tenderId version
      (w.tick (.GetTenderByID tenderId)) with ⟨r0, w0⟩
    rw [h0] at hw0
    simp only at hw0
    subst hw0
    have n0 := noWrite_tick _ _ (.GetTenderHistoryByVersion tenderId version) n1 rfl
    cases r0 with
    | error err => left; simp only; split_ifs <;> exact n0
    | ok history =>
      simp only
      have hw2 := getUserIDByUsername_world username ((w.tick (.GetTenderByID tenderId)).tick
        (.GetTenderHistoryByVersion tenderId version))
      rcases h2 : userService.GetUserIDByUsername username
        ((w.tick (.GetTenderByID tenderId)).tick (.GetTenderHistoryByVersion tenderId version))
        with ⟨r2, w2⟩
      rw [h2] at hw2
      simp only at hw2
      subst hw2
      have n2 := noWrite_tick _ _ (.FindUserIDByUsername username) n0 rfl
      cases r2 with
      | error err => left; exact n2
      | ok userId =>
        simp only
        have hw3 := isUserResponsibleForOrganization_world userId tender.OrganizationID
          (((w.tick (.GetTenderByID tenderId)).tick
            (.GetTenderHistoryByVersion tenderId version)).tick (.FindUserIDByUsername username))
        rcases h3 : tenderRepository.IsUserResponsibleForOrganization userId
          tender.OrganizationID
          (((w.tick (.GetTenderByID tenderId)).tick
            (.GetTenderHistoryByVersion tenderId version)).tick (.FindUserIDByUsername username))
          with ⟨r3, w3⟩
        rw [h3] at hw3
        simp only at hw3
        subst hw3
        have n3 := noWrite_tick _ _
          (.IsUserResponsibleForOrganization userId tender.OrganizationID) n2 rfl
        cases r3 with
        | error err => left; exact n3
        | ok isResponsible =>
          simp only
          split_ifs
          · left; exact n3
          · right; exact ⟨_, _, n3, option_result_eta _⟩

theorem createTender_shape (env : Env) (w : World) (tender : Tender)
    (creatorUsername : String) :
    w.noWrite (tenderService.CreateTender env tender creatorUsername w).2 ∨
    ∃ t wk, w.noWrite wk ∧
      tenderService.CreateTender env tender creatorUsername w
        = tenderRepository.CreateTender env t wk := by
  have n1 : w.noWrite (w.tick (.FindUserIDByUsername creatorUsername)) :=
    noWrite_tick _ _ _ (noWrite_refl w) rfl
  cases hf : w.fault with
  | some msg => left; rw [createTender_fault env w tender creatorUsername msg hf]; exact n1
  | none =>
    cases hu : w.db.userByUsername creatorUsername with
    | none => left; rw [createTender_unresolved env w tender creatorUsername hf hu]; exact n1
    | some e => right; exact ⟨_, _, n1, createTender_resolved env w tender creatorUsername e hf hu⟩

theorem createBid_shape (env : Env) (w : World)
    (description tenderID organizationID userID : String) (authorType : BidAuthorType) :
    w.noWrite
      (bidService.CreateBid env description tenderID organizationID userID authorType w).2 ∨
    ∃ b wk, w.noWrite wk ∧
      bidService.CreateBid env description tenderID organizationID userID authorType w
        = bidRepository.CreateBid env b wk := by
  unfold bidService.CreateBid
  by_cases h1 : env.uuidParse tenderID = false
  · left; rw [if_pos h1]; exact noWrite_refl w
  rw [if_neg h1]
  by_cases h2 : env.uuidParse organizationID = false
  · left; rw [if_pos h2]; exact noWrite_refl w
  rw [if_neg h2]
  by_cases h3 : env.uuidParse userID = false
  · left; rw [if_pos h3]; exact noWrite_refl w
  rw [if_neg h3]
  have hw1 := getUserByID_world userID w
  rcases e1 : userRepository.GetUserByID userID w with ⟨r1, w1⟩
  rw [e1] at hw1
  simp only at hw1
  subst hw1
  have n1 : w.noWrite (w.tick (.GetUserByID userID)) := noWrite_tick _ _ _ (noWrite_refl w) rfl
  cases r1 with
  | error err => left; simp only; split_ifs <;> exact n1
  | ok user =>
    simp only
    have hw2 := getTenderByID_world tenderID (w.tick (.GetUserByID userID))
    rcases e2 : tenderRepository.GetTenderByID tenderID (w.tick (.GetUserByID userID))
      with ⟨r2, w2⟩
    rw [e2] at hw2
    simp only at hw2
    subst hw2
    have n2 := noWrite_tick _ _ (.GetTenderByID tenderID) n1 rfl
    cases r2 with
    | error err => left; simp only; split_ifs <;> exact n2
    | ok tender =>
      simp only
      have hw3 := checkUserPermission_world userID organizationID
        ((w.tick (.GetUserByID userID)).tick (.GetTenderByID tenderID))
      rcases e3 : userRepository.CheckUserPermission userID organizationID
        ((w.tick (.GetUserByID userID)).tick (.GetTenderByID tenderID)) with ⟨r3, w3⟩
      rw [e3] at hw3
      simp only at hw3
      subst hw3
      have n3 := noWrite_tick _ _ (.CheckUserPermission userID organizationID) n2 rfl
      cases r3 with
      | error err => left; exact n3
      | ok hasPermission =>
        simp only
        split_ifs
        · left; exact n3
        · right; exact ⟨_, _, n3, except_bid_eta _⟩

theorem updateBidStatus_shape (env : Env) (w : World) (bidID status username : String) :
    w.noWrite (bidService.UpdateBidStatus env bidID status username w).2 ∨
    ∃ wk, w.noWrite wk ∧ (wk.db.bidByID bidID).isSome = true ∧
      bidService.UpdateBidStatus env bidID status username w
        = bidRepository.UpdateBidStatus bidID status wk := by
  unfold bidService.UpdateBidStatus
  by_cases hid : env.uuidParse bidID = false
  · left; rw [if_pos hid]; exact noWrite_refl w
  rw [if_neg hid]
  have n1 : w.noWrite (w.tick (.GetBidByID bidID)) := noWrite_tick _ _ _ (noWrite_refl w) rfl
  rcases getBidByID_cases bidID w with ⟨msg, _, h1⟩ | ⟨_, _, h1⟩ | ⟨b, _, hb, h1⟩
  · left
    rw [pair_of _ _ _ h1 (getBidByID_world bidID w)]
    exact n1
  · left
    rw [pair_of _ _ _ h1 (getBidByID_world bidID w)]
    exact n1
  · rw [pair_of _ _ _ h1 (getBidByID_world bidID w)]
    simp only
    have hw2 := getUserByUsername_world username (w.tick (.GetBidByID bidID))
    rcases e2 : userRepository.GetUserByUsername username (w.tick (.GetBidByID bidID))
      with ⟨r2, w2⟩
    rw [e2] at hw2
    simp only at hw2
    subst hw2
    have n2 := noWrite_tick _ _ (.GetUserByUsername username) n1 rfl
    cases r2 with
    | error err => left; exact n2
    | ok user =>
      simp only
      split_ifs
      · left; exact n2
      · right
        exact ⟨_, n2, by simp [tick_db, hb], option_result_eta _⟩

theorem editBid_shape (env : Env) (w : World) (bidID username : String)
    (updates : List (String × Value)) :
    w.noWrite (bidService.EditBid env bidID username updates w).2 ∨
    ∃ wk, w.noWrite wk ∧
      bidService.EditBid env bidID username updates w
        = bidRepository.EditBid env bidID updates wk := by
  unfold bidService.EditBid
  by_cases hid : env.uuidParse bidID = false
  · left; rw [if_pos hid]; exact noWrite_refl w
  rw [if_neg hid]
  have hw1 := getBidByID_world bidID w
  rcases e1 : bidRepository.GetBidByID bidID w with ⟨r1, w1⟩
  rw [e1] at hw1
  simp only at hw1
  subst hw1
  have n1 : w.noWrite (w.tick (.GetBidByID bidID)) := noWrite_tick _ _ _ (noWrite_refl w) rfl
  cases r1 with
  | error err => left; exact n1
  | ok bid =>
    simp only
    have hw2 := getUserByUsername_world username (w.tick (.GetBidByID bidID))
    rcases e2 : userRepository.GetUserByUsername username (w.tick (.GetBidByID bidID))
      with ⟨r2, w2⟩
    rw [e2] at hw2
    simp only at hw2
    subst hw2
    have n2 := noWrite_tick _ _ (.GetUserByUsername username) n1 rfl
    cases r2 with
    | error err => left; exact n2
    | ok user =>
      simp only
      split_ifs
      · left; exact n2
      · right; exact ⟨_, n2, option_result_eta _⟩

/-! ## The outcomes of the bid writes -/

theorem repoUpdateBidStatus_cases (bidID : String) (status : BidStatus) (w : World)
    (hb : (w.db.bidByID bidID).isSome = true) :
    (bidRepository.UpdateBidStatus bidID status w).1 = none ∨
    ∃ msg, (bidRepository.UpdateBidStatus bidID status w).1 = some (driver msg) := by
  obtain ⟨b, hb⟩ := Option.isSome_iff_exists.1 hb
  unfold bidRepository.UpdateBidStatus
  cases w.fault with
  | some msg => right; exact ⟨msg, rfl⟩
  | none => left; simp [hb]

theorem repoEditBid_cases (env : Env) (bidID : String) (updates : List (String × Value))
    (w : World) :
    (bidRepository.EditBid env bidID updates w).1 = none ∨
    (∃ msg, (bidRepository.EditBid env bidID updates w).1 = some (driver msg)) ∨
    ((bidRepository.EditBid env bidID updates w).1 = some ErrBidNotFound ∧
      ∃ r, env.execDynamic (bidRepository.EditBid.statement bidID updates).1
          (bidRepository.EditBid.statement bidID updates).2 w.db = .ok r ∧
        r.rowsAffected = .ok 0 ∧
        (bidRepository.EditBid env bidID updates w).2.db = r.db) := by
  unfold bidRepository.EditBid
  simp only
  cases w.fault with
  | some msg => right; left; exact ⟨msg, rfl⟩
  | none =>
    simp only
    cases hx : env.execDynamic (bidRepository.EditBid.statement bidID updates).1
        (bidRepository.EditBid.statement bidID updates).2 w.db with
    | error msg => right; left; exact ⟨msg, rfl⟩
    | ok result =>
      simp only
      cases hr : result.rowsAffected with
      | error msg => right; left; exact ⟨msg, rfl⟩
      | ok n =>
        simp only
        by_cases hn : n = 0
        · right; right
          rw [if_pos hn]
          exact ⟨rfl, result, rfl, by rw [hr, hn], rfl⟩
        · left; rw [if_neg hn]

/-! ## Atomicity on failed validation -/

theorem validationKind_not_driver (e : Err) (hk : Err.isValidationKind e = true) (msg : String) :
    e ≠ driver msg := by
  intro h
  rw [h] at hk
  simp [Err.isValidationKind] at hk

/-- C18, as the code has it: when a mutating operation returns BadRequest,
TenderNotFound, TenderHistoryNotFound, BidNotFound, Unauthorized, UserNotFound or
Forbidden, the tenders, history rows, bids and feedback records are the same as
before the call. For CreateTender, UpdateTenderStatus, EditTender,
RollbackTenderVersion, CreateBid, UpdateBidStatus and SubmitBidFeedback no write
has been issued. EditBid returns BidNotFound also when its UPDATE, issued, affected
no row; for every other of these kinds it has issued no write. The database is
taken to change nothing when it reports that a statement affected no row. -/
theorem C18_atomicity_on_failed_validation (env : Env) (w : World) (e : Err)
    (tender : Tender) (tenderId username : String) (status : String)
    (name description serviceType : Option String) (version : Int)
    (bidDescription tenderID organizationID userID : String) (authorType : BidAuthorType)
    (bidID feedback : String) (updates : List (String × Value))
    (hk : Err.isValidationKind e = true)
    (hzero : ∀ query params db r, env.execDynamic query params db = .ok r →
      r.rowsAffected = .ok 0 → r.db = db) :
    ((tenderService.CreateTender env tender username w).1 = .error e →
      w.noWrite (tenderService.CreateTender env tender username w).2) ∧
    ((tenderService.UpdateTenderStatus env tenderId status username w).1 = some e →
      w.noWrite (tenderService.UpdateTenderStatus env tenderId status username w).2) ∧
    ((tenderService.EditTender env tenderId username name description serviceType w).1
        = some e →
      w.noWrite
        (tenderService.EditTender env tenderId username name description serviceType w).2) ∧
    ((tenderService.RollbackTenderVersion env tenderId version username w).1 = some e →
      w.noWrite (tenderService.RollbackTenderVersion env tenderId version username w).2) ∧
    ((bidService.CreateBid env bidDescription tenderID organizationID userID authorType w).1
        = .error e →
      w.noWrite
        (bidService.CreateBid env bidDescription tenderID organizationID userID authorType
          w).2) ∧
    ((bidService.UpdateBidStatus env bidID status username w).1 = some e →
      w.noWrite (bidService.UpdateBidStatus env bidID status username w).2) ∧
    ((bidService.SubmitBidFeedback bidID username feedback w).1 = .error e →
      w.noWrite (bidService.SubmitBidFeedback bidID username feedback w).2) ∧
    ((bidService.EditBid env bidID username updates w).1 = some e →
      (bidService.EditBid env bidID username updates w).2.db = w.db ∧
      (e ≠ ErrBidNotFound → w.noWrite (bidService.EditBid env bidID username updates w).2)) := by
  have hd := validationKind_not_driver e hk
  refine ⟨?_, ?_, ?_, ?_, ?_, ?_, ?_, ?_⟩
  · intro h
    rcases createTender_shape env w tender username with hn | ⟨t, wk, _, hS⟩
    · exact hn
    · rw [hS] at h
      rcases repoCreateTender_cases env t wk with ⟨msg, _, hc⟩ | ⟨_, hc⟩
      · rw [hc] at h; simp only [Except.error.injEq] at h; exact absurd h.symm (hd msg)
      · rw [hc] at h; simp at h
  · intro h
    rcases updateTenderStatus_shape env w tenderId username status with hn | ⟨t, wk, _, hS⟩
    · exact hn
    · rw [hS] at h
      rcases updateTenderStatus_err env t wk with hc | ⟨msg, hc⟩
      · rw [hc] at h; simp at h
      · rw [hc] at h; simp only [Option.some.injEq] at h; exact absurd h.symm (hd msg)
  · intro h
    rcases editTender_shape env w tenderId username name description serviceType
      with hn | ⟨t, wk, _, hS⟩
    · exact hn
    · rw [hS] at h
      rcases updateTender_err env t wk with hc | ⟨msg, hc⟩
      · rw [hc] at h; simp at h
      · rw [hc] at h; simp only [Option.some.injEq] at h; exact absurd h.symm (hd msg)
  · intro h
    rcases rollbackTenderVersion_shape env w tenderId username version with hn | ⟨t, wk, _, hS⟩
    · exact hn
    · rw [hS] at h
      rcases updateTender_err env t wk with hc | ⟨msg, hc⟩
      · rw [hc] at h; simp at h
      · rw [hc] at h; simp only [Option.some.injEq] at h; exact absurd h.symm (hd msg)
  · intro h
    rcases createBid_shape env w bidDescription tenderID organizationID userID authorType
      with hn | ⟨b, wk, _, hS⟩
    · exact hn
    · rw [hS] at h
      rcases repoCreateBid_cases env b wk with ⟨msg, _, hc⟩ | ⟨_, hc⟩
      · rw [hc] at h; simp only [Except.error.injEq] at h; exact absurd h.symm (hd msg)
      · rw [hc] at h; simp at h
  · intro h
    rcases updateBidStatus_shape env w bidID status username with hn | ⟨wk, _, hb, hS⟩
    · exact hn
    · rw [hS] at h
      rcases repoUpdateBidStatus_cases bidID status wk hb with hc | ⟨msg, hc⟩
      · rw [hc] at h; simp at h
      · rw [hc] at h; simp only [Option.some.injEq] at h; exact absurd h.symm (hd msg)
  · intro h
    rcases submitBidFeedback_shape w bidID username feedback with
      ⟨err, hS, _⟩ | ⟨err, hS, _⟩ | ⟨b, u, _, _, _, _, hS⟩
    · rw [hS]; exact noWrite_tick _ _ _ (noWrite_refl w) rfl
    · rw [hS]; exact noWrite_tick _ _ _ (noWrite_tick _ _ _ (noWrite_refl w) rfl) rfl
    · rw [hS] at h
      rcases addBidFeedback_cases bidID feedback
        ((w.tick (.GetBidByID bidID)).tick (.GetUserByUsername username))
        with ⟨msg, _, hA⟩ | ⟨_, hA⟩
      · rw [hA] at h; simp only [Except.error.injEq] at h; exact absurd h.symm (hd msg)
      · rw [hA] at h; simp at h
  · intro h
    rcases editBid_shape env w bidID username updates with hn | ⟨wk, hwk, hS⟩
    · exact ⟨hn.1, fun _ => hn⟩
    · rw [hS] at h ⊢
      rcases repoEditBid_cases env bidID updates wk with hc | ⟨msg, hc⟩ | ⟨hc, r, hx, hr, hdb⟩
      · rw [hc] at h; simp at h
      · rw [hc] at h; simp only [Option.some.injEq] at h; exact absurd h.symm (hd msg)
      · rw [hc] at h
        simp only [Option.some.injEq] at h
        refine ⟨?_, fun hne => absurd h.symm hne⟩
        rw [hdb, hzero _ _ _ r hx hr]
        exact hwk.1

/-- C18 at the sample data: carol may not set the status of the sample tender, bob
may not edit carol's bid; both get Forbidden and the database is as it was. -/
theorem C18_atomicity_on_failed_validation_witness :
    (tenderService.UpdateTenderStatus sample.env sample.tenderId "CLOSED" "carol"
      sample.world).1 = some ErrForbidden ∧
    (tenderService.UpdateTenderStatus sample.env sample.tenderId "CLOSED" "carol"
      sample.world).2.db = sample.world.db ∧
    (bidService.EditBid sample.env sample.bidId "bob" [("description", .string "x")]
      sample.world).2.db = sample.world.db :=
  have h := C18_atomicity_on_failed_validation sample.env sample.world ErrForbidden
    sample.draft sample.tenderId "carol" "CLOSED" none none none 1
    "desc" sample.tenderId sample.orgId sample.carolId "User" sample.bidId "fine"
    [("description", .string "x")] (by rfl)
    (fun _ _ _ r hx hr => by
      simp only [sample.env, Except.ok.injEq] at hx
      rw [← hx] at hr
      simp at hr)
  have hb := C18_atomicity_on_failed_validation sample.env sample.world ErrForbidden
    sample.draft sample.tenderId "bob" "CLOSED" none none none 1
    "desc" sample.tenderId sample.orgId sample.carolId "User" sample.bidId "fine"
    [("description", .string "x")] (by rfl)
    (fun _ _ _ r hx hr => by
      simp only [sample.env, Except.ok.injEq] at hx
      rw [← hx] at hr
      simp at hr)
  ⟨by rfl, (h.2.1 (by rfl)).1, (hb.2.2.2.2.2.2.2 (by rfl)).1⟩

/-- C18 as stated fails: carol edits her own bid with the one field name
`orphanField`; `EditBid` assembles `orphanStatement`, the database runs it and
reports no row affected, and the operation returns BidNotFound although its
UPDATE has been issued. -/
theorem C18_counterexample :
    sample.world.db.bidByID sample.bidId = some sample.offer ∧
    bidRepository.EditBid.statement sample.bidId [(sample.orphanField, .string "x")]
      = (sample.orphanStatement, [.string "x", .string sample.bidId]) ∧
    (bidService.EditBid sample.envOrphan sample.bidId "carol"
      [(sample.orphanField, .string "x")] sample.world).1 = some ErrBidNotFound ∧
    (bidService.EditBid sample.envOrphan sample.bidId "carol"
      [(sample.orphanField, .string "x")] sample.world).2.calls =
      [Call.GetBidByID sample.bidId, Call.GetUserByUsername "carol",
       Call.EditBid sample.bidId [(sample.orphanField, .string "x")]] ∧
    (Call.EditBid sample.bidId [(sample.orphanField, .string "x")]).isWrite = true ∧
    ¬ sample.world.noWrite (bidService.EditBid sample.envOrphan sample.bidId "carol"
      [(sample.orphanField, .string "x")] sample.world).2 := by
  have hcalls : (bidService.EditBid sample.envOrphan sample.bidId "carol"
      [(sample.orphanField, .string "x")] sample.world).2.calls =
      [Call.GetBidByID sample.bidId, Call.GetUserByUsername "carol",
       Call.EditBid sample.bidId [(sample.orphanField, .string "x")]] := by rfl
  refine ⟨by rfl, by rfl, by rfl, hcalls, by rfl, ?_⟩
  rintro ⟨_, cs, hcs, hall⟩
  rw [hcalls] at hcs
  have hcs2 : cs = [Call.GetBidByID sample.bidId, Call.GetUserByUsername "carol",
      Call.EditBid sample.bidId [(sample.orphanField, .string "x")]] := by
    have : sample.world.calls = [] := rfl
    rw [this, List.nil_append] at hcs
    exact hcs.symm
  have hw := hall (Call.EditBid sample.bidId [(sample.orphanField, .string "x")])
    (by rw [hcs2]; simp)
  simp [Call.isWrite] at hw

/-! ## The order of the validation steps -/

theorem getBidByID_missing (bidID : String) (w : World)
    (hf : w.fault = none) (hr : w.db.bidByID bidID = none) :
    bidRepository.GetBidByID bidID w = (.error ErrBidNotFound, w.tick (.GetBidByID bidID)) := by
  simp [bidRepository.GetBidByID, hf, hr]

theorem getUserByUsername_missing (username : String) (w : World)
    (hf : w.fault = none) (hr : w.db.userByUsername username = none) :
    userRepository.GetUserByUsername username w
      = (.error ErrUserNotFound, w.tick (.GetUserByUsername username)) := by
  simp [userRepository.GetUserByUsername, hf, hr, errors.Is]

/-- C19, as the code has it. GetTenderStatus, UpdateTenderStatus, EditTender,
RollbackTenderVersion, GetBidStatus, UpdateBidStatus and EditBid report the
earliest failing step in the order format, existence (for rollback the tender,
then the History row), identity: a malformed id gives BadRequest whatever else
would fail; a well-formed id with no row gives the NotFound kind whoever the user
is; a stored row with an unknown username gives Unauthorized (tender) or
UserNotFound (bid). SubmitBidFeedback has no format step and reports existence
before identity. CreateBid resolves the user before the tender: an unknown user
gives Unauthorized whether or not the tender exists. GetBidsByTenderID resolves the
username before anything else: an unknown username gives UserNotFound whether or
not the tender id is well-formed. -/
theorem C19_validation_order (env : Env) (w : World) (id username : String)
    (status : String) (name description serviceType : Option String) (version : Int)
    (updates : List (String × Value)) (feedback : String)
    (bidDescription tenderID organizationID userID : String) (authorType : BidAuthorType)
    (limit offset : Int) :
    (env.uuidParse id = false →
      (tenderService.GetTenderStatus env id username w).1 = .error ErrBadRequest ∧
      (tenderService.UpdateTenderStatus env id status username w).1 = some ErrBadRequest ∧
      (tenderService.EditTender env id username name description serviceType w).1
        = some ErrBadRequest ∧
      (tenderService.RollbackTenderVersion env id version username w).1 = some ErrBadRequest ∧
      (bidService.GetBidStatus env id username w).1 = .error ErrBadRequest ∧
      (bidService.UpdateBidStatus env id status username w).1 = some ErrBadRequest ∧
      (bidService.EditBid env id username updates w).1 = some ErrBadRequest) ∧
    (env.uuidParse id = true → w.quiet 1 → w.db.tenderByID id = none →
      (tenderService.GetTenderStatus env id username w).1 = .error ErrTenderNotFound ∧
      (tenderService.UpdateTenderStatus env id status username w).1 = some ErrTenderNotFound ∧
      (tenderService.EditTender env id username name description serviceType w).1
        = some ErrTenderNotFound ∧
      (tenderService.RollbackTenderVersion env id version username w).1
        = some ErrTenderNotFound) ∧
    (env.uuidParse id = true → w.quiet 1 → w.db.bidByID id = none →
      (bidService.GetBidStatus env id username w).1 = .error ErrBidNotFound ∧
      (bidService.UpdateBidStatus env id status username w).1 = some ErrBidNotFound ∧
      (bidService.EditBid env id username updates w).1 = some ErrBidNotFound) ∧
    (∀ t, env.uuidParse id = true → w.quiet 2 → w.db.tenderByID id = some t →
      w.db.historyByVersion id version = none →
      (tenderService.RollbackTenderVersion env id version username w).1
        = some ErrTenderHistoryNotFound) ∧
    (∀ t, env.uuidParse id = true → w.quiet 2 → w.db.tenderByID id = some t →
      w.db.userByUsername username = none →
      (tenderService.GetTenderStatus env id username w).1 = .error ErrUnauthorized ∧
      (tenderService.UpdateTenderStatus env id status username w).1 = some ErrUnauthorized ∧
      (tenderService.EditTender env id username name description serviceType w).1
        = some ErrUnauthorized) ∧
    (∀ t h, env.uuidParse id = true → w.quiet 3 → w.db.tenderByID id = some t →
      w.db.historyByVersion id version = some h → w.db.userByUsername username = none →
      (tenderService.RollbackTenderVersion env id version username w).1
        = some ErrUnauthorized) ∧
    (∀ b, env.uuidParse id = true → w.quiet 2 → w.db.bidByID id = some b →
      w.db.userByUsername username = none →
      (bidService.GetBidStatus env id username w).1 = .error ErrUserNotFound ∧
      (bidService.UpdateBidStatus env id status username w).1 = some ErrUserNotFound ∧
      (bidService.EditBid env id username updates w).1 = some ErrUserNotFound) ∧
    ((w.quiet 1 → w.db.bidByID id = none →
        (bidService.SubmitBidFeedback id username feedback w).1 = .error ErrBidNotFound) ∧
      (∀ b, w.quiet 2 → w.db.bidByID id = some b → w.db.userByUsername username = none →
        (bidService.SubmitBidFeedback id username feedback w).1 = .error ErrUserNotFound)) ∧
    (env.uuidParse tenderID = true → env.uuidParse organizationID = true →
      env.uuidParse userID = true → w.quiet 1 → w.db.userByID userID = none →
      (bidService.CreateBid env bidDescription tenderID organizationID userID authorType w).1
        = .error ErrUnauthorized) ∧
    (w.quiet 1 → w.db.userByUsername username = none →
      (bidService.GetBidsByTenderID env tenderID username limit offset w).1
        = .error ErrUserNotFound) := by
  refine ⟨?_, ?_, ?_, ?_, ?_, ?_, ?_, ⟨?_, ?_⟩, ?_, ?_⟩
  · intro hbad
    refine ⟨?_, ?_, ?_, ?_, ?_, ?_, ?_⟩
    · simp [tenderService.GetTenderStatus, hbad]
    · simp [tenderService.UpdateTenderStatus, hbad]
    · simp [tenderService.EditTender, hbad]
    · simp [tenderService.RollbackTenderVersion, hbad]
    · simp [bidService.GetBidStatus, hbad]
    · simp [bidService.UpdateBidStatus, hbad]
    · simp [bidService.EditBid, hbad]
  · intro hid hq hnone
    have hget := getTenderByID_missing id w (quiet_fault w 0 hq) hnone
    refine ⟨?_, ?_, ?_, ?_⟩
    · simp [tenderService.GetTenderStatus, hid, hget, errors.Is]
    · simp [tenderService.UpdateTenderStatus, hid, hget, errors.Is]
    · simp [tenderService.EditTender, hid, hget, errors.Is]
    · simp [tenderService.RollbackTenderVersion, hid, hget, errors.Is]
  · intro hid hq hnone
    have hget := getBidByID_missing id w (quiet_fault w 0 hq) hnone
    refine ⟨?_, ?_, ?_⟩
    · simp [bidService.GetBidStatus, hid, hget]
    · simp [bidService.UpdateBidStatus, hid, hget]
    · simp [bidService.EditBid, hid, hget]
  · intro t hid hq ht hh
    rw [rollbackTenderVersion_noHistory env w id username version t hid ht hh hq]
  · intro t hid hq ht hu
    have hget := getTenderByID_found id w t (quiet_fault w 1 hq) ht
    have huser := getUserIDByUsername_missing username (w.tick (.GetTenderByID id))
      (quiet_fault _ 0 (quiet_tick w (.GetTenderByID id) 1 hq)) (by rw [tick_db]; exact hu)
    refine ⟨?_, ?_, ?_⟩
    · simp [tenderService.GetTenderStatus, hid, hget, huser]
    · simp [tenderService.UpdateTenderStatus, hid, hget, huser]
    · simp [tenderService.EditTender, hid, hget, huser]
  · intro t h hid hq ht hh hu
    have q1 := quiet_tick w (.GetTenderByID id) 2 hq
    have q2 := quiet_tick _ (.GetTenderHistoryByVersion id version) 1 q1
    have hget := getTenderByID_found id w t (quiet_fault w 2 hq) ht
    have hhist := getTenderHistoryByVersion_found id version (w.tick (.GetTenderByID id)) h
      (quiet_fault _ 1 q1) (by rw [tick_db]; exact hh)
    have huser := getUserIDByUsername_missing username
      ((w.tick (.GetTenderByID id)).tick (.GetTenderHistoryByVersion id version))
      (quiet_fault _ 0 q2) (by simp only [tick_db]; exact hu)
    simp [tenderService.RollbackTenderVersion, hid, hget, hhist, huser]
  · intro b hid hq hb hu
    have hget := getBidByID_found id w b (quiet_fault w 1 hq) hb
    have huser := getUserByUsername_missing username (w.tick (.GetBidByID id))
      (quiet_fault _ 0 (quiet_tick w (.GetBidByID id) 1 hq)) (by rw [tick_db]; exact hu)
    refine ⟨?_, ?_, ?_⟩
    · simp [bidService.GetBidStatus, hid, hget, huser]
    · simp [bidService.UpdateBidStatus, hid, hget, huser]
    · simp [bidService.EditBid, hid, hget, huser]
  · intro hq hnone
    simp [bidService.SubmitBidFeedback, getBidByID_missing id w (quiet_fault w 0 hq) hnone]
  · intro b hq hb hu
    have hget := getBidByID_found id w b (quiet_fault w 1 hq) hb
    have huser := getUserByUsername_missing username (w.tick (.GetBidByID id))
      (quiet_fault _ 0 (quiet_tick w (.GetBidByID id) 1 hq)) (by rw [tick_db]; exact hu)
    simp [bidService.SubmitBidFeedback, hget, huser]
  · intro h1 h2 h3 hq hu
    simp [bidService.CreateBid, h1, h2, h3,
      getUserByID_missing userID w (quiet_fault w 0 hq) hu, errors.Is]
  · intro hq hu
    rw [getBidsByTenderID_unresolved env w tenderID username limit offset
      (by simp [hu])]

/-- C19 at the sample data: a user id under which no user is stored gets
Unauthorized from CreateBid, and an unknown username gets UserNotFound from
GetBidsByTenderID. -/
theorem C19_validation_order_witness :
    (bidService.CreateBid sample.env "desc" sample.tenderId sample.orgId sample.strangerId
      "User" sample.world).1 = .error ErrUnauthorized ∧
    (bidService.GetBidsByTenderID sample.env sample.tenderId "nobody" 5 0 sample.world).1
      = .error ErrUserNotFound :=
  have h := C19_validation_order sample.env sample.world sample.tenderId "nobody" "CLOSED"
    none none none 1 [] "fine" "desc" sample.tenderId sample.orgId sample.strangerId "User" 5 0
  ⟨h.2.2.2.2.2.2.2.2.1 (by rfl) (by rfl) (by rfl) (by decide) (by rfl),
    h.2.2.2.2.2.2.2.2.2 (by decide) (by rfl)⟩

/-- C19 as stated fails on both of its examples: GetBidsByTenderID with the
malformed tender id "42" and an unknown username returns UserNotFound, not
BadRequest; CreateBid with well-formed ids, no tender stored under the tender id
and no user stored under the user id returns Unauthorized, not TenderNotFound. -/
theorem C19_counterexample :
    (sample.env.uuidParse "42" = false ∧ sample.world.db.userByUsername "nobody" = none ∧
      (bidService.GetBidsByTenderID sample.env "42" "nobody" 5 0 sample.world).1
        = .error ErrUserNotFound) ∧
    (sample.env.uuidParse sample.bidId = true ∧ sample.env.uuidParse sample.orgId = true ∧
      sample.env.uuidParse sample.strangerId = true ∧
      sample.world.db.tenderByID sample.bidId = none ∧
      sample.world.db.userByID sample.strangerId = none ∧
      (bidService.CreateBid sample.env "desc" sample.bidId sample.orgId sample.strangerId
        "User" sample.world).1 = .error ErrUnauthorized) ∧
    (Err.ErrUserNotFound ≠ Err.ErrBadRequest ∧ Err.ErrUnauthorized ≠ Err.ErrTenderNotFound) :=
  ⟨⟨by rfl, by rfl, by rfl⟩, ⟨by rfl, by rfl, by rfl, by rfl, by rfl, by rfl⟩,
    ⟨by decide, by decide⟩⟩

/-- C20 on the code: with the connection breaking at the username lookup,
GetTenderStatus, UpdateTenderStatus, EditTender and RollbackTenderVersion return
Unauthorized, and GetBidStatus and GetBidsByTenderID return UserNotFound, in place
of the driver error; CreateTender, in the same situation, returns the driver error
unchanged. -/
theorem C20_driver_error_turned_into_domain_kind :
    (tenderService.GetTenderStatus sample.env sample.tenderId "alice" sample.outage).1
      = .error ErrUnauthorized ∧
    (tenderService.UpdateTenderStatus sample.env sample.tenderId "CLOSED" "alice"
      sample.outage).1 = some ErrUnauthorized ∧
    (tenderService.EditTender sample.env sample.tenderId "alice" (some "New") none none
      sample.outage).1 = some ErrUnauthorized ∧
    (tenderService.RollbackTenderVersion sample.env sample.tenderId 1 "alice"
      { sample.world with faults := [none, none, some "connection refused"] }).1
      = some ErrUnauthorized ∧
    (bidService.GetBidStatus sample.env sample.bidId "carol" sample.outage).1
      = .error ErrUserNotFound ∧
    (bidService.GetBidsByTenderID sample.env sample.tenderId "bob" 5 0 sample.down).1
      = .error ErrUserNotFound ∧
    (tenderService.CreateTender sample.env sample.draft "alice" sample.down).1
      = .error (driver "connection refused") :=
  ⟨by rfl, by rfl, by rfl, by rfl, by rfl, by rfl, by rfl⟩

/-! ## A username that resolves to no user -/

theorem getTenderStatus_unresolved (env : Env) (w : World) (tenderId username : String)
    (t : Tender) (hid : env.uuidParse tenderId = true)
    (ht : w.db.tenderByID tenderId = some t)
    (hu : w.db.userByUsername username = none) (hq : w.quiet 2) :
    tenderService.GetTenderStatus env tenderId username w =
      (.error ErrUnauthorized,
       (w.tick (.GetTenderByID tenderId)).tick (.FindUserIDByUsername username)) := by
  have h1 := quiet_fault w 1 hq
  have h2 := quiet_fault _ 0 (quiet_tick w (.GetTenderByID tenderId) 1 hq)
  simp [tenderService.GetTenderStatus, hid, getTenderByID_found tenderId w t h1 ht,
    getUserIDByUsername_missing username _ h2 (by rw [tick_db]; exact hu)]

theorem updateTenderStatus_unresolved (env : Env) (w : World) (tenderId username : String)
    (status : TenderStatus) (t : Tender) (hid : env.uuidParse tenderId = true)
    (ht : w.db.tenderByID tenderId = some t)
    (hu : w.db.userByUsername username = none) (hq : w.quiet 2) :
    tenderService.UpdateTenderStatus env tenderId status username w =
      (some ErrUnauthorized,
       (w.tick (.GetTenderByID tenderId)).tick (.FindUserIDByUsername username)) := by
  have h1 := quiet_fault w 1 hq
  have h2 := quiet_fault _ 0 (quiet_tick w (.GetTenderByID tenderId) 1 hq)
  simp [tenderService.UpdateTenderStatus, hid, getTenderByID_found tenderId w t h1 ht,
    getUserIDByUsername_missing username _ h2 (by rw [tick_db]; exact hu)]

theorem editTender_unresolved (env : Env) (w : World) (tenderId username : String)
    (name description serviceType : Option String) (t : Tender)
    (hid : env.uuidParse tenderId = true)
    (ht : w.db.tenderByID tenderId = some t)
    (hu : w.db.userByUsername username = none) (hq : w.quiet 2) :
    tenderService.EditTender env tenderId username name description serviceType w =
      (some ErrUnauthorized,
       (w.tick (.GetTenderByID tenderId)).tick (.FindUserIDByUsername username)) := by
  have h1 := quiet_fault w 1 hq
  have h2 := quiet_fault _ 0 (quiet_tick w (.GetTenderByID tenderId) 1 hq)
  simp [tenderService.EditTender, hid, getTenderByID_found tenderId w t h1 ht,
    getUserIDByUsername_missing username _ h2 (by rw [tick_db]; exact hu)]

theorem rollbackTenderVersion_unresolved (env : Env) (w : World) (tenderId username : String)
    (version : Int) (t : Tender) (h : TenderHistory) (hid : env.uuidParse tenderId = true)
    (ht : w.db.tenderByID tenderId = some t)
    (hh : w.db.historyByVersion tenderId version = some h)
    (hu : w.db.userByUsername username = none) (hq : w.quiet 3) :
    tenderService.RollbackTenderVersion env tenderId version username w =
      (some ErrUnauthorized,
       ((w.tick (.GetTenderByID tenderId)).tick (.GetTenderHistoryByVersion tenderId version)).tick
         (.FindUserIDByUsername username)) := by
  have h1 := quiet_fault w 2 hq
  have q1 := quiet_tick w (.GetTenderByID tenderId) 2 hq
  have h2 := quiet_fault _ 1 q1
  have h3 := quiet_fault _ 0 (quiet_tick _ (.GetTenderHistoryByVersion tenderId version) 1 q1)
  simp [tenderService.RollbackTenderVersion, hid, getTenderByID_found tenderId w t h1 ht,
    getTenderHistoryByVersion_found tenderId version _ h h2 (by rw [tick_db]; exact hh),
    getUserIDByUsername_missing username _ h3 (by simp only [tick_db]; exact hu)]

theorem getUserBids_unresolved (env : Env) (w : World) (username : String)
    (limit offset : Int) (hf : w.fault = none) (hu : w.db.userByUsername username = none) :
    bidService.GetUserBids env username limit offset w =
      (.error ErrUserNotFound, w.tick (.GetUserByUsername username)) := by
  simp [bidService.GetUserBids, getUserByUsername_missing username w hf hu, errors.Is]

theorem getBidStatus_unresolved (env : Env) (w : World) (bidID username : String) (b : Bid)
    (hid : env.uuidParse bidID = true) (hb : w.db.bidByID bidID = some b)
    (hu : w.db.userByUsername username = none) (hq : w.quiet 2) :
    bidService.GetBidStatus env bidID username w =
      (.error ErrUserNotFound, (w.tick (.GetBidByID bidID)).tick (.GetUserByUsername username)) := by
  have h1 := quiet_fault w 1 hq
  have h2 := quiet_fault _ 0 (quiet_tick w (.GetBidByID bidID) 1 hq)
  simp [bidService.GetBidStatus, hid, getBidByID_found bidID w b h1 hb,
    getUserByUsername_missing username _ h2 (by rw [tick_db]; exact hu)]

theorem updateBidStatus_unresolved (env : Env) (w : World) (bidID status username : String)
    (b : Bid) (hid : env.uuidParse bidID = true) (hb : w.db.bidByID bidID = some b)
    (hu : w.db.userByUsername username = none) (hq : w.quiet 2) :
    bidService.UpdateBidStatus env bidID status username w =
      (some ErrUserNotFound, (w.tick (.GetBidByID bidID)).tick (.GetUserByUsername username)) := by
  have h1 := quiet_fault w 1 hq
  have h2 := quiet_fault _ 0 (quiet_tick w (.GetBidByID bidID) 1 hq)
  simp [bidService.UpdateBidStatus, hid, getBidByID_found bidID w b h1 hb,
    getUserByUsername_missing username _ h2 (by rw [tick_db]; exact hu)]

theorem editBid_unresolved (env : Env) (w : World) (bidID username : String)
    (updates : List (String × Value))
    (b : Bid) (hid : env.uuidParse bidID = true) (hb : w.db.bidByID bidID = some b)
    (hu : w.db.userByUsername username = none) (hq : w.quiet 2) :
    bidService.EditBid env bidID username updates w =
      (some ErrUserNotFound, (w.tick (.GetBidByID bidID)).tick (.GetUserByUsername username)) := by
  have h1 := quiet_fault w 1 hq
  have h2 := quiet_fault _ 0 (quiet_tick w (.GetBidByID bidID) 1 hq)
  simp [bidService.EditBid, hid, getBidByID_found bidID w b h1 hb,
    getUserByUsername_missing username _ h2 (by rw [tick_db]; exact hu)]

theorem submitBidFeedback_unresolved (w : World) (bidID username feedback : String)
    (b : Bid) (hb : w.db.bidByID bidID = some b)
    (hu : w.db.userByUsername username = none) (hq : w.quiet 2) :
    bidService.SubmitBidFeedback bidID username feedback w =
      (.error ErrUserNotFound, (w.tick (.GetBidByID bidID)).tick (.GetUserByUsername username)) := by
  have h1 := quiet_fault w 1 hq
  have h2 := quiet_fault _ 0 (quiet_tick w (.GetBidByID bidID) 1 hq)
  simp [bidService.SubmitBidFeedback, getBidByID_found bidID w b h1 hb,
    getUserByUsername_missing username _ h2 (by rw [tick_db]; exact hu)]

/-- C21: when the username resolves to no user (the lookup runs on a round trip the
driver does not fail and finds no row) and every earlier check passes (the
identifier is well-formed and the tender, the history row or the bid it names is
stored), CreateTender, GetTenderStatus, UpdateTenderStatus, EditTender and
RollbackTenderVersion return Unauthorized, while GetUserBids, GetBidsByTenderID,
GetBidStatus, UpdateBidStatus, EditBid and SubmitBidFeedback return UserNotFound. -/
theorem C21_unresolved_username_kind (env : Env) (w : World) (username : String)
    (hq : w.quiet 3) (hu : w.db.userByUsername username = none) :
    (∀ tender, (tenderService.CreateTender env tender username w).1 = .error ErrUnauthorized) ∧
    (∀ tenderId t, env.uuidParse tenderId = true → w.db.tenderByID tenderId = some t →
      (tenderService.GetTenderStatus env tenderId username w).1 = .error ErrUnauthorized ∧
      (∀ status, (tenderService.UpdateTenderStatus env tenderId status username w).1
        = some ErrUnauthorized) ∧
      (∀ name description serviceType,
        (tenderService.EditTender env tenderId username name description serviceType w).1
          = some ErrUnauthorized) ∧
      (∀ version h, w.db.historyByVersion tenderId version = some h →
        (tenderService.RollbackTenderVersion env tenderId version username w).1
          = some ErrUnauthorized)) ∧
    (∀ limit offset,
      (bidService.GetUserBids env username limit offset w).1 = .error ErrUserNotFound) ∧
    (∀ tenderID limit offset,
      (bidService.GetBidsByTenderID env tenderID username limit offset w).1
        = .error ErrUserNotFound) ∧
    (∀ bidID b, env.uuidParse bidID = true → w.db.bidByID bidID = some b →
      (bidService.GetBidStatus env bidID username w).1 = .error ErrUserNotFound ∧
      (∀ status, (bidService.UpdateBidStatus env bidID status username w).1
        = some ErrUserNotFound) ∧
      (∀ updates, (bidService.EditBid env bidID username updates w).1 = some ErrUserNotFound)) ∧
    (∀ bidID b feedback, w.db.bidByID bidID = some b →
      (bidService.SubmitBidFeedback bidID username feedback w).1 = .error ErrUserNotFound) := by
  have q2 := quiet_le w 2 3 (by omega) hq
  have hf := quiet_fault w 2 hq
  refine ⟨?_, ?_, ?_, ?_, ?_, ?_⟩
  · intro tender
    rw [createTender_unresolved env w tender username hf hu]
  · intro tenderId t hid ht
    refine ⟨?_, ?_, ?_, ?_⟩
    · rw [getTenderStatus_unresolved env w tenderId username t hid ht hu q2]
    · intro status
      rw [updateTenderStatus_unresolved env w tenderId username status t hid ht hu q2]
    · intro name description serviceType
      rw [editTender_unresolved env w tenderId username name description serviceType t hid ht
        hu q2]
    · intro version h hh
      rw [rollbackTenderVersion_unresolved env w tenderId username version t h hid ht hh hu hq]
  · intro limit offset
    rw [getUserBids_unresolved env w username limit offset hf hu]
  · intro tenderID limit offset
    rw [getBidsByTenderID_unresolved env w tenderID username limit offset (by simp [hu])]
  · intro bidID b hid hb
    refine ⟨?_, ?_, ?_⟩
    · rw [getBidStatus_unresolved env w bidID username b hid hb hu q2]
    · intro status
      rw [updateBidStatus_unresolved env w bidID status username b hid hb hu q2]
    · intro updates
      rw [editBid_unresolved env w bidID username updates b hid hb hu q2]
  · intro bidID b feedback hb
    rw [submitBidFeedback_unresolved w bidID username feedback b hb hu q2]

/-- C21 at the sample data: the username "nobody" is not stored; on the sample
tender RollbackTenderVersion to version 1 returns Unauthorized, and on the sample
bid UpdateBidStatus returns UserNotFound, as does GetUserBids. -/
theorem C21_unresolved_username_kind_witness :
    sample.world.quiet 3 ∧ sample.world.db.userByUsername "nobody" = none ∧
    (tenderService.RollbackTenderVersion sample.env sample.tenderId 1 "nobody"
      sample.world).1 = some ErrUnauthorized ∧
    (bidService.UpdateBidStatus sample.env sample.bidId "CANCELED" "nobody" sample.world).1
      = some ErrUserNotFound ∧
    (bidService.GetUserBids sample.env "nobody" 5 0 sample.world).1 = .error ErrUserNotFound :=
  have h := C21_unresolved_username_kind sample.env sample.world "nobody" (by decide) (by rfl)
  ⟨by decide, by rfl,
    (h.2.1 sample.tenderId sample.road (by rfl) (by rfl)).2.2.2 1 sample.roadV1 (by rfl),
    (h.2.2.2.2.1 sample.bidId sample.offer (by rfl) (by rfl)).2.1 "CANCELED",
    h.2.2.1 5 0⟩

/-! ## The version check of RollbackTenderVersion -/

theorem rollbackTenderVersion_noTender (env : Env) (w : World) (tenderId username : String)
    (version : Int) (hid : env.uuidParse tenderId = true)
    (ht : w.db.tenderByID tenderId = none) (hf : w.fault = none) :
    tenderService.RollbackTenderVersion env tenderId version username w =
      (some ErrTenderNotFound, w.tick (.GetTenderByID tenderId)) := by
  simp [tenderService.RollbackTenderVersion, hid, getTenderByID_missing tenderId w hf ht,
    errors.Is]

/-- C22, as the code has it: whenever the version path value is not numeric or is
not positive, the RollbackTenderVersion handler answers 400 and leaves the world as
it was, so the Tender Lifecycle operation is not called and no tender or history
lookup is made; the operation itself makes no check of the version: called directly
with a well-formed tender id and any version, it looks up the tender (TenderNotFound
when there is none) and then the History row for the version as given
(TenderHistoryNotFound when there is none). -/
theorem C22_rollback_version_check_in_handler (env : Env) (w : World)
    (tenderId versionStr username : String)
    (hbad : env.atoi versionStr = none ∨ ∃ v, env.atoi versionStr = some v ∧ v ≤ 0) :
    ((TenderHandler.RollbackTenderVersion env tenderId versionStr username w).1.statusCode
        = http.StatusBadRequest ∧
      (TenderHandler.RollbackTenderVersion env tenderId versionStr username w).2 = w) ∧
    (username ≠ "" →
      (TenderHandler.RollbackTenderVersion env tenderId versionStr username w).1
        = utils.WriteErrorResponse http.StatusBadRequest "Invalid version number") ∧
    (∀ version, env.uuidParse tenderId = true → w.quiet 1 → w.db.tenderByID tenderId = none →
      tenderService.RollbackTenderVersion env tenderId version username w
        = (some ErrTenderNotFound, w.tick (.GetTenderByID tenderId))) ∧
    (∀ version t, env.uuidParse tenderId = true → w.quiet 2 →
      w.db.tenderByID tenderId = some t → w.db.historyByVersion tenderId version = none →
      tenderService.RollbackTenderVersion env tenderId version username w
        = (some ErrTenderHistoryNotFound,
            (w.tick (.GetTenderByID tenderId)).tick
              (.GetTenderHistoryByVersion tenderId version))) := by
  refine ⟨?_, ?_, ?_, ?_⟩
  · unfold TenderHandler.RollbackTenderVersion
    by_cases h1 : (username == "") = true
    · simp [h1, utils.WriteErrorResponse]
    · rcases hbad with h | ⟨v, h, hv⟩
      · simp [h1, h, utils.WriteErrorResponse]
      · simp [h1, h, hv, utils.WriteErrorResponse]
  · intro hne
    unfold TenderHandler.RollbackTenderVersion
    rcases hbad with h | ⟨v, h, hv⟩
    · simp [hne, h]
    · simp [hne, h, hv]
  · intro version hid hq ht
    exact rollbackTenderVersion_noTender env w tenderId username version hid ht
      (quiet_fault w 0 hq)
  · intro version t hid hq ht hh
    exact rollbackTenderVersion_noHistory env w tenderId username version t hid ht hh hq

/-- C22 at the sample data: the version path values "0", "-1" and "abc" get 400
with the reason "Invalid version number" from the handler, which records no round
trip. -/
theorem C22_rollback_version_check_in_handler_witness :
    (TenderHandler.RollbackTenderVersion sample.env sample.tenderId "0" "alice"
      sample.world).1 = { statusCode := 400, body := .reason "Invalid version number" } ∧
    (TenderHandler.RollbackTenderVersion sample.env sample.tenderId "0" "alice"
      sample.world).2 = sample.world ∧
    (TenderHandler.RollbackTenderVersion sample.env sample.tenderId "abc" "alice"
      sample.world).1.statusCode = http.StatusBadRequest ∧
    (TenderHandler.RollbackTenderVersion sample.env sample.tenderId "abc" "alice"
      sample.world).2 = sample.world :=
  have h0 := C22_rollback_version_check_in_handler sample.env sample.world sample.tenderId
    "0" "alice" (Or.inr ⟨0, by rfl, by decide⟩)
  have h1 := C22_rollback_version_check_in_handler sample.env sample.world sample.tenderId
    "abc" "alice" (Or.inl (by rfl))
  ⟨h0.2.1 (by decide), h0.1.2, h1.1.1, h1.1.2⟩

/-- C22 as stated fails: called with version 0, and with version -1, on the sample
tender, the Tender Lifecycle operation RollbackTenderVersion looks up the tender
and then the History row, and returns TenderHistoryNotFound, not BadRequest. -/
theorem C22_counterexample :
    (tenderService.RollbackTenderVersion sample.env sample.tenderId 0 "alice"
      sample.world).1 = some ErrTenderHistoryNotFound ∧
    (tenderService.RollbackTenderVersion sample.env sample.tenderId 0 "alice"
      sample.world).2.calls
      = [Call.GetTenderByID sample.tenderId, Call.GetTenderHistoryByVersion sample.tenderId 0] ∧
    (tenderService.RollbackTenderVersion sample.env sample.tenderId (-1) "alice"
      sample.world).1 = some ErrTenderHistoryNotFound ∧
    (tenderService.RollbackTenderVersion sample.env sample.tenderId (-1) "alice"
      sample.world).2.calls
      = [Call.GetTenderByID sample.tenderId,
         Call.GetTenderHistoryByVersion sample.tenderId (-1)] ∧
    some Err.ErrTenderHistoryNotFound ≠ some Err.ErrBadRequest :=
  ⟨by rfl, by rfl, by rfl, by rfl, by decide⟩

/-! ## The UPDATE of a status -/

theorem bidByID_id (db : DB) (bidID : String) (b : Bid)
    (hb : db.bidByID bidID = some b) : b.ID = bidID := by
  have h := List.find?_some hb
  simpa using h

theorem repoUpdateBidStatus_ok (bidID : String) (status : BidStatus) (w : World) (b : Bid)
    (hf : w.fault = none) (hb : w.db.bidByID bidID = some b) :
    (bidRepository.UpdateBidStatus bidID status w).1 = none ∧
    (bidRepository.UpdateBidStatus bidID status w).2.db.bidByID bidID
      = some { b with Status := status, UpdatedAt := toString w.now } := by
  have hid := bidByID_id w.db bidID b hb
  have hfun : ((fun r : Bid => r.ID == bidID) ∘
      (fun r : Bid =>
        if r.ID == bidID then { r with Status := status, UpdatedAt := toString w.now } else r))
      = (fun r : Bid => r.ID == bidID) := by
    funext r
    by_cases hr : r.ID = bidID
    · simp [hr]
    · simp [hr]
  refine ⟨by simp [bidRepository.UpdateBidStatus, hf, hb], ?_⟩
  unfold DB.bidByID at hb
  simp only [bidRepository.UpdateBidStatus, hf, DB.bidByID, hb, List.find?_map, hfun,
    Option.map_some']
  simp [hid]

/-- C23: no transition legality. For every caller who is the tender's creator or
responsible for its organization, every prior status of the stored tender and every
requested status value, UpdateTenderStatus succeeds (the driver failing none of its
four round trips) and the stored tender afterwards has the requested status and
its former name, description, service type, organization id and creator id. For
the bid's author and every status string, UpdateBidStatus succeeds (three round
trips) and the stored bid afterwards is the former one with its status set to
exactly that string and a new update time. -/
theorem C23_no_transition_legality (env : Env) (w : World) (username : String) (e : User)
    (hu : w.db.userByUsername username = some e) :
    (∀ tenderId status t, env.uuidParse tenderId = true → w.quiet 4 →
      w.db.tenderByID tenderId = some t →
      (t.CreatorID = e.ID ∨ w.db.isResponsible e.ID t.OrganizationID = true) →
      (tenderService.UpdateTenderStatus env tenderId status username w).1 = none ∧
      ∃ t1, (tenderService.UpdateTenderStatus env tenderId status username w).2.db.tenderByID
          tenderId = some t1 ∧
        t1.Status = status ∧ t1.Name = t.Name ∧ t1.Description = t.Description ∧
        t1.ServiceType = t.ServiceType ∧ t1.OrganizationID = t.OrganizationID ∧
        t1.CreatorID = t.CreatorID) ∧
    (∀ bidID status b, env.uuidParse bidID = true → w.quiet 3 →
      w.db.bidByID bidID = some b → b.UserID = e.ID →
      (bidService.UpdateBidStatus env bidID status username w).1 = none ∧
      ∃ now, (bidService.UpdateBidStatus env bidID status username w).2.db.bidByID bidID
        = some { b with Status := status, UpdatedAt := now }) := by
  refine ⟨?_, ?_⟩
  · intro tenderId status t hid hq ht hauth
    have q3 : w.quiet 3 := quiet_le w 3 4 (by omega) hq
    have h4 := fault_after3 w (.GetTenderByID tenderId) (.FindUserIDByUsername username)
      (.IsUserResponsibleForOrganization e.ID t.OrganizationID) hq
    have hc : ¬ ((t.CreatorID != e.ID && !w.db.isResponsible e.ID t.OrganizationID) = true) := by
      rcases hauth with h | h <;> simp [h]
    rw [updateTenderStatus_gate env w tenderId username status t e hid ht hu q3, if_neg hc,
      updateTenderStatus_ok _ _ _ h4]
    refine ⟨rfl, ?_⟩
    simp only [tick_db, tenderByID_id w.db tenderId t ht]
    exact ⟨_, updateTender_lookup env tenderId _ w.db t (fun _ => rfl) ht,
      rfl, rfl, rfl, rfl, rfl, rfl⟩
  · intro bidID status b hid hq hb hown
    have q2 : w.quiet 2 := quiet_le w 2 3 (by omega) hq
    have h3 : ((w.tick (.GetBidByID bidID)).tick (.GetUserByUsername username)).fault = none :=
      quiet_fault _ 0 (quiet_tick _ (.GetUserByUsername username) 1
        (quiet_tick w (.GetBidByID bidID) 2 hq))
    have hc : ¬ ((b.UserID != e.ID) = true) := by simp [hown]
    rw [updateBidStatus_gate env w bidID status username b e hid hb hu q2, if_neg hc]
    have h := repoUpdateBidStatus_ok bidID status
      ((w.tick (.GetBidByID bidID)).tick (.GetUserByUsername username)) b h3
      (by simp only [tick_db]; exact hb)
    exact ⟨h.1, _, h.2⟩

/-- C23 at the sample data: bob, responsible for the organization, sets the
published sample tender back to CREATED, and carol sets her bid to a status outside
the three named values. -/
theorem C23_no_transition_legality_witness :
    (tenderService.UpdateTenderStatus sample.env sample.tenderId "CREATED" "bob"
      sample.world).1 = none ∧
    (∃ t1, (tenderService.UpdateTenderStatus sample.env sample.tenderId "CREATED" "bob"
        sample.world).2.db.tenderByID sample.tenderId = some t1 ∧
      t1.Status = "CREATED" ∧ t1.Name = sample.road.Name ∧
      t1.Description = sample.road.Description ∧ t1.ServiceType = sample.road.ServiceType ∧
      t1.OrganizationID = sample.road.OrganizationID ∧
      t1.CreatorID = sample.road.CreatorID) ∧
    (bidService.UpdateBidStatus sample.env sample.bidId "ARCHIVED" "carol" sample.world).1
      = none ∧
    (∃ now, (bidService.UpdateBidStatus sample.env sample.bidId "ARCHIVED" "carol"
        sample.world).2.db.bidByID sample.bidId
      = some { sample.offer with Status := "ARCHIVED", UpdatedAt := now }) :=
  have hb := C23_no_transition_legality sample.env sample.world "bob"
    { ID := sample.bobId, Username := "bob" } (by rfl)
  have hc := C23_no_transition_legality sample.env sample.world "carol"
    { ID := sample.carolId, Username := "carol" } (by rfl)
  have h1 := hb.1 sample.tenderId "CREATED" sample.road (by rfl) (by decide) (by rfl)
    (Or.inr (by rfl))
  have h2 := hc.2 sample.bidId "ARCHIVED" sample.offer (by rfl) (by decide) (by rfl) (by rfl)
  ⟨h1.1, h1.2, h2.1, h2.2⟩

/-! ## GetTenderStatus as a function of the database -/

theorem noWrite_foldl (cs : List Call) (w w1 : World) (h : w.noWrite w1)
    (hcs : ∀ c ∈ cs, c.isWrite = false) : w.noWrite (cs.foldl World.tick w1) := by
  induction cs generalizing w1 with
  | nil => exact h
  | cons c cs ih =>
    exact ih (w1.tick c) (noWrite_tick w w1 c h (hcs c (List.mem_cons_self c cs)))
      (fun x hx => hcs x (List.mem_cons_of_mem c hx))

theorem quiet_foldl (cs : List Call) (w : World) (n : Nat) (h : w.quiet (n + cs.length)) :
    (cs.foldl World.tick w).quiet n := by
  induction cs generalizing w with
  | nil => exact h
  | cons c cs ih =>
    refine ih (w.tick c) (quiet_tick w c (n + cs.length) ?_)
    simpa [Nat.add_assoc] using h

/-- The world after `tenderService.GetTenderStatus`: at most three round trips, all
of them reads. -/
theorem getTenderStatus_ticks (env : Env) (w : World) (tenderId username : String) :
    ∃ cs : List Call, cs.length ≤ 3 ∧ (∀ c ∈ cs, c.isWrite = false) ∧
      (tenderService.GetTenderStatus env tenderId username w).2 = cs.foldl World.tick w := by
  unfold tenderService.GetTenderStatus
  by_cases hid : env.uuidParse tenderId = false
  · rw [if_pos hid]; exact ⟨[], by simp, by simp, rfl⟩
  rw [if_neg hid]
  have hw1 := getTenderByID_world tenderId w
  rcases h1 : tenderRepository.GetTenderByID tenderId w with ⟨r1, w1⟩
  rw [h1] at hw1
  simp only at hw1
  subst hw1
  cases r1 with
  | error err =>
    refine ⟨[.GetTenderByID tenderId], by simp, by simp [Call.isWrite], ?_⟩
    simp only; split_ifs <;> rfl
  | ok tender =>
    simp only
    have hw2 := getUserIDByUsername_world username (w.tick (.GetTenderByID tenderId))
    rcases h2 : userService.GetUserIDByUsername username (w.tick (.GetTenderByID tenderId))
      with ⟨r2, w2⟩
    rw [h2] at hw2
    simp only at hw2
    subst hw2
    cases r2 with
    | error err =>
      exact ⟨[.GetTenderByID tenderId, .FindUserIDByUsername username], by simp,
        by simp [Call.isWrite], rfl⟩
    | ok userId =>
      simp only
      have hw3 := isUserResponsibleForOrganization_world userId tender.OrganizationID
        ((w.tick (.GetTenderByID tenderId)).tick (.FindUserIDByUsername username))
      rcases h3 : tenderRepository.IsUserResponsibleForOrganization userId
        tender.OrganizationID
        ((w.tick (.GetTenderByID tenderId)).tick (.FindUserIDByUsername username))
        with ⟨r3, w3⟩
      rw [h3] at hw3
      simp only at hw3
      subst hw3
      refine ⟨[.GetTenderByID tenderId, .FindUserIDByUsername username,
        .IsUserResponsibleForOrganization userId tender.OrganizationID], by simp,
        by simp [Call.isWrite], ?_⟩
      cases r3 with
      | error err => rfl
      | ok isResponsible => simp only; split_ifs <;> rfl

theorem getTenderStatus_noTender (env : Env) (w : World) (tenderId username : String)
    (hid : env.uuidParse tenderId = true)
    (ht : w.db.tenderByID tenderId = none) (hf : w.fault = none) :
    tenderService.GetTenderStatus env tenderId username w =
      (.error ErrTenderNotFound, w.tick (.GetTenderByID tenderId)) := by
  simp [tenderService.GetTenderStatus, hid, getTenderByID_missing tenderId w hf ht, errors.Is]

/-- With no round trip failed by the driver, the result of
`tenderService.GetTenderStatus` depends on the database alone. -/
theorem getTenderStatus_sameDB (env : Env) (w w1 : World) (tenderId username : String)
    (hdb : w1.db = w.db) (hq : w.quiet 3) (hq1 : w1.quiet 3) :
    (tenderService.GetTenderStatus env tenderId username w1).1
      = (tenderService.GetTenderStatus env tenderId username w).1 := by
  by_cases hid : env.uuidParse tenderId = false
  · simp [tenderService.GetTenderStatus, hid]
  have hid : env.uuidParse tenderId = true := by simpa using hid
  cases ht : w.db.tenderByID tenderId with
  | none =>
    rw [getTenderStatus_noTender env w tenderId username hid ht (quiet_fault w 2 hq),
      getTenderStatus_noTender env w1 tenderId username hid (by rw [hdb]; exact ht)
        (quiet_fault w1 2 hq1)]
  | some t =>
    cases hu : w.db.userByUsername username with
    | none =>
      rw [getTenderStatus_unresolved env w tenderId username t hid ht hu
          (quiet_le w 2 3 (by omega) hq),
        getTenderStatus_unresolved env w1 tenderId username t hid (by rw [hdb]; exact ht)
          (by rw [hdb]; exact hu) (quiet_le w1 2 3 (by omega) hq1)]
    | some e =>
      rw [getTenderStatus_gate env w tenderId username t e hid ht hu hq,
        getTenderStatus_gate env w1 tenderId username t e hid (by rw [hdb]; exact ht)
          (by rw [hdb]; exact hu) hq1, hdb]

/-- C24: GetTenderStatus is read-only and repeatable. For every world (database,
driver outcomes, clock), tender id and username it leaves every table as it was
and makes no INSERT or UPDATE round trip; and when the driver fails none of the
round trips, calling it a second time right after the first, with the same
arguments, returns the same result, status or error, and is again read-only. -/
theorem C24_get_tender_status_read_only_repeatable (env : Env) (w : World)
    (tenderId username : String) :
    w.noWrite (tenderService.GetTenderStatus env tenderId username w).2 ∧
    (w.quiet 6 →
      (tenderService.GetTenderStatus env tenderId username
        (tenderService.GetTenderStatus env tenderId username w).2).1
        = (tenderService.GetTenderStatus env tenderId username w).1 ∧
      w.noWrite (tenderService.GetTenderStatus env tenderId username
        (tenderService.GetTenderStatus env tenderId username w).2).2) := by
  obtain ⟨cs, hlen, hread, hw⟩ := getTenderStatus_ticks env w tenderId username
  have n1 : w.noWrite (tenderService.GetTenderStatus env tenderId username w).2 := by
    rw [hw]; exact noWrite_foldl cs w w (noWrite_refl w) hread
  refine ⟨n1, fun hq => ⟨?_, ?_⟩⟩
  · refine getTenderStatus_sameDB env w _ tenderId username n1.1
      (quiet_le w 3 6 (by omega) hq) ?_
    rw [hw]
    exact quiet_foldl cs w 3 (quiet_le w (3 + cs.length) 6 (by omega) hq)
  · obtain ⟨cs2, _, hread2, hw2⟩ := getTenderStatus_ticks env
      (tenderService.GetTenderStatus env tenderId username w).2 tenderId username
    rw [hw2]
    exact noWrite_foldl cs2 w _ n1 hread2

/-- C24 at the sample data: alice asks twice for the status of the sample tender
and gets PUBLISHED both times. -/
theorem C24_get_tender_status_read_only_repeatable_witness :
    sample.world.quiet 6 ∧
    (tenderService.GetTenderStatus sample.env sample.tenderId "alice" sample.world).1
      = .ok "PUBLISHED" ∧
    (tenderService.GetTenderStatus sample.env sample.tenderId "alice"
      (tenderService.GetTenderStatus sample.env sample.tenderId "alice" sample.world).2).1
      = (tenderService.GetTenderStatus sample.env sample.tenderId "alice" sample.world).1 :=
  ⟨by decide, by rfl,
    ((C24_get_tender_status_read_only_repeatable sample.env sample.world sample.tenderId
      "alice").2 (by decide)).1⟩

/-! ## The tender handlers -/

/-- Function `ParseTenderStatus` on one of the three status values: that value, no
error. -/
theorem parseTenderStatus_ok (s : String)
    (h : s = "CREATED" ∨ s = "PUBLISHED" ∨ s = "CLOSED") :
    models.ParseTenderStatus s = (s, none) := by
  rcases h with h | h | h <;> subst h <;> rfl

/-- C25: for each of the tender handlers GetTenderStatus, UpdateTenderStatus,
EditTender and RollbackTenderVersion, given a non-empty username and otherwise
valid parameters (a status among CREATED, PUBLISHED, CLOSED; a body that decodes; a
numeric, positive version), the HTTP status code is a function of the service
result alone: success 200, BadRequest 400, TenderNotFound 404,
TenderHistoryNotFound 404 for rollback, Unauthorized 401, Forbidden 403, any other
error 500; and the handler does nothing but call the service. -/
theorem C25_tender_handlers_status_code (env : Env) (w : World) (tenderId username : String)
    (hname : username ≠ "") :
    ((TenderHandler.GetTenderStatus env tenderId username w).1.statusCode
        = spec.tenderStatusCode false
            (errorOf (tenderService.GetTenderStatus env tenderId username w).1) ∧
      (TenderHandler.GetTenderStatus env tenderId username w).2
        = (tenderService.GetTenderStatus env tenderId username w).2) ∧
    (∀ statusStr, statusStr = "CREATED" ∨ statusStr = "PUBLISHED" ∨ statusStr = "CLOSED" →
      (TenderHandler.UpdateTenderStatus env tenderId statusStr username w).1.statusCode
        = spec.tenderStatusCode false
            (tenderService.UpdateTenderStatus env tenderId statusStr username w).1 ∧
      (TenderHandler.UpdateTenderStatus env tenderId statusStr username w).2
        = (tenderService.UpdateTenderStatus env tenderId statusStr username w).2) ∧
    (∀ request : EditTenderRequest,
      (TenderHandler.EditTender env tenderId username (some request) w).1.statusCode
        = spec.tenderStatusCode false
            (tenderService.EditTender env tenderId username request.Name request.Description
              request.ServiceType w).1 ∧
      (TenderHandler.EditTender env tenderId username (some request) w).2
        = (tenderService.EditTender env tenderId username request.Name request.Description
              request.ServiceType w).2) ∧
    (∀ versionStr version, env.atoi versionStr = some version → 0 < version →
      (TenderHandler.RollbackTenderVersion env tenderId versionStr username w).1.statusCode
        = spec.tenderStatusCode true
            (tenderService.RollbackTenderVersion env tenderId version username w).1 ∧
      (TenderHandler.RollbackTenderVersion env tenderId versionStr username w).2
        = (tenderService.RollbackTenderVersion env tenderId version username w).2) := by
  refine ⟨?_, ?_, ?_, ?_⟩
  · unfold TenderHandler.GetTenderStatus
    rcases tenderService.GetTenderStatus env tenderId username w with ⟨r, w1⟩
    cases r with
    | ok status => simp [hname, errorOf, spec.tenderStatusCode, http.StatusOK]
    | error err =>
      cases err <;>
        simp [hname, errorOf, spec.tenderStatusCode, errors.Is, utils.WriteErrorResponse,
          http.StatusBadRequest, http.StatusNotFound, http.StatusUnauthorized,
          http.StatusForbidden, http.StatusInternalServerError]
  · intro statusStr hs
    have hne : statusStr ≠ "" := by rcases hs with h | h | h <;> subst h <;> decide
    unfold TenderHandler.UpdateTenderStatus
    rw [parseTenderStatus_ok statusStr hs]
    rcases h : tenderService.UpdateTenderStatus env tenderId statusStr username w with ⟨r, w1⟩
    cases r with
    | none => simp [h, hname, hne, spec.tenderStatusCode, http.StatusOK]
    | some err =>
      cases err <;>
        simp [h, hname, hne, spec.tenderStatusCode, errors.Is, utils.WriteErrorResponse,
          http.StatusBadRequest, http.StatusNotFound, http.StatusUnauthorized,
          http.StatusForbidden, http.StatusInternalServerError]
  · intro request
    unfold TenderHandler.EditTender
    rcases h : tenderService.EditTender env tenderId username request.Name request.Description
      request.ServiceType w with ⟨r, w1⟩
    cases r with
    | none => simp [h, hname, spec.tenderStatusCode, http.StatusOK]
    | some err =>
      cases err <;>
        simp [h, hname, spec.tenderStatusCode, errors.Is, utils.WriteErrorResponse,
          http.StatusBadRequest, http.StatusNotFound, http.StatusUnauthorized,
          http.StatusForbidden, http.StatusInternalServerError]
  · intro versionStr version hv hpos
    have hnot : ¬ version ≤ 0 := by omega
    unfold TenderHandler.RollbackTenderVersion
    rcases h : tenderService.RollbackTenderVersion env tenderId version username w
      with ⟨r, w1⟩
    cases r with
    | none => simp [h, hname, hv, hnot, spec.tenderStatusCode, http.StatusOK]
    | some err =>
      cases err <;>
        simp [h, hname, hv, hnot, spec.tenderStatusCode, errors.Is, utils.WriteErrorResponse,
          http.StatusBadRequest, http.StatusNotFound, http.StatusUnauthorized,
          http.StatusForbidden, http.StatusInternalServerError]

/-- C25 at the sample data: rollback of the sample tender to version 5, of which
there is no History row, is answered 404; carol, unrelated to the tender, gets 403
for its status; bob closes it and gets 200. -/
theorem C25_tender_handlers_status_code_witness :
    (TenderHandler.RollbackTenderVersion sample.env sample.tenderId "5" "alice"
      sample.world).1.statusCode = 404 ∧
    (TenderHandler.GetTenderStatus sample.env sample.tenderId "carol"
      sample.world).1.statusCode = 403 ∧
    (TenderHandler.UpdateTenderStatus sample.env sample.tenderId "CLOSED" "bob"
      sample.world).1.statusCode = 200 :=
  ⟨((C25_tender_handlers_status_code sample.env sample.world sample.tenderId "alice"
      (by decide)).2.2.2 "5" 5 (by rfl) (by decide)).1.trans (by rfl),
    (C25_tender_handlers_status_code sample.env sample.world sample.tenderId "carol"
      (by decide)).1.1.trans (by rfl),
    ((C25_tender_handlers_status_code sample.env sample.world sample.tenderId "bob"
      (by decide)).2.1 "CLOSED" (Or.inr (Or.inr rfl))).1.trans (by rfl)⟩

/-! ## The bid handlers -/

/-- With a well-formed bid id, `bidService.EditBid` does not return BadRequest. -/
theorem editBid_notBadRequest (env : Env) (w : World) (bidID username : String)
    (updates : List (String × Value)) (hid : env.uuidParse bidID = true) :
    (bidService.EditBid env bidID username updates w).1 ≠ some ErrBadRequest := by
  unfold bidService.EditBid
  rw [if_neg (by simp [hid])]
  rcases e1 : bidRepository.GetBidByID bidID w with ⟨r1, w1⟩
  have c1 := getBidByID_cases bidID w
  rw [e1] at c1
  cases r1 with
  | error err =>
    rcases c1 with ⟨msg, _, h⟩ | ⟨_, _, h⟩ | ⟨r, _, _, h⟩ <;> simp at h <;> simp [h]
  | ok bid =>
    simp only
    rcases e2 : userRepository.GetUserByUsername username w1 with ⟨r2, w2⟩
    cases r2 with
    | error err => simp
    | ok user =>
      simp only
      split_ifs
      · simp
      · rw [option_result_eta]
        rcases repoEditBid_cases env bidID updates w2 with h | ⟨msg, h⟩ | ⟨h, _⟩ <;> simp [h]

/-- C26: for the bid handlers GetBidStatus, UpdateBidStatus, EditBid and
SubmitBidFeedback, given the required query parameters (and, for EditBid, a body
that decodes): a bid id that is not a well-formed UUID is answered 400 with the
reason "Invalid bid ID format" and no round trip is made; otherwise the handler
calls the service once and answers 404 "Bid not found" for BidNotFound, 401
"User not found" for UserNotFound, 403 "Insufficient permissions" for Forbidden,
500 for any other error and 200 for success. -/
theorem C26_bid_handlers_response (env : Env) (w : World) (bidID username : String)
    (hname : username ≠ "") :
    (env.uuidParse bidID = false →
      BidHandler.GetBidStatus env bidID username w
        = (utils.WriteErrorResponse 400 "Invalid bid ID format", w) ∧
      (∀ status, status ≠ "" → BidHandler.UpdateBidStatus env bidID status username w
        = (utils.WriteErrorResponse 400 "Invalid bid ID format", w)) ∧
      (∀ payload, BidHandler.EditBid env bidID username (some payload) w
        = (utils.WriteErrorResponse 400 "Invalid bid ID format", w)) ∧
      (∀ feedback, feedback ≠ "" → BidHandler.SubmitBidFeedback env bidID username feedback w
        = (utils.WriteErrorResponse 400 "Invalid bid ID format", w))) ∧
    (env.uuidParse bidID = true →
      (spec.bidAnswer (BidHandler.GetBidStatus env bidID username w).1
          (errorOf (bidService.GetBidStatus env bidID username w).1) ∧
        (BidHandler.GetBidStatus env bidID username w).2
          = (bidService.GetBidStatus env bidID username w).2) ∧
      (∀ status, status ≠ "" →
        spec.bidAnswer (BidHandler.UpdateBidStatus env bidID status username w).1
          (bidService.UpdateBidStatus env bidID status username w).1 ∧
        (BidHandler.UpdateBidStatus env bidID status username w).2
          = (bidService.UpdateBidStatus env bidID status username w).2) ∧
      (∀ payload,
        spec.bidAnswer (BidHandler.EditBid env bidID username (some payload) w).1
          (bidService.EditBid env bidID username payload w).1 ∧
        (BidHandler.EditBid env bidID username (some payload) w).2
          = (bidService.EditBid env bidID username payload w).2) ∧
      (∀ feedback, feedback ≠ "" →
        spec.bidAnswer (BidHandler.SubmitBidFeedback env bidID username feedback w).1
          (errorOf (bidService.SubmitBidFeedback bidID username feedback w).1) ∧
        (BidHandler.SubmitBidFeedback env bidID username feedback w).2
          = (bidService.SubmitBidFeedback bidID username feedback w).2)) := by
  refine ⟨fun hbad => ⟨?_, ?_, ?_, ?_⟩, fun hid => ⟨?_, ?_, ?_, ?_⟩⟩
  · simp [BidHandler.GetBidStatus, hname, hbad, http.StatusBadRequest]
  · intro status hs
    simp [BidHandler.UpdateBidStatus, hname, hs, hbad, http.StatusBadRequest]
  · intro payload
    simp [BidHandler.EditBid, bidService.EditBid, hname, hbad, errors.Is,
      http.StatusBadRequest]
  · intro feedback hfb
    simp [BidHandler.SubmitBidFeedback, hname, hfb, hbad, http.StatusBadRequest]
  · unfold BidHandler.GetBidStatus
    rcases h : bidService.GetBidStatus env bidID username w with ⟨r, w1⟩
    cases r with
    | ok status =>
      simp [h, hname, hid, errorOf, spec.bidAnswer, spec.bidStatusCode, http.StatusOK]
    | error err =>
      cases err <;>
        simp [h, hname, hid, errorOf, spec.bidAnswer, spec.bidStatusCode, spec.bidReason,
          errors.Is, utils.WriteErrorResponse, http.StatusNotFound, http.StatusUnauthorized,
          http.StatusForbidden, http.StatusInternalServerError]
  · intro status hs
    unfold BidHandler.UpdateBidStatus
    rcases h : bidService.UpdateBidStatus env bidID status username w with ⟨r, w1⟩
    cases r with
    | none => simp [h, hname, hs, hid, spec.bidAnswer, spec.bidStatusCode, http.StatusOK]
    | some err =>
      cases err <;>
        simp [h, hname, hs, hid, spec.bidAnswer, spec.bidStatusCode, spec.bidReason,
          errors.Is, utils.WriteErrorResponse, http.StatusNotFound, http.StatusUnauthorized,
          http.StatusForbidden, http.StatusInternalServerError]
  · intro payload
    have hnb := editBid_notBadRequest env w bidID username payload hid
    unfold BidHandler.EditBid
    rcases h : bidService.EditBid env bidID username payload w with ⟨r, w1⟩
    rw [h] at hnb
    cases r with
    | none => simp [h, hname, spec.bidAnswer, spec.bidStatusCode, http.StatusOK]
    | some err =>
      cases err <;>
        first
        | exact absurd rfl hnb
        | simp [h, hname, spec.bidAnswer, spec.bidStatusCode, spec.bidReason,
            errors.Is, utils.WriteErrorResponse, http.StatusNotFound, http.StatusUnauthorized,
            http.StatusForbidden, http.StatusInternalServerError]
  · intro feedback hfb
    unfold BidHandler.SubmitBidFeedback
    rcases h : bidService.SubmitBidFeedback bidID username feedback w with ⟨r, w1⟩
    cases r with
    | ok bid =>
      simp [h, hname, hfb, hid, errorOf, spec.bidAnswer, spec.bidStatusCode, http.StatusOK]
    | error err =>
      cases err <;>
        simp [h, hname, hfb, hid, errorOf, spec.bidAnswer, spec.bidStatusCode, spec.bidReason,
          errors.Is, utils.WriteErrorResponse, http.StatusNotFound, http.StatusUnauthorized,
          http.StatusForbidden, http.StatusInternalServerError]

/-- C26 at the sample data: the bid id "42" is answered 400 by EditBid; alice, who
is not the author of the sample bid, gets 403 with the reason "Insufficient
permissions" for a status update; carol gets 200 for the status of her bid. -/
theorem C26_bid_handlers_response_witness :
    BidHandler.EditBid sample.env "42" "carol" (some []) sample.world
      = ({ statusCode := 400, body := .reason "Invalid bid ID format" }, sample.world) ∧
    (BidHandler.UpdateBidStatus sample.env sample.bidId "CANCELED" "alice"
      sample.world).1.statusCode = 403 ∧
    (BidHandler.UpdateBidStatus sample.env sample.bidId "CANCELED" "alice"
      sample.world).1.body = .reason "Insufficient permissions" ∧
    (BidHandler.GetBidStatus sample.env sample.bidId "carol" sample.world).1.statusCode
      = 200 :=
  have h1 := ((C26_bid_handlers_response sample.env sample.world "42" "carol" (by decide)).1
    (by rfl)).2.2.1 []
  have h2 := (((C26_bid_handlers_response sample.env sample.world sample.bidId "alice"
    (by decide)).2 (by rfl)).2.1 "CANCELED" (by decide)).1
  have h3 := ((C26_bid_handlers_response sample.env sample.world sample.bidId "carol"
    (by decide)).2 (by rfl)).1.1
  ⟨h1, h2.1.trans (by rfl), h2.2 "Insufficient permissions" (by rfl), h3.1.trans (by rfl)⟩

/-! ## The GetBidsByTenderID handler -/

/-- Whatever its outcome, `bidService.GetBidsByTenderID` begins with the lookup of
the username. -/
theorem getBidsByTenderID_calls (env : Env) (w : World) (tenderID username : String)
    (limit offset : Int) :
    ∃ cs, (bidService.GetBidsByTenderID env tenderID username limit offset w).2.calls
      = w.calls ++ Call.GetUserByUsername username :: cs := by
  unfold bidService.GetBidsByTenderID
  have hw1 := getUserByUsername_world username w
  rcases h1 : userRepository.GetUserByUsername username w with ⟨r1, w1⟩
  rw [h1] at hw1
  simp only at hw1
  subst hw1
  cases r1 with
  | error err => exact ⟨[], by simp [tick_calls]⟩
  | ok user =>
    simp only
    by_cases hid : env.uuidParse tenderID = false
    · rw [if_pos hid]; exact ⟨[], by simp [tick_calls]⟩
    rw [if_neg hid]
    have hw2 := getTenderByID_world tenderID (w.tick (.GetUserByUsername username))
    rcases h2 : tenderRepository.GetTenderByID tenderID (w.tick (.GetUserByUsername username))
      with ⟨r2, w2⟩
    rw [h2] at hw2
    simp only at hw2
    subst hw2
    cases r2 with
    | error err =>
      refine ⟨[.GetTenderByID tenderID], ?_⟩
      simp only; split_ifs <;> simp [tick_calls]
    | ok tender =>
      simp only
      have hw3 := checkUserPermission_world user.ID tender.OrganizationID
        ((w.tick (.GetUserByUsername username)).tick (.GetTenderByID tenderID))
      rcases h3 : userRepository.CheckUserPermission user.ID tender.OrganizationID
        ((w.tick (.GetUserByUsername username)).tick (.GetTenderByID tenderID)) with ⟨r3, w3⟩
      rw [h3] at hw3
      simp only at hw3
      subst hw3
      cases r3 with
      | error err =>
        exact ⟨[.GetTenderByID tenderID, .CheckUserPermission user.ID tender.OrganizationID],
          by simp [tick_calls]⟩
      | ok hasPermission =>
        simp only
        by_cases hp : (!hasPermission) = true
        · rw [if_pos hp]
          exact ⟨[.GetTenderByID tenderID, .CheckUserPermission user.ID tender.OrganizationID],
            by simp [tick_calls]⟩
        rw [if_neg hp]
        have hw4 := getBidsByTenderID_world tenderID limit offset
          (((w.tick (.GetUserByUsername username)).tick (.GetTenderByID tenderID)).tick
            (.CheckUserPermission user.ID tender.OrganizationID))
        rcases h4 : bidRepository.GetBidsByTenderID tenderID limit offset
          (((w.tick (.GetUserByUsername username)).tick (.GetTenderByID tenderID)).tick
            (.CheckUserPermission user.ID tender.OrganizationID)) with ⟨r4, w4⟩
        rw [h4] at hw4
        simp only at hw4
        subst hw4
        refine ⟨[.GetTenderByID tenderID, .CheckUserPermission user.ID tender.OrganizationID,
          .GetBidsByTenderID tenderID limit offset], ?_⟩
        cases r4 with
        | error err => simp only; split_ifs <;> simp [tick_calls]
        | ok bids => simp [tick_calls]

/-- C27: the GetBidsByTenderID handler answers 400 and leaves the world as it was,
so the bid service is not called, whenever the tender id is not a well-formed UUID
(reason "Invalid tender ID format"), or the limit does not convert or is not
positive, or the offset does not convert or is negative (reason "Invalid request
parameters"); for a well-formed tender id, a limit of at least 1 and an offset of
at least 0 it calls the service with exactly those values: the world afterwards is
the one the service leaves, which begins with the lookup of the username, and a
list the service returns is the body of the 200 answer. -/
theorem C27_get_bids_handler_gate (env : Env) (w : World)
    (tenderID username limitParam offsetParam : String) :
    (env.uuidParse tenderID = false →
      BidHandler.GetBidsByTenderID env tenderID username limitParam offsetParam w
        = (utils.WriteErrorResponse 400 "Invalid tender ID format", w)) ∧
    (env.uuidParse tenderID = true →
      (env.atoi limitParam = none ∨ ∃ limit, env.atoi limitParam = some limit ∧ limit ≤ 0) →
      BidHandler.GetBidsByTenderID env tenderID username limitParam offsetParam w
        = (utils.WriteErrorResponse 400 "Invalid request parameters", w)) ∧
    (env.uuidParse tenderID = true →
      (env.atoi offsetParam = none ∨ ∃ offset, env.atoi offsetParam = some offset ∧ offset < 0) →
      BidHandler.GetBidsByTenderID env tenderID username limitParam offsetParam w
        = (utils.WriteErrorResponse 400 "Invalid request parameters", w)) ∧
    (∀ limit offset, env.uuidParse tenderID = true →
      env.atoi limitParam = some limit → 1 ≤ limit →
      env.atoi offsetParam = some offset → 0 ≤ offset →
      (BidHandler.GetBidsByTenderID env tenderID username limitParam offsetParam w).2
        = (bidService.GetBidsByTenderID env tenderID username limit offset w).2 ∧
      (∃ cs, (BidHandler.GetBidsByTenderID env tenderID username limitParam offsetParam
          w).2.calls = w.calls ++ Call.GetUserByUsername username :: cs) ∧
      (∀ bids, (bidService.GetBidsByTenderID env tenderID username limit offset w).1
          = .ok bids →
        (BidHandler.GetBidsByTenderID env tenderID username limitParam offsetParam w).1
          = { statusCode := 200, body := .bids bids }) ∧
      (∀ err, (bidService.GetBidsByTenderID env tenderID username limit offset w).1
          = .error err →
        (BidHandler.GetBidsByTenderID env tenderID username limitParam offsetParam
          w).1.statusCode ≠ 200)) := by
  refine ⟨?_, ?_, ?_, ?_⟩
  · intro hbad
    simp [BidHandler.GetBidsByTenderID, hbad, http.StatusBadRequest]
  · intro hid hl
    rcases hl with h | ⟨limit, h, hle⟩
    · simp [BidHandler.GetBidsByTenderID, hid, h, http.StatusBadRequest]
    · simp [BidHandler.GetBidsByTenderID, hid, h, hle, http.StatusBadRequest]
  · intro hid ho
    unfold BidHandler.GetBidsByTenderID
    cases hl : env.atoi limitParam with
    | none => simp [hid, http.StatusBadRequest]
    | some limit =>
      by_cases hle : limit ≤ 0
      · simp [hid, hle, http.StatusBadRequest]
      · rcases ho with h | ⟨offset, h, hlt⟩
        · simp [hid, hle, h, http.StatusBadRequest]
        · simp [hid, hle, h, hlt, http.StatusBadRequest]
  · intro limit offset hid hl hl1 ho ho0
    have hle : ¬ limit ≤ 0 := by omega
    have hlt : ¬ offset < 0 := by omega
    obtain ⟨cs, hcs⟩ := getBidsByTenderID_calls env w tenderID username limit offset
    have hH : (BidHandler.GetBidsByTenderID env tenderID username limitParam offsetParam w).2
        = (bidService.GetBidsByTenderID env tenderID username limit offset w).2 := by
      unfold BidHandler.GetBidsByTenderID
      rcases h : bidService.GetBidsByTenderID env tenderID username limit offset w
        with ⟨r, w1⟩
      cases r with
      | ok bids => simp [h, hid, hl, hle, ho, hlt]
      | error err => simp only [h, hid, hl, hle, ho, hlt]; simp; split_ifs <;> rfl
    refine ⟨hH, ⟨cs, by rw [hH, hcs]⟩, ?_, ?_⟩
    · intro bids hok
      unfold BidHandler.GetBidsByTenderID
      rcases h : bidService.GetBidsByTenderID env tenderID username limit offset w
        with ⟨r, w1⟩
      rw [h] at hok
      simp only at hok
      subst hok
      simp [h, hid, hl, hle, ho, hlt, http.StatusOK]
    · intro err herr
      unfold BidHandler.GetBidsByTenderID
      rcases h : bidService.GetBidsByTenderID env tenderID username limit offset w
        with ⟨r, w1⟩
      rw [h] at herr
      simp only at herr
      subst herr
      cases err <;>
        simp [h, hid, hl, hle, ho, hlt, errors.Is, utils.WriteErrorResponse,
          http.StatusBadRequest, http.StatusNotFound, http.StatusUnauthorized,
          http.StatusForbidden, http.StatusInternalServerError]

/-- C27 at the sample data: the tender id "42", a missing limit, the limit "0" and
the offset "-1" are each answered 400 with no round trip made; with limit "5" and
offset "0" bob, responsible for the organization, gets the one bid of the sample
tender. -/
theorem C27_get_bids_handler_gate_witness :
    BidHandler.GetBidsByTenderID sample.env "42" "bob" "5" "0" sample.world
      = ({ statusCode := 400, body := .reason "Invalid tender ID format" }, sample.world) ∧
    BidHandler.GetBidsByTenderID sample.env sample.tenderId "bob" "" "0" sample.world
      = ({ statusCode := 400, body := .reason "Invalid request parameters" }, sample.world) ∧
    BidHandler.GetBidsByTenderID sample.env sample.tenderId "bob" "0" "0" sample.world
      = ({ statusCode := 400, body := .reason "Invalid request parameters" }, sample.world) ∧
    BidHandler.GetBidsByTenderID sample.env sample.tenderId "bob" "5" "-1" sample.world
      = ({ statusCode := 400, body := .reason "Invalid request parameters" }, sample.world) ∧
    (BidHandler.GetBidsByTenderID sample.env sample.tenderId "bob" "5" "0" sample.world).1
      = { statusCode := 200, body := .bids [{ sample.offer with AuthorType := "" }] } :=
  ⟨(C27_get_bids_handler_gate sample.env sample.world "42" "bob" "5" "0").1 (by rfl),
    (C27_get_bids_handler_gate sample.env sample.world sample.tenderId "bob" "" "0").2.1
      (by rfl) (Or.inl (by rfl)),
    (C27_get_bids_handler_gate sample.env sample.world sample.tenderId "bob" "0" "0").2.1
      (by rfl) (Or.inr ⟨0, by rfl, by decide⟩),
    (C27_get_bids_handler_gate sample.env sample.world sample.tenderId "bob" "5" "-1").2.2.1
      (by rfl) (Or.inr ⟨-1, by rfl, by decide⟩),
    ((C27_get_bids_handler_gate sample.env sample.world sample.tenderId "bob" "5" "0").2.2.2
      5 0 (by rfl) (by rfl) (by decide) (by rfl) (by decide)).2.2.1 _ (by rfl)⟩

/-! ## ParseTenderStatus -/

/-- C28: ParseTenderStatus succeeds exactly on the strings "CREATED", "PUBLISHED" and
"CLOSED", and then returns the status whose string form is the argument; on every
other string it returns an error and the empty status, so the UpdateTenderStatus
handler answers 400 and leaves the world as it was, the service not called, for
every status outside those three values. -/
theorem C28_parse_tender_status (s : String) :
    ((models.ParseTenderStatus s).2 = none ↔
      (s = "CREATED" ∨ s = "PUBLISHED" ∨ s = "CLOSED")) ∧
    ((models.ParseTenderStatus s).2 = none → (models.ParseTenderStatus s).1 = s) ∧
    ((models.ParseTenderStatus s).2 ≠ none →
      models.ParseTenderStatus s = ("", some (errorString "invalid tender status"))) ∧
    (¬ (s = "CREATED" ∨ s = "PUBLISHED" ∨ s = "CLOSED") →
      ∀ (env : Env) (tenderId username : String) (w : World),
        (TenderHandler.UpdateTenderStatus env tenderId s username w).1.statusCode
          = http.StatusBadRequest ∧
        (TenderHandler.UpdateTenderStatus env tenderId s username w).2 = w) := by
  by_cases h1 : s = "CREATED"
  · subst h1
    exact ⟨⟨fun _ => Or.inl rfl, fun _ => rfl⟩, fun _ => rfl, fun h => absurd rfl h,
      fun h => absurd (Or.inl rfl) h⟩
  by_cases h2 : s = "PUBLISHED"
  · subst h2
    exact ⟨⟨fun _ => Or.inr (Or.inl rfl), fun _ => rfl⟩, fun _ => rfl, fun h => absurd rfl h,
      fun h => absurd (Or.inr (Or.inl rfl)) h⟩
  by_cases h3 : s = "CLOSED"
  · subst h3
    exact ⟨⟨fun _ => Or.inr (Or.inr rfl), fun _ => rfl⟩, fun _ => rfl, fun h => absurd rfl h,
      fun h => absurd (Or.inr (Or.inr rfl)) h⟩
  have hp : models.ParseTenderStatus s = ("", some (errorString "invalid tender status")) := by
    simp [models.ParseTenderStatus, Created, Published, Closed, h1, h2, h3]
  refine ⟨⟨fun h => ?_, fun h => ?_⟩, fun h => ?_, fun _ => hp, fun _ => ?_⟩
  · rw [hp] at h; simp at h
  · rcases h with h | h | h
    · exact absurd h h1
    · exact absurd h h2
    · exact absurd h h3
  · rw [hp] at h; simp at h
  · intro env tenderId username w
    unfold TenderHandler.UpdateTenderStatus
    by_cases hm : (s == "" || username == "") = true
    · rw [if_pos hm]; exact ⟨rfl, rfl⟩
    · rw [if_neg hm, hp]; exact ⟨rfl, rfl⟩

/-- C28 at the sample data: the empty string, "created" and "CANCELED" are none of
the three values; ParseTenderStatus returns the error and the empty status for
"CANCELED", and the handler answers 400 "Invalid tender status" with no round trip
made. -/
theorem C28_parse_tender_status_witness :
    models.ParseTenderStatus "CANCELED" = ("", some (errorString "invalid tender status")) ∧
    models.ParseTenderStatus "created" = ("", some (errorString "invalid tender status")) ∧
    models.ParseTenderStatus "" = ("", some (errorString "invalid tender status")) ∧
    models.ParseTenderStatus "CLOSED" = ("CLOSED", none) ∧
    (TenderHandler.UpdateTenderStatus sample.env sample.tenderId "CANCELED" "alice"
      sample.world).1.statusCode = http.StatusBadRequest ∧
    TenderHandler.UpdateTenderStatus sample.env sample.tenderId "CANCELED" "alice"
      sample.world
      = ({ statusCode := 400, body := .reason "Invalid tender status" }, sample.world) :=
  ⟨(C28_parse_tender_status "CANCELED").2.2.1 (by decide),
    (C28_parse_tender_status "created").2.2.1 (by decide),
    (C28_parse_tender_status "").2.2.1 (by decide),
    by rfl,
    ((C28_parse_tender_status "CANCELED").2.2.2 (by decide) sample.env sample.tenderId "alice"
      sample.world).1,
    by rfl⟩

/-! ## The composed CreateBid request -/

/-- C29 on the code: on the composed CreateBid path a malformed identifier is
answered 400, a tender that is not stored 404, and a user not responsible for the
organization 403; but for a well-formed user id under which no user is stored the
service returns Unauthorized, for which the handler has no case (its 401 case
tests UserNotFound), so the answer is 500 "Error creating bid", not 401 "User
not found". -/
theorem C29_create_bid_missing_user_answers_500 :
    (BidHandler.CreateBid sample.env
      (some { Description := "desc", TenderID := "42", OrganizationID := sample.orgId,
              UserID := sample.bobId, AuthorType := "User" }) sample.world).1
      = { statusCode := 400, body := .reason "Invalid request" } ∧
    (BidHandler.CreateBid sample.env
      (some { Description := "desc", TenderID := sample.strangerId,
              OrganizationID := sample.orgId, UserID := sample.bobId, AuthorType := "User" })
      sample.world).1 = { statusCode := 404, body := .reason "Tender not found" } ∧
    (BidHandler.CreateBid sample.env
      (some { Description := "desc", TenderID := sample.tenderId,
              OrganizationID := sample.orgId, UserID := sample.carolId, AuthorType := "User" })
      sample.world).1 = { statusCode := 403, body := .reason "Insufficient permissions" } ∧
    sample.env.uuidParse sample.strangerId = true ∧
    sample.world.db.userByID sample.strangerId = none ∧
    (bidService.CreateBid sample.env "desc" sample.tenderId sample.orgId sample.strangerId
      "User" sample.world).1 = .error ErrUnauthorized ∧
    (BidHandler.CreateBid sample.env
      (some { Description := "desc", TenderID := sample.tenderId,
              OrganizationID := sample.orgId, UserID := sample.strangerId,
              AuthorType := "User" })
      sample.world).1 = { statusCode := 500, body := .reason "Error creating bid" } ∧
    Err.isValidationKind ErrUnauthorized = true :=
  ⟨by rfl, by rfl, by rfl, by rfl, by rfl, by rfl, by rfl, by rfl⟩

/-! ## The statement EditBid assembles -/

theorem intercalate_go_append (p acc s : String) (l : List String) :
    String.intercalate.go (p ++ acc) s l = p ++ String.intercalate.go acc s l := by
  induction l generalizing acc with
  | nil => rfl
  | cons a l ih =>
    simp only [String.intercalate.go]
    rw [String.append_assoc, String.append_assoc, ← String.append_assoc acc, ih]

/-- Past the first entry, the loop of `EditBid` extends the query the way
`intercalate` does, appends the values to the parameters and counts the entries. -/
theorem editBid_loop_spec (updates : List (String × Value)) (query : String)
    (params : List Value) (paramIndex : Nat) (h : 1 < paramIndex) :
    bidRepository.EditBid.loop updates query params paramIndex
      = (String.intercalate.go query ", " (spec.assignments updates paramIndex),
         params ++ updates.map Prod.snd, paramIndex + updates.length) := by
  induction updates generalizing query params paramIndex with
  | nil => simp [bidRepository.EditBid.loop, spec.assignments, String.intercalate.go]
  | cons u rest ih =>
    obtain ⟨field, value⟩ := u
    have hgt : paramIndex > 1 := h
    simp only [bidRepository.EditBid.loop, spec.assignments, String.intercalate.go, if_pos hgt]
    rw [ih _ _ _ (by omega)]
    simp [Nat.add_assoc, Nat.add_comm 1]

theorem editBid_statement_spec (bidID : String) (updates : List (String × Value)) :
    bidRepository.EditBid.statement bidID updates = spec.editBidStatement bidID updates := by
  cases updates with
  | nil => rfl
  | cons u rest =>
    obtain ⟨field, value⟩ := u
    have hnot : ¬ (1 > 1) := by omega
    simp only [bidRepository.EditBid.statement, bidRepository.EditBid.loop, if_neg hnot,
      spec.editBidStatement, spec.assignments, String.intercalate]
    rw [editBid_loop_spec rest _ _ 2 (by omega), intercalate_go_append]
    have e : 1 + (rest.length + 1) = rest.length + 2 := by omega
    simp [Nat.add_comm, String.append_assoc, e]

theorem assignments_getElem (updates : List (String × Value)) (i k : Nat) :
    (spec.assignments updates i)[k]?
      = updates[k]?.map (fun p => p.1 ++ " = $" ++ toString (i + k)) := by
  induction updates generalizing i k with
  | nil => simp [spec.assignments]
  | cons u rest ih =>
    obtain ⟨field, value⟩ := u
    cases k with
    | zero => simp [spec.assignments]
    | succ k =>
      simp only [spec.assignments, List.getElem?_cons_succ]
      rw [ih (i + 1) k]
      simp [Nat.add_assoc, Nat.add_comm 1]

theorem assignments_length (updates : List (String × Value)) (i : Nat) :
    (spec.assignments updates i).length = updates.length := by
  induction updates generalizing i with
  | nil => rfl
  | cons u rest ih =>
    obtain ⟨field, value⟩ := u
    simp [spec.assignments, ih]

/-- C30: for every bid id and every update map (with n entries, n at least 1, listed
in their iteration order), bidRepository.EditBid builds the statement
"UPDATE bid SET f1 = $1, ..., fn = $n, updated_at = NOW() WHERE id = $(n+1)" with
the field names inserted verbatim, together with the parameter list
[v1, ..., vn, bidID]: the assignment at place k+1 is "f = $(k+1)" for the field f
listed there and the parameter at that place is its value, the last parameter is
the bid id, there are n+1 parameters for the n+1 placeholders, and this statement
with these parameters is what is handed to the database. -/
theorem C30_edit_bid_statement (bidID : String) (updates : List (String × Value)) :
    bidRepository.EditBid.statement bidID updates = spec.editBidStatement bidID updates ∧
    (bidRepository.EditBid.statement bidID updates).2.length = updates.length + 1 ∧
    (spec.assignments updates 1).length = updates.length ∧
    (∀ k (hk : k < updates.length),
      (spec.assignments updates 1)[k]? = some ((updates[k]).1 ++ " = $" ++ toString (k + 1)) ∧
      (bidRepository.EditBid.statement bidID updates).2[k]? = some (updates[k]).2) ∧
    (bidRepository.EditBid.statement bidID updates).2[updates.length]?
      = some (Value.string bidID) ∧
    (∀ (env : Env) (w : World), w.fault = none →
      (bidRepository.EditBid env bidID updates w).1 =
        match env.execDynamic (spec.editBidStatement bidID updates).1
            (spec.editBidStatement bidID updates).2 w.db with
        | .error msg => some (driver msg)
        | .ok result =>
          match result.rowsAffected with
          | .error msg => some (driver msg)
          | .ok rowsAffected => if rowsAffected = 0 then some ErrBidNotFound else none) := by
  have hs := editBid_statement_spec bidID updates
  refine ⟨hs, ?_, assignments_length updates 1, ?_, ?_, ?_⟩
  · rw [hs]; simp [spec.editBidStatement]
  · intro k hk
    refine ⟨?_, ?_⟩
    · rw [assignments_getElem updates 1 k, List.getElem?_eq_getElem hk]
      simp [Nat.add_comm]
    · rw [hs]
      simp [spec.editBidStatement, List.getElem?_append_left, hk]
  · rw [hs]
    simp [spec.editBidStatement, List.getElem?_append_right]
  · intro env w hf
    rw [← hs]
    simp only [bidRepository.EditBid, hf]
    cases env.execDynamic (bidRepository.EditBid.statement bidID updates).1
        (bidRepository.EditBid.statement bidID updates).2 w.db with
    | error msg => rfl
    | ok result =>
      simp only
      cases result.rowsAffected with
      | error msg => rfl
      | ok n => simp only; split_ifs <;> rfl

/-- C30 at the sample data: for the map with the entries description and status the
statement has the two assignments in that order and the bid id as third
parameter. -/
theorem C30_edit_bid_statement_witness :
    bidRepository.EditBid.statement sample.bidId
        [("description", .string "new"), ("status", .string "CANCELED")]
      = ("UPDATE bid SET description = $1, status = $2, updated_at = NOW() WHERE id = $3",
         [.string "new", .string "CANCELED", .string sample.bidId]) ∧
    (bidRepository.EditBid.statement sample.bidId
        [("description", .string "new"), ("status", .string "CANCELED")]).2[1]?
      = some (Value.string "CANCELED") ∧
    (bidRepository.EditBid sample.env sample.bidId
        [("description", .string "new"), ("status", .string "CANCELED")] sample.world).1
      = none :=
  have h := C30_edit_bid_statement sample.bidId
    [("description", .string "new"), ("status", .string "CANCELED")]
  ⟨h.1.trans (by rfl), (h.2.2.2.1 1 (by decide)).2,
    (h.2.2.2.2.2 sample.env sample.world (by rfl)).trans (by rfl)⟩
